import Mathlib

/-!
# KubeRay job command assembler

A shallow embedding of `ray-operator/controllers/ray/common/job.go`
(`GetDecodedRuntimeEnv`, `getRuntimeEnvJson`, `GetBaseRayJobCommand`,
`GetMetadataJson`, `GetK8sJobCommand`) together with the library routines it
calls, of `GetDefaultSubmitterTemplate` of the same file and of
`ray-operator/controllers/ray/common/route.go` (`BuildRouteForHeadService`,
`BuildRouteForRayService`), followed by theorems about the assembled command
line, the submitter template and the routes.

A Go `string` is an immutable sequence of bytes, so it is embedded as a list
of bytes (`List Nat`, every element below 256).  A Go return `(string, error)`
is embedded as a pair `GoString × Option GoError`; the result of
`GetK8sJobCommand` is a command, an error, or a run-time panic.  Library
routines are modelled after their sources; `yaml.YAMLToJSON` is a parameter.
-/

namespace KubeRay

/-! ## Go strings -/

/-- A Go string: its bytes, in order. -/
abbrev GoString := List Nat

/-- UTF-8 encoding of one code point, as Go's `utf8.AppendRune` writes it. -/
def utf8Encode (r : Nat) : List Nat :=
  if r < 0x80 then [r]
  else if r < 0x800 then [0xC0 + r / 64, 0x80 + r % 64]
  else if r < 0x10000 then [0xE0 + r / 4096, 0x80 + r / 64 % 64, 0x80 + r % 64]
  else [0xF0 + r / 262144, 0x80 + r / 4096 % 64, 0x80 + r / 64 % 64, 0x80 + r % 64]

/-- A string literal of the source, as the bytes the Go compiler stores. -/
def lit (s : String) : GoString :=
  s.data.flatMap (fun c => utf8Encode c.toNat)

/-- Go `strings.HasPrefix(s, p)`. -/
def HasPrefix : GoString → GoString → Bool
  | _, [] => true
  | [], _ :: _ => false
  | a :: s, b :: p => a == b && HasPrefix s p

/-! ## unicode/utf8 -/

/-- Go `utf8.RuneError`, the replacement character U+FFFD. -/
def RuneError : Nat := 0xFFFD

/-- Go `utf8.DecodeRuneInString`: the first rune of `s` and its width in
bytes.  An ill-formed sequence gives `(RuneError, 1)`, the empty string
`(RuneError, 0)`. -/
def DecodeRuneInString (s : GoString) : Nat × Nat :=
  match s with
  | [] => (RuneError, 0)
  | s0 :: t =>
    if s0 < 0x80 then (s0, 1)
    else if s0 < 0xC2 ∨ 0xF4 < s0 then (RuneError, 1)
    else
      let sz := if s0 < 0xE0 then 2 else if s0 < 0xF0 then 3 else 4
      let lo := if s0 = 0xE0 then 0xA0 else if s0 = 0xF0 then 0x90 else 0x80
      let hi := if s0 = 0xED then 0x9F else if s0 = 0xF4 then 0x8F else 0xBF
      if s.length < sz then (RuneError, 1)
      else match t with
        | [] => (RuneError, 1)
        | s1 :: t1 =>
          if s1 < lo ∨ hi < s1 then (RuneError, 1)
          else if sz ≤ 2 then (s0 % 32 * 64 + s1 % 64, 2)
          else match t1 with
            | [] => (RuneError, 1)
            | s2 :: t2 =>
              if s2 < 0x80 ∨ 0xBF < s2 then (RuneError, 1)
              else if sz ≤ 3 then (s0 % 16 * 4096 + s1 % 64 * 64 + s2 % 64, 3)
              else match t2 with
                | [] => (RuneError, 1)
                | s3 :: _ =>
                  if s3 < 0x80 ∨ 0xBF < s3 then (RuneError, 1)
                  else (s0 % 8 * 262144 + s1 % 64 * 4096 + s2 % 64 * 64 + s3 % 64, 4)

/-- Go `string(r)` for a rune: code points that are not Unicode scalar values
are written as `RuneError`. -/
def runeToString (r : Nat) : GoString :=
  if 0x10FFFF < r ∨ (0xD800 ≤ r ∧ r ≤ 0xDFFF) then utf8Encode RuneError else utf8Encode r

/-- The runes that successive `ReadRune` calls on a `strings.Reader` return
before `io.EOF`.  Every call consumes at least one byte, so `fuel = len(s)`
reads the whole string. -/
def readRunes : Nat → GoString → List Nat
  | 0, _ => []
  | _, [] => []
  | fuel + 1, b :: s =>
    let rw := DecodeRuneInString (b :: s)
    rw.1 :: readRunes fuel ((b :: s).drop rw.2)

/-! ## github.com/google/shlex -/

/-- The lexer states of shlex. -/
inductive lexerState where
  | startState
  | inWordState
  | escapingState
  | escapingQuotedState
  | quotingEscapingState
  | quotingState
  | commentState
  deriving DecidableEq, Repr

/-- The token classes of shlex. -/
inductive TokenType where
  | UnknownToken
  | WordToken
  | SpaceToken
  | CommentToken
  deriving DecidableEq, Repr

/-- The rune classes of shlex; end of input is the empty rune list here. -/
inductive runeTokenClass where
  | unknownRuneClass
  | spaceRuneClass
  | escapingQuoteRuneClass
  | nonEscapingQuoteRuneClass
  | escapeRuneClass
  | commentRuneClass
  deriving DecidableEq, Repr

/-- The errors `shlex.Split` can return. -/
inductive ShlexError where
  | eofAfterEscape
  | eofInQuote
  | unknownTokenType
  deriving DecidableEq, Repr

/-- The default classifier of shlex: space, tab, CR, LF are spaces, `"` is the
escaping quote, `'` the non-escaping quote, `\` the escape and `#` the
comment rune. -/
def ClassifyRune (r : Nat) : runeTokenClass :=
  if r = 0x20 ∨ r = 0x09 ∨ r = 0x0D ∨ r = 0x0A then .spaceRuneClass
  else if r = 0x22 then .escapingQuoteRuneClass
  else if r = 0x27 then .nonEscapingQuoteRuneClass
  else if r = 0x5C then .escapeRuneClass
  else if r = 0x23 then .commentRuneClass
  else .unknownRuneClass

/-- What `Lexer.Next` and the loop of `Split` do with a token that
`scanStream` returned without error: a word is appended to the result, a
comment is skipped, any other token type is an error. -/
def emitToken (tokenType : TokenType) (value : List Nat)
    (rest : List GoString × Option ShlexError) : List GoString × Option ShlexError :=
  match tokenType with
  | .WordToken => (value.flatMap runeToString :: rest.1, rest.2)
  | .CommentToken => rest
  | _ => ([], some .unknownTokenType)

/-- The state machine of `Tokenizer.scanStream`, run to the end of the input
as `Split` does: each returned token restarts the machine in `startState`
with an empty value.  The result is what `Split` returns: the words read
so far and the error, if any. -/
def scanStream : lexerState → TokenType → List Nat → List Nat →
    List GoString × Option ShlexError
  | .startState, _, _, [] => ([], none)
  | .inWordState, tokenType, value, [] => emitToken tokenType value ([], none)
  | .escapingState, _, _, [] => ([], some .eofAfterEscape)
  | .escapingQuotedState, _, _, [] => ([], some .eofAfterEscape)
  | .quotingEscapingState, _, _, [] => ([], some .eofInQuote)
  | .quotingState, _, _, [] => ([], some .eofInQuote)
  | .commentState, tokenType, value, [] => emitToken tokenType value ([], none)
  | .startState, tokenType, value, nextRune :: input =>
    match ClassifyRune nextRune with
    | .spaceRuneClass => scanStream .startState tokenType value input
    | .escapingQuoteRuneClass => scanStream .quotingEscapingState .WordToken value input
    | .nonEscapingQuoteRuneClass => scanStream .quotingState .WordToken value input
    | .escapeRuneClass => scanStream .escapingState .WordToken value input
    | .commentRuneClass => scanStream .commentState .CommentToken value input
    | _ => scanStream .inWordState .WordToken (value ++ [nextRune]) input
  | .inWordState, tokenType, value, nextRune :: input =>
    match ClassifyRune nextRune with
    | .spaceRuneClass =>
      emitToken tokenType value (scanStream .startState .UnknownToken [] input)
    | .escapingQuoteRuneClass => scanStream .quotingEscapingState tokenType value input
    | .nonEscapingQuoteRuneClass => scanStream .quotingState tokenType value input
    | .escapeRuneClass => scanStream .escapingState tokenType value input
    | _ => scanStream .inWordState tokenType (value ++ [nextRune]) input
  | .escapingState, tokenType, value, nextRune :: input =>
    scanStream .inWordState tokenType (value ++ [nextRune]) input
  | .escapingQuotedState, tokenType, value, nextRune :: input =>
    scanStream .quotingEscapingState tokenType (value ++ [nextRune]) input
  | .quotingEscapingState, tokenType, value, nextRune :: input =>
    match ClassifyRune nextRune with
    | .escapingQuoteRuneClass => scanStream .inWordState tokenType value input
    | .escapeRuneClass => scanStream .escapingQuotedState tokenType value input
    | _ => scanStream .quotingEscapingState tokenType (value ++ [nextRune]) input
  | .quotingState, tokenType, value, nextRune :: input =>
    match ClassifyRune nextRune with
    | .nonEscapingQuoteRuneClass => scanStream .inWordState tokenType value input
    | _ => scanStream .quotingState tokenType (value ++ [nextRune]) input
  | .commentState, tokenType, value, nextRune :: input =>
    match ClassifyRune nextRune with
    | .spaceRuneClass =>
      if nextRune = 0x0A then
        emitToken tokenType value (scanStream .startState .UnknownToken [] input)
      else scanStream .commentState tokenType (value ++ [nextRune]) input
    | _ => scanStream .commentState tokenType (value ++ [nextRune]) input

/-- Go `shlex.Split(s)`: the words of `s` and the error, if any. -/
def Split (s : GoString) : List GoString × Option ShlexError :=
  scanStream .startState .UnknownToken [] (readRunes s.length s)

/-! ## encoding/base64 -/

/-- The decode map of `base64.StdEncoding`: the 6-bit value of an alphabet
byte (`A-Z`, `a-z`, `0-9`, `+`, `/`), `none` for every other byte. -/
def decodeMap (c : Nat) : Option Nat :=
  if 0x41 ≤ c ∧ c ≤ 0x5A then some (c - 0x41)
  else if 0x61 ≤ c ∧ c ≤ 0x7A then some (c - 0x61 + 26)
  else if 0x30 ≤ c ∧ c ≤ 0x39 then some (c - 0x30 + 52)
  else if c = 0x2B then some 62
  else if c = 0x2F then some 63
  else none

/-- The loop that skips `\n` and `\r` in `decodeQuantum`. -/
def skipNewlines : GoString → GoString
  | [] => []
  | c :: s => if c = 0x0A ∨ c = 0x0D then skipNewlines s else c :: s

/-- The last step of `decodeQuantum`: the first `dlen - 1` bytes of the 24-bit
value of four 6-bit digits (missing digits are zero, left-over bits are
dropped: `StdEncoding` is not strict). -/
def quantumBytes (dbuf : List Nat) (dlen : Nat) : List Nat :=
  let val := dbuf.getD 0 0 * 262144 + dbuf.getD 1 0 * 4096 + dbuf.getD 2 0 * 64 + dbuf.getD 3 0
  [val / 65536 % 256, val / 256 % 256, val % 256].take (dlen - 1)

/-- Go `base64.StdEncoding.DecodeString`, as the repeated `decodeQuantum` of
`Encoding.Decode`; `dbuf` holds the digits of the quantum read so far.
`none` is a `CorruptInputError`. -/
def decodeFrom : List Nat → GoString → Option (List Nat)
  | dbuf, [] => if dbuf.length = 0 then some [] else none
  | dbuf, c :: src =>
    match decodeMap c with
    | some out =>
      if dbuf.length = 3 then
        (decodeFrom [] src).map (fun tail => quantumBytes (dbuf ++ [out]) 4 ++ tail)
      else decodeFrom (dbuf ++ [out]) src
    | none =>
      if c = 0x0A ∨ c = 0x0D then decodeFrom dbuf src
      else if c ≠ 0x3D then none
      else if dbuf.length < 2 then none
      else if dbuf.length = 2 then
        match skipNewlines src with
        | [] => none
        | c2 :: src2 =>
          if c2 ≠ 0x3D then none
          else if skipNewlines src2 ≠ [] then none
          else some (quantumBytes dbuf 2)
      else if skipNewlines src ≠ [] then none
      else some (quantumBytes dbuf 3)

/-- Go `base64.StdEncoding.DecodeString(s)`. -/
def DecodeString (s : GoString) : Option (List Nat) :=
  decodeFrom [] s

/-! ## github.com/Masterminds/semver/v3 -/

/-- A parsed semantic version (`semver.Version`). -/
structure Version where
  major : Nat
  minor : Nat
  patch : Nat
  pre : GoString
  metadata : GoString
  original : GoString
  deriving DecidableEq, Repr

/-- The bytes `0-9`. -/
def isDigit (c : Nat) : Bool := 0x30 ≤ c && c ≤ 0x39

/-- The bytes `[0-9A-Za-z-]` of a pre-release or metadata segment. -/
def isAllowed (c : Nat) : Bool :=
  isDigit c || (0x41 ≤ c && c ≤ 0x5A) || (0x61 ≤ c && c ≤ 0x7A) || c == 0x2D

/-- Go `strconv.ParseUint(s, 10, 64)` on a string of decimal digits: the
value, or `none` when `s` is empty or the value does not fit 64 bits. -/
def ParseUint (s : GoString) : Option Nat :=
  if s = [] ∨ ¬ s.all isDigit then none
  else
    let n := s.foldl (fun acc c => acc * 10 + (c - 0x30)) 0
    if n < 2 ^ 64 then some n else none

/-- Go `strings.Split(s, ".")`. -/
def splitDot : GoString → List GoString
  | [] => [[]]
  | c :: s =>
    if c = 0x2E then [] :: splitDot s
    else match splitDot s with
      | [] => [[c]]
      | h :: t => (c :: h) :: t

/-- The sub-pattern `[0-9A-Za-z\-]+(\.[0-9A-Za-z\-]+)*` of the version
pattern: non-empty segments of allowed bytes, separated by dots. -/
def isIdentList (s : GoString) : Bool :=
  (splitDot s).all (fun seg => seg ≠ [] && seg.all isAllowed)

/-- The check `validatePrerelease`: a numeric segment of more than one digit
must not start with `0`. -/
def validatePrerelease (p : GoString) : Bool :=
  (splitDot p).all (fun seg =>
    if seg.all isDigit then !(1 < seg.length && seg.head? == some 0x30)
    else seg.all isAllowed)

/-- The check `validateMetadata`: every segment has allowed bytes only. -/
def validateMetadata (m : GoString) : Bool :=
  (splitDot m).all (fun seg => seg.all isAllowed)

/-- The optional group `(\.[0-9]+)?` at the head of `s`: the digits matched
(empty when the group does not take part) and the rest of the input. -/
def takeDotNumber (s : GoString) : GoString × GoString :=
  match s with
  | c :: t =>
    if c = 0x2E ∧ (t.takeWhile isDigit) ≠ [] then (t.takeWhile isDigit, t.dropWhile isDigit)
    else ([], s)
  | [] => ([], s)

/-- Go `semver.NewVersion(v)`: match `v` against
`^v?([0-9]+)(\.[0-9]+)?(\.[0-9]+)?(-(ident(\.ident)*))?(\+(ident(\.ident)*))?$`,
parse the three numbers as 64-bit unsigned integers (an absent minor or patch
is 0) and validate the pre-release and metadata parts.  `none` is an error. -/
def NewVersion (v : GoString) : Option Version :=
  let s0 := match v with
    | c :: t => if c = 0x76 then t else v
    | [] => v
  let m1 := s0.takeWhile isDigit
  let s1 := s0.dropWhile isDigit
  let (m2, s2) := takeDotNumber s1
  let (m3, s3) := takeDotNumber s2
  let (hasPre, pre, s4) := match s3 with
    | c :: t =>
      if c = 0x2D then (true, t.takeWhile (fun b => isAllowed b || b == 0x2E),
        t.dropWhile (fun b => isAllowed b || b == 0x2E))
      else (false, [], s3)
    | [] => (false, [], s3)
  let (hasMeta, md, s5) := match s4 with
    | c :: t => if c = 0x2B then (true, t, []) else (false, [], s4)
    | [] => (false, [], s4)
  if m1 = [] ∨ s5 ≠ [] then none
  else if hasPre ∧ ¬ isIdentList pre then none
  else if hasMeta ∧ ¬ isIdentList md then none
  else
    match ParseUint m1, (if m2 = [] then some 0 else ParseUint m2),
        (if m3 = [] then some 0 else ParseUint m3) with
    | some major, some minor, some patch =>
      if pre ≠ [] ∧ ¬ validatePrerelease pre then none
      else if md ≠ [] ∧ ¬ validateMetadata md then none
      else some { major := major, minor := minor, patch := patch, pre := pre,
                  metadata := md, original := v }
    | _, _, _ => none

/-- Go `compareSegment`: -1, 0 or 1. -/
def compareSegment (v o : Nat) : Int :=
  if v < o then -1 else if v > o then 1 else 0

/-- Byte-wise order of Go strings (`s < o`). -/
def strLt : GoString → GoString → Bool
  | [], [] => false
  | [], _ :: _ => true
  | _ :: _, [] => false
  | a :: s, b :: o => a < b || (a == b && strLt s o)

/-- Go `comparePrePart`: one dot-separated part of two pre-releases. -/
def comparePrePart (s o : GoString) : Int :=
  if s = o then 0
  else if s = [] then -1
  else if o = [] then 1
  else
    match ParseUint o, ParseUint s with
    | none, none => if strLt o s then 1 else -1
    | none, some _ => -1
    | some _, none => 1
    | some oi, some si => if si > oi then 1 else -1

/-- The loop of `comparePrerelease` over the parts of both pre-releases, the
shorter list padded with empty parts. -/
def comparePreParts : List GoString → List GoString → Int
  | [], [] => 0
  | s :: sparts, [] =>
    if comparePrePart s [] ≠ 0 then comparePrePart s [] else comparePreParts sparts []
  | [], o :: oparts =>
    if comparePrePart [] o ≠ 0 then comparePrePart [] o else comparePreParts [] oparts
  | s :: sparts, o :: oparts =>
    if comparePrePart s o ≠ 0 then comparePrePart s o else comparePreParts sparts oparts

/-- Go `comparePrerelease`. -/
def comparePrerelease (v o : GoString) : Int :=
  comparePreParts (splitDot v) (splitDot o)

/-- Go `(*Version).Compare`: -1, 0 or 1 as `v` is below, equal to or above
`o` in semantic-version precedence. -/
def Version.Compare (v o : Version) : Int :=
  if compareSegment v.major o.major ≠ 0 then compareSegment v.major o.major
  else if compareSegment v.minor o.minor ≠ 0 then compareSegment v.minor o.minor
  else if compareSegment v.patch o.patch ≠ 0 then compareSegment v.patch o.patch
  else if v.pre = [] ∧ o.pre = [] then 0
  else if v.pre = [] then 1
  else if o.pre = [] then -1
  else comparePrerelease v.pre o.pre

/-- The version `2.6.0` of the constraint `">= 2.6.0"`. -/
def v260 : Version :=
  { major := 2, minor := 6, patch := 0, pre := [], metadata := [], original := lit "2.6.0" }

/-- Go `constraintGreaterThanEqual(v, c)`, the test behind
`Constraints.Check` for a single `>=` constraint on version `con`: a
pre-release version never satisfies a constraint that has no pre-release. -/
def constraintGreaterThanEqual (v con : Version) : Bool :=
  if v.pre ≠ [] ∧ con.pre = [] then false
  else decide (con.Compare v ≤ 0)

/-- The value of `constraint.Check(v)` for
`constraint, _ := semver.NewConstraint(">= 2.6.0")`. -/
def constraintCheck (v : Version) : Bool :=
  constraintGreaterThanEqual v v260

/-! ## encoding/json -/

/-- A Go `map[string]string`: `none` is the nil map, `some m` a map holding
the entries of `m`.  A map has every key once and no order of its own; where
that matters the keys of `m` are required to be distinct. -/
abbrev GoMap := Option (List (GoString × GoString))

/-- Go `len(m)` of a map. -/
def GoMap.len : GoMap → Nat
  | none => 0
  | some m => m.length

/-- The lower-case hexadecimal digit of `n < 16`. -/
def hexDigit (n : Nat) : Nat :=
  if n < 10 then 0x30 + n else 0x61 + (n - 10)

/-- The table `htmlSafeSet` of encoding/json: the ASCII bytes written as they
are, all printable ones but `"`, `&`, `<`, `>` and `\`. -/
def htmlSafeSet (b : Nat) : Bool :=
  0x20 ≤ b && b < 0x80 && b != 0x22 && b != 0x26 && b != 0x3C && b != 0x3E && b != 0x5C

/-- The body of a JSON string as `encodeState.string(s, escapeHTML = true)`
writes it (control bytes other than `\n`, `\r`, `\t` as `\u00xx`, as the Go
releases before 1.22 do).  Every step consumes at least one byte. -/
def encodeStringBody : Nat → GoString → GoString
  | 0, _ => []
  | _, [] => []
  | fuel + 1, b :: s =>
    if b < 0x80 then
      (if htmlSafeSet b then [b]
       else if b = 0x5C ∨ b = 0x22 then [0x5C, b]
       else if b = 0x0A then lit "\\n"
       else if b = 0x0D then lit "\\r"
       else if b = 0x09 then lit "\\t"
       else lit "\\u00" ++ [hexDigit (b / 16), hexDigit (b % 16)]) ++ encodeStringBody fuel s
    else
      let rw := DecodeRuneInString (b :: s)
      if rw.1 = RuneError ∧ rw.2 = 1 then lit "\\ufffd" ++ encodeStringBody fuel s
      else if rw.1 = 0x2028 ∨ rw.1 = 0x2029 then
        lit "\\u202" ++ [hexDigit (rw.1 % 16)] ++ encodeStringBody fuel ((b :: s).drop rw.2)
      else (b :: s).take rw.2 ++ encodeStringBody fuel ((b :: s).drop rw.2)

/-- A Go string as a JSON string, between double quotes. -/
def encodeString (s : GoString) : GoString :=
  [0x22] ++ encodeStringBody s.length s ++ [0x22]

/-- Insert an entry before the first entry whose key is greater. -/
def insertByKey (kv : GoString × GoString) : List (GoString × GoString) →
    List (GoString × GoString)
  | [] => [kv]
  | x :: xs => if strLt x.1 kv.1 then x :: insertByKey kv xs else kv :: x :: xs

/-- The entries of a map in ascending order of their keys, as the map encoder
of encoding/json sorts them. -/
def sortByKey (m : List (GoString × GoString)) : List (GoString × GoString) :=
  m.foldr insertByKey []

/-- The entries `"key":"value"` of an object, separated by commas. -/
def encodeEntries : List (GoString × GoString) → GoString
  | [] => []
  | [kv] => encodeString kv.1 ++ [0x3A] ++ encodeString kv.2
  | kv :: rest => encodeString kv.1 ++ [0x3A] ++ encodeString kv.2 ++ [0x2C] ++ encodeEntries rest

/-- Go `json.Marshal(m)` for a `map[string]string`; it never fails. -/
def Marshal : GoMap → GoString
  | none => lit "null"
  | some m => [0x7B] ++ encodeEntries (sortByKey m) ++ [0x7D]

/-! ## fmt -/

/-- A Go `float32`: a finite value `(-1)^neg * mant * 2^exp`, an infinity or
a NaN.  The finite values of the type have `mant < 2^24` and
`-149 ≤ exp ≤ 104`. -/
inductive GoFloat32 where
  | finite (neg : Bool) (mant : Nat) (exp : Int)
  | inf (neg : Bool)
  | nan
  deriving DecidableEq, Repr

/-- Go `x > 0` on a `float32`. -/
def GoFloat32.isPos : GoFloat32 → Bool
  | .finite neg mant _ => !neg && 0 < mant
  | .inf neg => !neg
  | .nan => false

/-- The decimal digits of a natural number. -/
def decimal (n : Nat) : GoString :=
  (Nat.toDigits 10 n).map Char.toNat

/-- The number `mant * 2^exp * 10^6` rounded to the nearest integer, ties to
the even one: the digits `%f` prints, without the decimal point. -/
def roundMicro (mant : Nat) (exp : Int) : Nat :=
  match exp with
  | .ofNat e => mant * 2 ^ e * 10 ^ 6
  | .negSucc e =>
    let den := 2 ^ (e + 1)
    let q := mant * 10 ^ 6 / den
    let r := mant * 10 ^ 6 % den
    if den < 2 * r ∨ (2 * r = den ∧ q % 2 = 1) then q + 1 else q

/-- Go `fmt.Sprintf("%f", x)` for a `float32`: six digits after the point. -/
def SprintfF : GoFloat32 → GoString
  | .nan => lit "NaN"
  | .inf neg => if neg then lit "-Inf" else lit "+Inf"
  | .finite neg mant exp =>
    let q := roundMicro mant exp
    let frac := decimal (q % 10 ^ 6)
    (if neg then lit "-" else []) ++ decimal (q / 10 ^ 6) ++ lit "." ++
      List.replicate (6 - frac.length) 0x30 ++ frac

/-! ## The RayJob resource (rayv1), as far as job.go reads it -/

/-- A quantity of a resource (`resource.Quantity`), held as the text it is
parsed from. -/
structure Quantity where
  text : GoString
  deriving DecidableEq, Repr

/-- The quantity of a text (`resource.MustParse`).  In Go it panics on a text
that is no quantity; job.go calls it on the four literals `1`, `1Gi`, `500m`
and `200Mi` only, which are quantities. -/
def MustParse (str : GoString) : Quantity :=
  { text := str }

/-- The quantities of the named resources (`v1.ResourceList`, a map keyed by
the resource name). -/
abbrev ResourceList := List (GoString × Quantity)

/-- The resource name `v1.ResourceCPU`. -/
def ResourceCPU : GoString := lit "cpu"

/-- The resource name `v1.ResourceMemory`. -/
def ResourceMemory : GoString := lit "memory"

/-- The compute resources of a container (`v1.ResourceRequirements`). -/
structure ResourceRequirements where
  Limits : ResourceList := []
  Requests : ResourceList := []
  deriving DecidableEq, Repr

/-- A container of a pod template (`v1.Container`). -/
structure Container where
  Name : GoString := []
  Image : GoString := []
  Resources : ResourceRequirements := {}
  deriving DecidableEq, Repr

/-- The restart policy `v1.RestartPolicyNever`. -/
def RestartPolicyNever : GoString := lit "Never"

/-- The specification of a pod (`v1.PodSpec`). -/
structure PodSpec where
  Containers : List Container := []
  RestartPolicy : GoString := []
  deriving DecidableEq, Repr

/-- A pod template (`v1.PodTemplateSpec`). -/
structure PodTemplateSpec where
  Spec : PodSpec := {}
  deriving DecidableEq, Repr

/-- The head group of a cluster (`rayv1.HeadGroupSpec`). -/
structure HeadGroupSpec where
  Template : PodTemplateSpec := {}
  deriving DecidableEq, Repr

/-- The cluster specification (`rayv1.RayClusterSpec`). -/
structure RayClusterSpec where
  RayVersion : GoString := []
  HeadGroupSpec : HeadGroupSpec := {}
  deriving DecidableEq, Repr

/-- The job specification (`rayv1.RayJobSpec`).  `RayClusterSpec` is a
pointer in Go: `none` is nil. -/
structure RayJobSpec where
  Entrypoint : GoString := []
  RuntimeEnv : GoString := []
  RuntimeEnvYAML : GoString := []
  Metadata : GoMap := none
  RayClusterSpec : Option RayClusterSpec := none
  EntrypointNumCpus : GoFloat32 := .finite false 0 0
  EntrypointNumGpus : GoFloat32 := .finite false 0 0
  EntrypointResources : GoString := []
  ClusterSelector : GoMap := none
  deriving DecidableEq, Repr

/-- The job status (`rayv1.RayJobStatus`). -/
structure RayJobStatus where
  JobId : GoString := []
  DashboardURL : GoString := []
  deriving DecidableEq, Repr

/-- The job resource (`rayv1.RayJob`). -/
structure RayJob where
  Spec : RayJobSpec := {}
  Status : RayJobStatus := {}
  deriving DecidableEq, Repr

/-- The errors job.go returns, by the place that creates them. -/
inductive GoError where
  /-- `failed to decode runtimeEnv` -/
  | decodeRuntimeEnv
  /-- `Both runtimeEnv and RuntimeEnvYAML are specified` -/
  | bothRuntimeEnv
  /-- The error of `yaml.YAMLToJSON`, passed on. -/
  | yamlToJSON
  /-- `failed to parse Ray version` -/
  | parseRayVersion
  /-- `the Ray version must be at least 2.6.0 to use the metadata field` -/
  | rayVersionTooLow
  /-- The error of `shlex.Split`, passed on. -/
  | shlex (e : ShlexError)
  deriving DecidableEq, Repr

/-- What a call of `GetK8sJobCommand` does: return `(cmd, nil)`, return
`(nil, err)`, or panic on a nil pointer dereference. -/
inductive JobResult where
  | ok (cmd : List GoString)
  | err (e : GoError)
  | panic
  deriving DecidableEq, Repr

/-! ## job.go -/

/-- Source: `GetDecodedRuntimeEnv` (job.go, lines 17-24).  The pair is the Go
return `(string, error)`. -/
def GetDecodedRuntimeEnv (runtimeEnv : GoString) : GoString × Option GoError :=
  match DecodeString runtimeEnv with
  | none => ([], some .decodeRuntimeEnv)
  | some decodedBytes => (decodedBytes, none)

/-- Source: `getRuntimeEnvJson` (job.go, lines 26-51).  `YAMLToJSON` is
`yaml.YAMLToJSON` of sigs.k8s.io/yaml, `none` being its error. -/
def getRuntimeEnvJson (YAMLToJSON : GoString → Option GoString) (rayJobInstance : RayJob) :
    GoString × Option GoError :=
  let runtimeEnv := rayJobInstance.Spec.RuntimeEnv
  let runtimeEnvYAML := rayJobInstance.Spec.RuntimeEnvYAML
  if runtimeEnv.length > 0 ∧ runtimeEnvYAML.length > 0 then ([], some .bothRuntimeEnv)
  else if runtimeEnv.length > 0 then GetDecodedRuntimeEnv runtimeEnv
  else if runtimeEnvYAML.length > 0 then
    match YAMLToJSON runtimeEnvYAML with
    | none => ([], some .yamlToJSON)
    | some jsonData => (jsonData, none)
  else ([], none)

/-- Source: `GetBaseRayJobCommand` (job.go, lines 53-60). -/
def GetBaseRayJobCommand (address : GoString) : List GoString :=
  let address := if !HasPrefix address (lit "http://") then lit "http://" ++ address else address
  [lit "ray", lit "job", lit "submit", lit "--address", address]

/-- Source: `GetMetadataJson` (job.go, lines 62-81).  `json.Marshal` cannot
fail on a `map[string]string`, so its error branch is not reachable. -/
def GetMetadataJson (metadata : GoMap) (rayVersion : GoString) : GoString × Option GoError :=
  match NewVersion rayVersion with
  | none => ([], some .parseRayVersion)
  | some v =>
    if !constraintCheck v then ([], some .rayVersionTooLow)
    else (Marshal metadata, none)

/-- The block of `GetK8sJobCommand` that handles the metadata (job.go, lines
103-109): reading `RayClusterSpec.RayVersion` panics when the pointer is
nil. -/
def appendMetadata (rayJobInstance : RayJob) (k8sJobCommand : List GoString) : JobResult :=
  let metadata := rayJobInstance.Spec.Metadata
  if metadata.len > 0 then
    match rayJobInstance.Spec.RayClusterSpec with
    | none => .panic
    | some spec =>
      match GetMetadataJson metadata spec.RayVersion with
      | (_, some err) => .err err
      | (metadataJson, none) => .ok (k8sJobCommand ++ [lit "--metadata-json", metadataJson])
  else .ok k8sJobCommand

/-- Source: `GetK8sJobCommand` (job.go, lines 83-137). -/
def GetK8sJobCommand (YAMLToJSON : GoString → Option GoString) (rayJobInstance : RayJob) :
    JobResult :=
  let address := rayJobInstance.Status.DashboardURL
  let jobId := rayJobInstance.Status.JobId
  let entrypoint := rayJobInstance.Spec.Entrypoint
  let entrypointNumCpus := rayJobInstance.Spec.EntrypointNumCpus
  let entrypointNumGpus := rayJobInstance.Spec.EntrypointNumGpus
  let entrypointResources := rayJobInstance.Spec.EntrypointResources
  let k8sJobCommand := GetBaseRayJobCommand address
  match getRuntimeEnvJson YAMLToJSON rayJobInstance with
  | (_, some err) => .err err
  | (runtimeEnvJson, none) =>
    let k8sJobCommand :=
      if runtimeEnvJson.length > 0 then
        k8sJobCommand ++ [lit "--runtime-env-json", runtimeEnvJson]
      else k8sJobCommand
    match appendMetadata rayJobInstance k8sJobCommand with
    | .panic => .panic
    | .err err => .err err
    | .ok k8sJobCommand =>
      let k8sJobCommand :=
        if jobId.length > 0 then k8sJobCommand ++ [lit "--submission-id", jobId]
        else k8sJobCommand
      let k8sJobCommand :=
        if entrypointNumCpus.isPos then
          k8sJobCommand ++ [lit "--entrypoint-num-cpus", SprintfF entrypointNumCpus]
        else k8sJobCommand
      let k8sJobCommand :=
        if entrypointNumGpus.isPos then
          k8sJobCommand ++ [lit "--entrypoint-num-gpus", SprintfF entrypointNumGpus]
        else k8sJobCommand
      let k8sJobCommand :=
        if entrypointResources.length > 0 then
          k8sJobCommand ++ [lit "--entrypoint-resources", entrypointResources]
        else k8sJobCommand
      let k8sJobCommand := k8sJobCommand ++ [lit "--"]
      match Split entrypoint with
      | (_, some err) => .err (.shlex err)
      | (commandSlice, none) => .ok (k8sJobCommand ++ commandSlice)

/-- Source: `GetDefaultSubmitterTemplate` (job.go, lines 139-173).  `image`
starts as the empty string, the zero value of `var image string`. -/
def GetDefaultSubmitterTemplate (rayJobInstance : RayJob) : PodTemplateSpec :=
  let image : GoString :=
    match rayJobInstance.Spec.RayClusterSpec with
    | some spec =>
      match spec.HeadGroupSpec.Template.Spec.Containers with
      | container :: _ => container.Image
      | [] => []
    | none => []
  let image := if image.length = 0 then lit "rayproject/ray:latest" else image
  { Spec := {
      Containers := [
        { Name := lit "ray-job-submitter"
          Image := image
          Resources := {
            Limits := [(ResourceCPU, MustParse (lit "1")), (ResourceMemory, MustParse (lit "1Gi"))]
            Requests :=
              [(ResourceCPU, MustParse (lit "500m")), (ResourceMemory, MustParse (lit "200Mi"))] } }]
      RestartPolicy := RestartPolicyNever } }

/-- The job of the command-assembly scenario: address `http://127.0.0.1:8265`,
no runtime environment, no metadata. -/
def scenarioJob : RayJob :=
  { Spec := { Entrypoint := lit "python script.py --flag 'a b'" },
    Status := { DashboardURL := lit "http://127.0.0.1:8265" } }

/-! ## Vocabulary of the theorems, and the jobs they are evaluated on -/

/-- An optional pair of the command line: the flag and its value when
`present`, nothing otherwise. -/
def optionalPair (present : Bool) (flag value : GoString) : List GoString :=
  if present then [flag, value] else []

/-- The job of the witness of C1: every optional part is present. -/
def fullJob : RayJob :=
  { Spec := {
      Entrypoint := lit "python -c \"print('hi')\""
      RuntimeEnv := lit "eyJhIjoxfQ=="
      Metadata := some [(lit "job_submission_id", lit "123")]
      RayClusterSpec := some { RayVersion := lit "2.6.0" }
      EntrypointNumCpus := .finite false 1 0
      EntrypointNumGpus := .finite false 1 (-1)
      EntrypointResources := lit "\x7b\"r\": 1\x7d" },
    Status := { JobId := lit "job-1", DashboardURL := lit "head-svc:8265" } }

/-- The command `GetK8sJobCommand` builds for `fullJob`. -/
def fullCommand : List GoString :=
  [lit "ray", lit "job", lit "submit", lit "--address", lit "http://head-svc:8265",
   lit "--runtime-env-json", lit "\x7b\"a\":1\x7d",
   lit "--metadata-json", lit "\x7b\"job_submission_id\":\"123\"\x7d",
   lit "--submission-id", lit "job-1",
   lit "--entrypoint-num-cpus", lit "1.000000",
   lit "--entrypoint-num-gpus", lit "0.500000",
   lit "--entrypoint-resources", lit "\x7b\"r\": 1\x7d",
   lit "--", lit "python", lit "-c", lit "print('hi')"]

/-- The job of the witness of C3: both runtime environments are given, next
to metadata, a Ray version and an entrypoint that are all fine. -/
def conflictJob : RayJob :=
  { Spec := { fullJob.Spec with RuntimeEnvYAML := lit "pip: [requests]" },
    Status := fullJob.Status }

/-- The metadata of the metadata-JSON scenario. -/
def scenarioMetadata : GoMap :=
  some [(lit "job_submission_id", lit "123")]

/-- The job of the metadata-JSON scenario on a cluster of the given Ray
version. -/
def metadataJob (rayVersion : GoString) : RayJob :=
  { Spec := { Entrypoint := lit "python script.py", Metadata := scenarioMetadata,
              RayClusterSpec := some { RayVersion := rayVersion } },
    Status := { DashboardURL := lit "http://127.0.0.1:8265" } }

/-- The job with the entrypoint removed: the empty entrypoint always
tokenizes, to no words. -/
def withoutEntrypoint (job : RayJob) : RayJob :=
  { job with Spec := { job.Spec with Entrypoint := [] } }

/-- The scenario job with an entrypoint whose single quote is never closed. -/
def openQuoteJob : RayJob :=
  { scenarioJob with Spec := { scenarioJob.Spec with Entrypoint := lit "python script.py 'a b" } }

/-- A job whose `RuntimeEnv` is a single line feed: not empty, and valid
base64 for the empty document, since the decoder skips line feeds. -/
def newlineJob : RayJob :=
  { scenarioJob with Spec := { scenarioJob.Spec with RuntimeEnv := lit "\n" } }

/-- The pairs `(flag, value)` of the optional parts that follow the runtime
environment on the command line, in order. -/
def laterPairs (job : RayJob) (metadataJson : GoString) : List (GoString × GoString) :=
  (if job.Spec.Metadata.len > 0 then [(lit "--metadata-json", metadataJson)] else [])
  ++ (if job.Status.JobId.length > 0 then [(lit "--submission-id", job.Status.JobId)] else [])
  ++ (if job.Spec.EntrypointNumCpus.isPos then
        [(lit "--entrypoint-num-cpus", SprintfF job.Spec.EntrypointNumCpus)] else [])
  ++ (if job.Spec.EntrypointNumGpus.isPos then
        [(lit "--entrypoint-num-gpus", SprintfF job.Spec.EntrypointNumGpus)] else [])
  ++ (if job.Spec.EntrypointResources.length > 0 then
        [(lit "--entrypoint-resources", job.Spec.EntrypointResources)] else [])

/-- The pairs `(flag, value)` of all optional parts of the command line, in
order: the runtime environment first, then `laterPairs`. -/
def commandPairs (job : RayJob) (runtimeEnvJson metadataJson : GoString) :
    List (GoString × GoString) :=
  (if runtimeEnvJson.length > 0 then [(lit "--runtime-env-json", runtimeEnvJson)] else [])
  ++ laterPairs job metadataJson

/-- The elements of the command line that a list of pairs stands for. -/
def flattenPairs (pairs : List (GoString × GoString)) : List GoString :=
  pairs.flatMap (fun p => [p.1, p.2])

/-- The scenario job with a YAML runtime environment that does not parse. -/
def badYamlJob : RayJob :=
  { scenarioJob with Spec := { scenarioJob.Spec with RuntimeEnvYAML := lit "pip: [requests" } }

/-- The number a finite `float32` stands for; an infinity or a NaN has
none. -/
def GoFloat32.value : GoFloat32 → Option ℚ
  | .finite neg mant exp => some ((if neg then -1 else 1) * (mant : ℚ) * (2 : ℚ) ^ exp)
  | .inf _ => none
  | .nan => none

/-- A count is strictly positive: it is `+Inf`, or a number above zero. -/
def GoFloat32.positive (x : GoFloat32) : Prop :=
  x = .inf false ∨ ∃ q, x.value = some q ∧ 0 < q

/-- The number that a string of decimal digits writes. -/
def parseDecimal (s : GoString) : Nat :=
  s.foldl (fun acc c => acc * 10 + (c - 0x30)) 0

/-- The text writes the number `q` in decimal with six digits after the
point: digits, a point, six digits, and the number written is the multiple of
`10^-6` nearest to `q`. -/
def writesSixDecimals (text : GoString) (q : ℚ) : Prop :=
  ∃ whole frac : GoString, text = whole ++ lit "." ++ frac ∧
    whole ≠ [] ∧ whole.all isDigit = true ∧ frac.length = 6 ∧ frac.all isDigit = true ∧
    |((parseDecimal whole : ℚ) + (parseDecimal frac : ℚ) / 10 ^ 6) - q| ≤ 1 / (2 * 10 ^ 6)

/-- The order of the entries of a JSON object: by key, byte-wise. -/
def keyLt (p q : GoString × GoString) : Prop :=
  strLt p.1 q.1 = true

/-- The job with its cluster specification replaced. -/
def withClusterSpec (job : RayJob) (spec : Option RayClusterSpec) : RayJob :=
  { job with Spec := { job.Spec with RayClusterSpec := spec } }

/-- A job in existing-cluster mode: a cluster selector, no embedded cluster
specification, and the metadata of the metadata-JSON scenario. -/
def existingClusterJob : RayJob :=
  { Spec := { Entrypoint := lit "python script.py", Metadata := scenarioMetadata,
              ClusterSelector := some [(lit "ray.io/user", lit "test")] },
    Status := { DashboardURL := lit "http://127.0.0.1:8265" } }

/-- A job whose head group has a container without an image. -/
def noImageJob : RayJob :=
  { Spec := { RayClusterSpec := some { HeadGroupSpec := { Template := { Spec := { Containers :=
      [{ Name := lit "ray-head" }] } } } } } }

/-- A job whose head group has no container. -/
def noContainerJob : RayJob :=
  { Spec := { RayClusterSpec := some { RayVersion := lit "2.6.0" } } }

/-- The job with its metadata replaced. -/
def withMetadata (job : RayJob) (metadata : GoMap) : RayJob :=
  { job with Spec := { job.Spec with Metadata := metadata } }

/-- The alphabet of `base64.StdEncoding`: the byte that writes a 6-bit
value. -/
def encodeChar (v : Nat) : Nat :=
  if v < 26 then 0x41 + v
  else if v < 52 then 0x61 + (v - 26)
  else if v < 62 then 0x30 + (v - 52)
  else if v = 62 then 0x2B
  else 0x2F

/-- Go `base64.StdEncoding.EncodeToString`: three bytes become four alphabet
bytes; one or two bytes left over become two or three alphabet bytes, padded
with `=` to four. -/
def EncodeToString : List Nat → GoString
  | [] => []
  | [a] => [encodeChar (a / 4), encodeChar (a % 4 * 16), 0x3D, 0x3D]
  | [a, b] =>
    [encodeChar (a / 4), encodeChar (a % 4 * 16 + b / 16), encodeChar (b % 16 * 4), 0x3D]
  | a :: b :: c :: rest =>
    [encodeChar (a / 4), encodeChar (a % 4 * 16 + b / 16),
      encodeChar (b % 16 * 4 + c / 64), encodeChar (c % 64)] ++ EncodeToString rest

/-- The byte is in the alphabet of standard base64. -/
def isAlphabet (c : Nat) : Bool :=
  (decodeMap c).isSome

/-- The byte is a line feed or a carriage return. -/
def isNewline (c : Nat) : Bool :=
  c == 0x0A || c == 0x0D

/-- The string without its line feeds and carriage returns. -/
def stripNewlines (s : GoString) : GoString :=
  s.filter (fun c => !isNewline c)

/-- Valid standard base64 (RFC 4648, section 4): groups of four alphabet
bytes, the last group possibly ending in one or two `=`. -/
def isStdBase64 : GoString → Bool
  | [] => true
  | a :: b :: c :: d :: rest =>
    isAlphabet a && isAlphabet b &&
      (if rest = [] then
        (isAlphabet c && (isAlphabet d || d == 0x3D)) || (c == 0x3D && d == 0x3D)
      else isAlphabet c && isAlphabet d && isStdBase64 rest)
  | _ => false

/-! ## constant.go -/

/-- Source: `RayServiceLabelKey` (constant.go, line 8). -/
def RayServiceLabelKey : GoString := lit "ray.io/service"

/-- Source: `RayClusterLabelKey` (constant.go, line 9). -/
def RayClusterLabelKey : GoString := lit "ray.io/cluster"

/-- Source: `RayNodeTypeLabelKey` (constant.go, line 10). -/
def RayNodeTypeLabelKey : GoString := lit "ray.io/node-type"

/-- Source: `RayNodeGroupLabelKey` (constant.go, line 11). -/
def RayNodeGroupLabelKey : GoString := lit "ray.io/group"

/-- Source: `RayNodeLabelKey` (constant.go, line 12). -/
def RayNodeLabelKey : GoString := lit "ray.io/is-ray-node"

/-- Source: `RayIDLabelKey` (constant.go, line 13). -/
def RayIDLabelKey : GoString := lit "ray.io/identifier"

/-- Source: `RayFTEnabledAnnotationKey` (constant.go, line 26). -/
def RayFTEnabledAnnotationKey : GoString := lit "ray.io/ft-enabled"

/-- Source: `RayExternalStorageNSAnnotationKey` (constant.go, line 27). -/
def RayExternalStorageNSAnnotationKey : GoString := lit "ray.io/external-storage-namespace"

/-- Source: `KubernetesApplicationNameLabelKey` (constant.go, line 38). -/
def KubernetesApplicationNameLabelKey : GoString := lit "app.kubernetes.io/name"

/-- Source: `KubernetesCreatedByLabelKey` (constant.go, line 39). -/
def KubernetesCreatedByLabelKey : GoString := lit "app.kubernetes.io/created-by"

/-- Source: `DefaultDashboardPort` (constant.go, line 50). -/
def DefaultDashboardPort : Int := 8265

/-- Source: `ApplicationName` (constant.go, line 66). -/
def ApplicationName : GoString := lit "kuberay"

/-- Source: `ComponentName` (constant.go, line 69). -/
def ComponentName : GoString := lit "kuberay-operator"

/-! ## The API-server converter (apiserver/pkg/model)

The converter itself is not among the source files; its test
`converter_test.go` is.  The definitions of this section are modelled from
the specification, and the fixtures are those of the test. -/

/-- A string-keyed mapping of the resource model (labels, annotations, the
data of a configuration object): its entries, every key once. -/
abbrev KeyValues := List (GoString × GoString)

/-- Modelled from the spec: the label/annotation filter of section 4.3, which
the missing converter applies to pod templates.  The output holds the entries
whose key is absent from the system-key set, unchanged. -/
def filterSystemKeys (systemKeys : List GoString) (m : KeyValues) : KeyValues :=
  m.filter (fun kv => decide (kv.1 ∉ systemKeys))

/-- Modelled from the spec: the fixed set of system label keys of section 3
(cluster, service, group, identifier, node-type, created-by and
application-name labels), whose definition is in the missing converter; the
last two keys are system labels in the fixtures of `converter_test.go`. -/
def systemLabelKeys : List GoString :=
  [RayClusterLabelKey, RayServiceLabelKey, RayNodeGroupLabelKey, RayIDLabelKey,
   RayNodeTypeLabelKey, KubernetesCreatedByLabelKey, KubernetesApplicationNameLabelKey,
   RayNodeLabelKey, lit "ray.io/cluster-dashboard"]

/-- Modelled from the spec: the fixed set of system annotation keys of
section 3 (ft-enabled, health-state and external-storage annotations), whose
definition is in the missing converter; the other keys are system annotations
in the fixtures of `converter_test.go`. -/
def systemAnnotationKeys : List GoString :=
  [RayFTEnabledAnnotationKey, lit "ray.io/health-state", RayExternalStorageNSAnnotationKey,
   lit "openshift.io/scc", lit "cni.projectcalico.org/containerID",
   lit "cni.projectcalico.org/podIP", lit "cni.projectcalico.org/podIPs"]

/-- Modelled from the spec: the labels of a converted group specification
(`PopulateHeadNodeSpec` and `PopulateWorkerNodeSpec` of the missing
converter). -/
def convertLabels (labels : KeyValues) : KeyValues :=
  filterSystemKeys systemLabelKeys labels

/-- Modelled from the spec: the annotations of a converted group
specification. -/
def convertAnnotations (annotations : KeyValues) : KeyValues :=
  filterSystemKeys systemAnnotationKeys annotations

/-- Source: the labels of the pod template of `headSpecTest`
(converter_test.go, lines 44-54). -/
def headLabels : KeyValues :=
  [(lit "app.kubernetes.io/created-by", lit "kuberay-operator"),
   (lit "app.kubernetes.io/name", lit "kuberay"),
   (lit "ray.io/cluster", lit "boris-cluster"),
   (lit "ray.io/cluster-dashboard", lit "boris-cluster-dashboard"),
   (lit "ray.io/group", lit "headgroup"),
   (lit "ray.io/identifier", lit "boris-cluster-head"),
   (lit "ray.io/is-ray-node", lit "yes"),
   (lit "ray.io/node-type", lit "head"),
   (lit "test", lit "value")]

/-- Source: the annotations of the pod template of `headSpecTest`
(converter_test.go, lines 38-43). -/
def headAnnotations : KeyValues :=
  [(lit "openshift.io/scc", lit "restricted"),
   (lit "ray.io/ft-enabled", lit "false"),
   (lit "ray.io/health-state", lit ""),
   (lit "custom", lit "value")]

/-- Source: the annotations of the pod template of `workerSpecTest`
(converter_test.go, lines 158-166). -/
def workerAnnotations : KeyValues :=
  [(lit "cni.projectcalico.org/containerID",
      lit "cce862a899455385e98e3453ba9ef5a376e85ad45c3e95b18e04e001204af728"),
   (lit "cni.projectcalico.org/podIP", lit "172.17.60.2/32"),
   (lit "cni.projectcalico.org/podIPs", lit "172.17.60.2/32"),
   (lit "openshift.io/scc", lit "restricted"),
   (lit "ray.io/ft-enabled", lit "false"),
   (lit "ray.io/health-state", lit ""),
   (lit "custom", lit "value")]

/-- Source: `expectedAnnotations` (converter_test.go, lines 376-378). -/
def expectedAnnotations : KeyValues := [(lit "custom", lit "value")]

/-- Source: `expectedLabels` (converter_test.go, lines 380-382). -/
def expectedLabels : KeyValues := [(lit "test", lit "value")]

/-- Modelled from the spec: the error kinds of the conversions (section 7);
the converter is not under src. -/
inductive ConversionError where
  | UnsupportedSource
  | MalformedTolerations
  | InvalidSpec
  deriving DecidableEq, Repr

/-- Modelled from the spec: the cluster specification of an external job; of
the projection of section 4.4 only the specification it is made from is
kept. -/
structure ApiClusterSpec where
  source : RayClusterSpec
  deriving DecidableEq, Repr

/-- Modelled from the spec: the external job, as far as the choice between a
new and an existing cluster goes.  `none` is an absent field. -/
structure ApiRayJob where
  ClusterSpec : Option ApiClusterSpec
  ClusterSelector : GoMap
  deriving DecidableEq, Repr

/-- Modelled from the spec: `FromCrdToApiJob` of the missing converter, by
sections 4.4 and 8: exactly one of the embedded cluster specification and the
cluster selector must be populated; both or neither is `InvalidSpec`, and
otherwise the populated one is projected and the other is absent. -/
def FromCrdToApiJob (job : RayJob) : Except ConversionError ApiRayJob :=
  match job.Spec.RayClusterSpec with
  | some spec =>
    if job.Spec.ClusterSelector.len > 0 then .error .InvalidSpec
    else .ok { ClusterSpec := some { source := spec }, ClusterSelector := none }
  | none =>
    if job.Spec.ClusterSelector.len > 0 then
      .ok { ClusterSpec := none, ClusterSelector := job.Spec.ClusterSelector }
    else .error .InvalidSpec

/-- Source: the cluster specification of `ClusterSpecTest`
(converter_test.go, lines 237-242), as far as the model has its fields. -/
def ClusterSpecTest : RayClusterSpec :=
  { HeadGroupSpec := { Template := { Spec := { Containers :=
      [{ Name := lit "ray-head", Image := lit "blublinsky1/ray310:2.5.0" }] } } } }

/-- Source: `JobNewClusterTest` (converter_test.go, lines 245-262). -/
def JobNewClusterTest : RayJob :=
  { Spec := { Entrypoint := lit "python /home/ray/samples/sample_code.py",
              Metadata := some [(lit "job_submission_id", lit "123")],
              RuntimeEnvYAML := lit "mytest yaml",
              RayClusterSpec := some ClusterSpecTest } }

/-- Source: `JobExistingClusterTest` (converter_test.go, lines 264-280); the
key of the selector is `util.RayClusterUserLabelKey`, whose text is not under
src and is taken to be `ray.io/user`, the label key of the same fixture. -/
def JobExistingClusterTest : RayJob :=
  { Spec := { Entrypoint := lit "python /home/ray/samples/sample_code.py",
              RuntimeEnvYAML := lit "mytest yaml",
              ClusterSelector := some [(lit "ray.io/user", lit "test")] } }

/-- Modelled from the spec: the value of an environment variable in its
internal form (section 3), a literal or one of the four kinds of reference;
the type is `v1.EnvVar` in the fixtures of the test. -/
inductive EnvVarValue where
  | literal (value : GoString)
  | secretRef (name key : GoString)
  | configMapRef (name key : GoString)
  | resourceFieldRef (containerName resource : GoString)
  | fieldRef (fieldPath : GoString)
  deriving DecidableEq, Repr

/-- Modelled from the spec: an environment variable in its internal form. -/
structure EnvVar where
  name : GoString
  value : EnvVarValue
  deriving DecidableEq, Repr

/-- Modelled from the spec: the source tag of the external form (section 6);
`other` stands for a tag that is none of the four. -/
inductive EnvSource where
  | SECRET
  | CONFIGMAP
  | RESOURCEFIELD
  | FIELD
  | other (tag : Nat)
  deriving DecidableEq, Repr

/-- Modelled from the spec: an entry of `valuesFrom` (`api.EnvValueFrom`). -/
structure EnvValueFrom where
  source : EnvSource
  name : GoString
  key : GoString
  deriving DecidableEq, Repr

/-- Modelled from the spec: the external form of the environment variables
of a container (`api.EnvironmentVariables`), two mappings by name. -/
structure EnvironmentVariables where
  values : List (GoString × GoString)
  valuesFrom : List (GoString × EnvValueFrom)
  deriving DecidableEq, Repr

/-- The assignment `m[k] = v` of a mapping: the entry of `k` is replaced, or
added when `k` has none. -/
def mapSet {V : Type} (m : List (GoString × V)) (k : GoString) (v : V) : List (GoString × V) :=
  if k ∈ m.map Prod.fst then m.map (fun e => if e.1 = k then (k, v) else e)
  else m ++ [(k, v)]

/-- Modelled from the spec: the entry of `values` that a variable with a
literal value gives (section 4.1). -/
def literalEntry (v : EnvVar) : Option (GoString × GoString) :=
  match v.value with
  | .literal value => some (v.name, value)
  | _ => none

/-- Modelled from the spec: the entry of `valuesFrom` that a variable with a
reference gives (section 4.1): the source is the tag of the reference, name
and key are copied, and a field reference has an empty name and the field
path as key. -/
def referenceEntry (v : EnvVar) : Option (GoString × EnvValueFrom) :=
  match v.value with
  | .literal _ => none
  | .secretRef name key => some (v.name, { source := .SECRET, name := name, key := key })
  | .configMapRef name key => some (v.name, { source := .CONFIGMAP, name := name, key := key })
  | .resourceFieldRef containerName resource =>
    some (v.name, { source := .RESOURCEFIELD, name := containerName, key := resource })
  | .fieldRef fieldPath => some (v.name, { source := .FIELD, name := [], key := fieldPath })

/-- Modelled from the spec: one step of the conversion to the external form.
A variable whose name is reserved is left out, as the fixtures of the test
show (`workerSpecTest` against `expectedEnv`); any other variable is entered
under its name. -/
def externalizeStep (reserved : List GoString) (env : EnvironmentVariables) (v : EnvVar) :
    EnvironmentVariables :=
  if v.name ∈ reserved then env
  else
    match literalEntry v, referenceEntry v with
    | some e, _ => { env with values := mapSet env.values e.1 e.2 }
    | none, some e => { env with valuesFrom := mapSet env.valuesFrom e.1 e.2 }
    | none, none => env

/-- Modelled from the spec: the conversion of the environment variables of a
container to the external form (section 4.1; `convert_env_variables` of the
missing converter).  `reserved` is the set of names the converter leaves
out. -/
def externalize (reserved : List GoString) (vars : List EnvVar) : EnvironmentVariables :=
  vars.foldl (externalizeStep reserved) { values := [], valuesFrom := [] }

/-- Modelled from the spec: the variable that an entry of `valuesFrom` stands
for, `UnsupportedSource` when the tag is none of the four (section 4.1). -/
def internalizeReference (e : GoString × EnvValueFrom) : Except ConversionError EnvVar :=
  match e.2.source with
  | .SECRET => .ok { name := e.1, value := .secretRef e.2.name e.2.key }
  | .CONFIGMAP => .ok { name := e.1, value := .configMapRef e.2.name e.2.key }
  | .RESOURCEFIELD => .ok { name := e.1, value := .resourceFieldRef e.2.name e.2.key }
  | .FIELD => .ok { name := e.1, value := .fieldRef e.2.key }
  | .other _ => .error .UnsupportedSource

/-- Modelled from the spec: the variables that the entries of `valuesFrom`
stand for; the first unsupported source is the error. -/
def internalizeReferences : List (GoString × EnvValueFrom) →
    Except ConversionError (List EnvVar)
  | [] => .ok []
  | e :: es =>
    match internalizeReference e with
    | .error err => .error err
    | .ok v =>
      match internalizeReferences es with
      | .error err => .error err
      | .ok vs => .ok (v :: vs)

/-- Modelled from the spec: the conversion from the external form (section
4.1): the literals of `values`, then the references of `valuesFrom`. -/
def internalize (env : EnvironmentVariables) : Except ConversionError (List EnvVar) :=
  match internalizeReferences env.valuesFrom with
  | .ok refs =>
    .ok (env.values.map (fun e => { name := e.1, value := .literal e.2 }) ++ refs)
  | .error err => .error err

/-- Source: the environment of the container of `headSpecTest`
(converter_test.go, lines 74-118). -/
def headEnv : List EnvVar :=
  [{ name := lit "AWS_KEY", value := .literal (lit "123") },
   { name := lit "REDIS_PASSWORD",
     value := .secretRef (lit "redis-password-secret") (lit "password") },
   { name := lit "CONFIGMAP", value := .configMapRef (lit "special-config") (lit "special.how") },
   { name := lit "ResourceFieldRef",
     value := .resourceFieldRef (lit "my-container") (lit "resource") },
   { name := lit "FieldRef", value := .fieldRef (lit "path") }]

/-- Source: `expectedHeadEnv` (converter_test.go, lines 384-409), its entries
in the order of the container. -/
def expectedHeadEnv : EnvironmentVariables :=
  { values := [(lit "AWS_KEY", lit "123")],
    valuesFrom :=
      [(lit "REDIS_PASSWORD",
          { source := .SECRET, name := lit "redis-password-secret", key := lit "password" }),
       (lit "CONFIGMAP",
          { source := .CONFIGMAP, name := lit "special-config", key := lit "special.how" }),
       (lit "ResourceFieldRef",
          { source := .RESOURCEFIELD, name := lit "my-container", key := lit "resource" }),
       (lit "FieldRef", { source := .FIELD, name := [], key := lit "path" })] }

/-- Source: the environment of the container of `workerSpecTest`
(converter_test.go, lines 197-222). -/
def workerEnv : List EnvVar :=
  [{ name := lit "AWS_KEY", value := .literal (lit "123") },
   { name := lit "AWS_SECRET", value := .literal (lit "1234") },
   { name := lit "RAY_DISABLE_DOCKER_CPU_WARNING", value := .literal (lit "1") },
   { name := lit "TYPE", value := .literal (lit "worker") },
   { name := lit "RAY_IP", value := .literal (lit "boris-cluster-head-svc") },
   { name := lit "RAY_USAGE_STATS_KUBERAY_IN_USE", value := .literal (lit "1") }]

/-- Source: `expectedEnv` (converter_test.go, lines 411-417). -/
def expectedEnv : EnvironmentVariables :=
  { values := [(lit "AWS_KEY", lit "123"), (lit "AWS_SECRET", lit "1234")], valuesFrom := [] }

/-- Modelled from the spec: the names the converter leaves out of the
environment of a worker container.  The set is defined in the missing
converter; these are the names that `TestPopulateWorkerNodeSpec` shows to be
left out (in `workerSpecTest`, not in `expectedEnv`). -/
def workerReservedEnv : List GoString :=
  [lit "RAY_DISABLE_DOCKER_CPU_WARNING", lit "TYPE", lit "RAY_IP",
   lit "RAY_USAGE_STATS_KUBERAY_IN_USE"]

/-- Two variables of one name, a literal and a secret reference. -/
def sameNameEnv : List EnvVar :=
  [{ name := lit "TOKEN", value := .literal (lit "abc") },
   { name := lit "TOKEN", value := .secretRef (lit "vault") (lit "token") }]

/-- The variables the converter keeps: those whose name is not reserved. -/
def keptVars (reserved : List GoString) (vars : List EnvVar) : List EnvVar :=
  vars.filter (fun v => decide (v.name ∉ reserved))

/-- The variable has a literal value. -/
def EnvVar.isLiteral (v : EnvVar) : Bool :=
  (literalEntry v).isSome

/-- Modelled from the spec: a scheduling toleration of the external model
(section 3; `api.PodToleration` in the test). -/
structure PodToleration where
  key : GoString := []
  operator : GoString := []
  value : GoString := []
  effect : GoString := []
  deriving DecidableEq, Repr

/-- The reserved key of a compute-template configuration object that holds
the tolerations (section 6). -/
def tolerationsKey : GoString := lit "tolerations"

/-- The value of a key of a mapping, if the key is there. -/
def lookupKey (m : KeyValues) (k : GoString) : Option GoString :=
  (m.find? (fun e => decide (e.1 = k))).map Prod.snd

/-- The body of a JSON string: `"` and `\` are escaped with a backslash, the
control bytes below 0x20 are written `\u00xx`, every other byte stands for
itself. -/
def jsonStringBody : GoString → GoString
  | [] => []
  | b :: s =>
    (if b = 0x22 ∨ b = 0x5C then [0x5C, b]
     else if b < 0x20 then [0x5C, 0x75, 0x30, 0x30, hexDigit (b / 16), hexDigit (b % 16)]
     else [b]) ++ jsonStringBody s

/-- A JSON string, between double quotes. -/
def jsonString (s : GoString) : GoString :=
  0x22 :: (jsonStringBody s ++ [0x22])

/-- A member `"name":"value"` of a JSON object. -/
def memberJson (name value : GoString) : GoString :=
  jsonString name ++ 0x3A :: jsonString value

/-- The members of the JSON object of a toleration: `key`, `operator`,
`value` when it is not empty, and `effect`. -/
def tolerationMembers (t : PodToleration) : List (GoString × GoString) :=
  [(lit "key", t.key), (lit "operator", t.operator)]
  ++ (if t.value = [] then [] else [(lit "value", t.value)])
  ++ [(lit "effect", t.effect)]

/-- JSON members, separated by commas and closed by `}`. -/
def membersJson : List (GoString × GoString) → GoString
  | [] => [0x7D]
  | [m] => memberJson m.1 m.2 ++ [0x7D]
  | m :: ms => memberJson m.1 m.2 ++ 0x2C :: membersJson ms

/-- Modelled from the spec: the JSON object of a toleration. -/
def tolerationJson (t : PodToleration) : GoString :=
  0x7B :: membersJson (tolerationMembers t)

/-- The JSON objects of a list of tolerations, separated by commas and
closed by `]`. -/
def elementsJson : List PodToleration → GoString
  | [] => [0x5D]
  | [t] => tolerationJson t ++ [0x5D]
  | t :: ts => tolerationJson t ++ 0x2C :: elementsJson ts

/-- Modelled from the spec: the JSON array of a list of tolerations, in
order. -/
def tolerationsJson (ts : List PodToleration) : GoString :=
  0x5B :: elementsJson ts

/-- Modelled from the spec: the encoding of a list of tolerations in a
compute-template configuration object (section 4.2): the JSON text under the
reserved key, and for the empty list no such key at all. -/
def encodeTolerations (config : KeyValues) (ts : List PodToleration) : KeyValues :=
  if ts = [] then config.filter (fun e => decide (e.1 ≠ tolerationsKey))
  else (tolerationsKey, tolerationsJson ts)
    :: config.filter (fun e => decide (e.1 ≠ tolerationsKey))

/-- JSON white space is skipped. -/
def skipWs : GoString → GoString
  | [] => []
  | c :: s => if c = 0x20 ∨ c = 0x09 ∨ c = 0x0A ∨ c = 0x0D then skipWs s else c :: s

/-- The value of a hexadecimal digit. -/
def hexValue (c : Nat) : Option Nat :=
  if 0x30 ≤ c ∧ c ≤ 0x39 then some (c - 0x30)
  else if 0x61 ≤ c ∧ c ≤ 0x66 then some (c - 0x61 + 10)
  else if 0x41 ≤ c ∧ c ≤ 0x46 then some (c - 0x41 + 10)
  else none

/-- The byte that a one-letter escape of a JSON string stands for. -/
def unescape (e : Nat) : Option Nat :=
  if e = 0x22 ∨ e = 0x5C ∨ e = 0x2F then some e
  else if e = 0x62 then some 0x08
  else if e = 0x66 then some 0x0C
  else if e = 0x6E then some 0x0A
  else if e = 0x72 then some 0x0D
  else if e = 0x74 then some 0x09
  else none

/-- Where the reader of a JSON string stands: in plain text, after a
backslash, or in the four digits of a `\u` escape. -/
inductive StringState where
  | plain
  | escape
  | unicode (digits : List Nat)
  deriving DecidableEq, Repr

/-- The reader of a JSON string, byte by byte: `value` is the content read so
far.  A `\u` escape stands for the UTF-8 bytes of its code point. -/
def readString : StringState → GoString → GoString → Option (GoString × GoString)
  | _, _, [] => none
  | .plain, value, c :: s =>
    if c = 0x22 then some (value, s)
    else if c = 0x5C then readString .escape value s
    else if c < 0x20 then none
    else readString .plain (value ++ [c]) s
  | .escape, value, e :: s =>
    if e = 0x75 then readString (.unicode []) value s
    else
      match unescape e with
      | some b => readString .plain (value ++ [b]) s
      | none => none
  | .unicode digits, value, h :: s =>
    match hexValue h with
    | some d =>
      if digits.length = 3 then
        readString .plain
          (value ++ runeToString ((digits ++ [d]).foldl (fun acc x => acc * 16 + x) 0)) s
      else readString (.unicode (digits ++ [d])) value s
    | none => none

/-- The content of a JSON string whose opening quote has been read, and the
input after its closing quote. -/
def parseStringBody (s : GoString) : Option (GoString × GoString) :=
  readString .plain [] s

/-- The members of a JSON object with string values, from the start of a
member to the closing `}`, and the input after it. -/
def parseMembers : Nat → GoString → List (GoString × GoString) →
    Option (List (GoString × GoString) × GoString)
  | 0, _, _ => none
  | fuel + 1, s, acc =>
    match skipWs s with
    | 0x22 :: s1 =>
      match parseStringBody s1 with
      | some (name, s2) =>
        match skipWs s2 with
        | 0x3A :: s3 =>
          match skipWs s3 with
          | 0x22 :: s4 =>
            match parseStringBody s4 with
            | some (value, s5) =>
              match skipWs s5 with
              | 0x2C :: s6 => parseMembers fuel s6 (acc ++ [(name, value)])
              | 0x7D :: s6 => some (acc ++ [(name, value)], s6)
              | _ => none
            | none => none
          | _ => none
        | _ => none
      | none => none
    | _ => none

/-- A JSON object with string values whose `{` has been read: its members
and the input after its `}`. -/
def parseObject (s : GoString) : Option (List (GoString × GoString) × GoString) :=
  match skipWs s with
  | 0x7D :: rest => some ([], rest)
  | _ => parseMembers (s.length + 1) s []

/-- The value of the last member of the given name. -/
def memberValue (members : List (GoString × GoString)) (name : GoString) : Option GoString :=
  (members.reverse.find? (fun m => decide (m.1 = name))).map Prod.snd

/-- Modelled from the spec: the toleration of a JSON object; `key`,
`operator` and `effect` are required (section 4.2). -/
def tolerationOfMembers (members : List (GoString × GoString)) : Option PodToleration :=
  match memberValue members (lit "key"), memberValue members (lit "operator"),
      memberValue members (lit "effect") with
  | some key, some operator, some effect =>
    some { key := key, operator := operator,
           value := (memberValue members (lit "value")).getD [], effect := effect }
  | _, _, _ => none

/-- The elements of a JSON array of tolerations, from the start of an element
to the closing `]`, which must end the text. -/
def parseElements : Nat → GoString → List PodToleration → Option (List PodToleration)
  | 0, _, _ => none
  | fuel + 1, s, acc =>
    match skipWs s with
    | 0x7B :: s1 =>
      match parseObject s1 with
      | some (members, s2) =>
        match tolerationOfMembers members with
        | some t =>
          match skipWs s2 with
          | 0x2C :: s3 => parseElements fuel s3 (acc ++ [t])
          | 0x5D :: s3 => if skipWs s3 = [] then some (acc ++ [t]) else none
          | _ => none
        | none => none
      | none => none
    | _ => none

/-- Modelled from the spec: the tolerations of a JSON text, `none` when the
text is not a JSON array of toleration objects. -/
def parseTolerations (text : GoString) : Option (List PodToleration) :=
  match skipWs text with
  | 0x5B :: s1 =>
    match skipWs s1 with
    | 0x5D :: s2 => if skipWs s2 = [] then some [] else none
    | _ => parseElements (text.length + 1) s1 []
  | _ => none

/-- Modelled from the spec: the decoding of the tolerations of a
compute-template configuration object (section 4.2;
`FromKubeToAPIComputeTemplate` of the missing converter): the empty list when
the key is absent, and otherwise the tolerations of the JSON text, or
`MalformedTolerations`. -/
def decodeTolerations (config : KeyValues) : Except ConversionError (List PodToleration) :=
  match lookupKey config tolerationsKey with
  | none => .ok []
  | some text =>
    match parseTolerations text with
    | some ts => .ok ts
    | none => .error .MalformedTolerations

/-- Source: `configMapWithoutTolerations` (converter_test.go, lines
125-134). -/
def configMapWithoutTolerations : KeyValues :=
  [(lit "cpu", lit "4"), (lit "gpu", lit "0"), (lit "gpu_accelerator", lit ""),
   (lit "memory", lit "8"), (lit "name", lit "head-node-template"),
   (lit "namespace", lit "max")]

/-- Source: `configMapWithTolerations` (converter_test.go, lines 136-146). -/
def configMapWithTolerations : KeyValues :=
  configMapWithoutTolerations ++
    [(lit "tolerations",
      lit "[\x7b\"key\":\"blah1\",\"operator\":\"Exists\",\"effect\":\"NoExecute\"\x7d]")]

/-- Source: `expectedTolerations` (converter_test.go, lines 419-423). -/
def expectedTolerations : PodToleration :=
  { key := lit "blah1", operator := lit "Exists", effect := lit "NoExecute" }

/-! ## route.go

The functions of package `utils` and `getServicePorts` that route.go calls are
not among the source files.  They are parameters of the embedding, taken to
return without a panic; the routes are built for any such functions. -/

/-- The metadata of a resource (`metav1.ObjectMeta`), as far as route.go
reads or writes it. -/
structure ObjectMeta where
  Name : GoString := []
  Namespace : GoString := []
  Labels : GoMap := none
  Annotations : GoMap := none
  deriving DecidableEq, Repr

/-- The cluster resource (`rayv1.RayCluster`); Go reaches the fields of the
embedded `ObjectMeta` as `cluster.Name`, `cluster.Namespace` and
`cluster.Annotations`. -/
structure RayCluster where
  ObjectMeta : ObjectMeta := {}
  Spec : RayClusterSpec := {}
  deriving DecidableEq, Repr

/-- The service resource (`rayv1.RayService`), as far as route.go reads it. -/
structure RayService where
  ObjectMeta : ObjectMeta := {}
  deriving DecidableEq, Repr

/-- The node types (`rayv1.RayNodeType`); route.go names `HeadNode` only. -/
inductive RayNodeType where
  | HeadNode
  | WorkerNode
  deriving DecidableEq, Repr

/-- The target of a route (`routev1.RouteTargetReference`); `Weight` is a
pointer in Go. -/
structure RouteTargetReference where
  Kind : GoString := []
  Name : GoString := []
  Weight : Option Int := none
  deriving DecidableEq, Repr

/-- The port of a route (`routev1.RoutePort`); `TargetPort` is the number
given to `intstr.FromInt`. -/
structure RoutePort where
  TargetPort : Int
  deriving DecidableEq, Repr

/-- The specification of a route (`routev1.RouteSpec`); `Port` is a pointer
in Go. -/
structure RouteSpec where
  To : RouteTargetReference := {}
  Port : Option RoutePort := none
  WildcardPolicy : GoString := []
  deriving DecidableEq, Repr

/-- The route resource (`routev1.Route`). -/
structure Route where
  ObjectMeta : ObjectMeta := {}
  Spec : RouteSpec := {}
  deriving DecidableEq, Repr

/-- The functions that route.go calls and that are not among the source
files: `utils.GenerateIdentifier`, `utils.GenerateHeadServiceName` (its error
is held by its message), `utils.GenerateRouteName`, `utils.CheckLabel` and
`getServicePorts` (a `map[string]int32`). -/
structure RouteHelpers where
  GenerateIdentifier : GoString → RayNodeType → GoString
  GenerateHeadServiceName : GoString → RayClusterSpec → GoString → Except GoString GoString
  GenerateRouteName : GoString → GoString
  CheckLabel : GoString → GoString
  getServicePorts : RayCluster → List (GoString × Int)

/-- What a call of a route builder does: return `(route, nil)`, return
`(nil, err)`, or panic on an assignment to an entry of a nil map. -/
inductive RouteResult where
  | ok (route : Route)
  | err (e : GoString)
  | panic
  deriving DecidableEq, Repr

/-- The read `m[k]` of a mapping with its `ok` flag: the value of the key, if
the key is there. -/
def mapGet {V : Type} (m : List (GoString × V)) (k : GoString) : Option V :=
  (m.find? (fun e => decide (e.1 = k))).map Prod.snd

/-- The entries a `range` over a map goes through: none for the nil map.  Go
fixes no order for them; they are taken in the order of the list. -/
def rangeEntries : GoMap → List (GoString × GoString)
  | none => []
  | some m => m

/-- Source: `BuildRouteForHeadService` (route.go, lines 12-63). -/
def BuildRouteForHeadService (utils : RouteHelpers) (cluster : RayCluster) : RouteResult :=
  let labels : GoMap := some [
    (RayClusterLabelKey, cluster.ObjectMeta.Name),
    (RayIDLabelKey, utils.GenerateIdentifier cluster.ObjectMeta.Name .HeadNode),
    (KubernetesApplicationNameLabelKey, ApplicationName),
    (KubernetesCreatedByLabelKey, ComponentName)]
  let annotation : GoMap :=
    some ((rangeEntries cluster.ObjectMeta.Annotations).foldl
      (fun annotation kv => mapSet annotation kv.1 kv.2) [])
  let servicePorts := utils.getServicePorts cluster
  let dashboardPort :=
    match mapGet servicePorts (lit "dashboard") with
    | some port => port
    | none => DefaultDashboardPort
  let weight : Int := 100
  match utils.GenerateHeadServiceName (lit "RayCluster") cluster.Spec cluster.ObjectMeta.Name with
  | .error err => .err err
  | .ok serviceName =>
    .ok {
      ObjectMeta := {
        Name := utils.GenerateRouteName cluster.ObjectMeta.Name
        Namespace := cluster.ObjectMeta.Namespace
        Labels := labels
        Annotations := annotation }
      Spec := {
        To := { Kind := lit "Service", Name := serviceName, Weight := some weight }
        Port := some { TargetPort := dashboardPort }
        WildcardPolicy := lit "None" } }

/-- Source: `BuildRouteForRayService` (route.go, lines 65-84).  The two
assignments to `route.ObjectMeta.Labels[...]` panic in Go when the map is
nil. -/
def BuildRouteForRayService (utils : RouteHelpers) (service : RayService)
    (cluster : RayCluster) : RouteResult :=
  match BuildRouteForHeadService utils cluster with
  | .err err => .err err
  | .panic => .panic
  | .ok route =>
    match utils.GenerateHeadServiceName (lit "RayService") cluster.Spec
        cluster.ObjectMeta.Name with
    | .error err => .err err
    | .ok serviceName =>
      match route.ObjectMeta.Labels with
      | none => .panic
      | some labels =>
        let labels := mapSet labels RayServiceLabelKey service.ObjectMeta.Name
        let labels := mapSet labels RayIDLabelKey
          (utils.CheckLabel (utils.GenerateIdentifier service.ObjectMeta.Name .HeadNode))
        .ok { route with
          ObjectMeta := { route.ObjectMeta with
            Name := serviceName
            Namespace := service.ObjectMeta.Namespace
            Labels := some labels } }

/-- Source: the metadata and the specification of `ClusterSpecTest`
(converter_test.go, lines 228-242). -/
def RayClusterTest : RayCluster :=
  { ObjectMeta := { Name := lit "raycluster-sample", Namespace := lit "default",
                    Annotations := some [(lit "kubernetes.io/ingress.class", lit "nginx")] },
    Spec := ClusterSpecTest }

/-- A service in another namespace than the cluster of the test. -/
def RayServiceTest : RayService :=
  { ObjectMeta := { Name := lit "rayservice-sample", Namespace := lit "serving" } }

/-- Helper functions on which routes are evaluated; they stand in for the
functions of package `utils`, which are not among the source files. -/
def sampleHelpers : RouteHelpers :=
  { GenerateIdentifier := fun name nodeType =>
      name ++ (match nodeType with
        | .HeadNode => lit "-head"
        | .WorkerNode => lit "-worker")
    GenerateHeadServiceName := fun crdType _ ownerName =>
      if crdType = lit "RayCluster" ∨ crdType = lit "RayService" then
        .ok (ownerName ++ lit "-head-svc")
      else .error (lit "unknown CRD type")
    GenerateRouteName := fun name => name ++ lit "-head-route"
    CheckLabel := fun s => s.take 63
    getServicePorts := fun _ => [(lit "dashboard", 8266)] }

/-- Helper functions that generate no head service name. -/
def failingHelpers : RouteHelpers :=
  { sampleHelpers with
    GenerateHeadServiceName := fun _ _ _ => .error (lit "no head service name") }

/-! ## Evaluation checks of the library models -/

example : Split (lit "python script.py --flag 'a b'") =
    ([lit "python", lit "script.py", lit "--flag", lit "a b"], none) := by decide
example : Split (lit "echo \"a b\\\" c\" d\\ e # tail") =
    ([lit "echo", lit "a b\" c", lit "d e"], none) := by decide
example : Split (lit "echo 'abc") = ([lit "echo"], some .eofInQuote) := by decide
example : Split (lit "a#b '' héllo") = ([lit "a#b", [], lit "héllo"], none) := by decide
example : Split [0x61, 0xFF, 0x62] = ([[0x61, 0xEF, 0xBF, 0xBD, 0x62]], none) := by decide

example : DecodeString (lit "eyJhIjoxfQ==") = some (lit "\x7b\"a\":1\x7d") := by decide
example : DecodeString (lit "aGVsbG8=") = some (lit "hello") := by decide
example : DecodeString (lit "aGVs\nbG8h") = some (lit "hello!") := by decide
example : DecodeString (lit "aGVsbG8") = none := by decide
example : DecodeString (lit "aGVsbG8=x") = none := by decide
example : DecodeString (lit "a===") = none := by decide
example : DecodeString (lit "\n") = some [] := by decide
example : DecodeString (lit "/+8=") = some [0xFF, 0xEF] := by decide

example : (NewVersion (lit "2.6.0")).map constraintCheck = some true := by decide
example : (NewVersion (lit "2.5.0")).map constraintCheck = some false := by decide
example : (NewVersion (lit "v2.10")).map constraintCheck = some true := by decide
example : (NewVersion (lit "3")).map constraintCheck = some true := by decide
example : (NewVersion (lit "2.7.0-rc.1")).map constraintCheck = some false := by decide
example : (NewVersion (lit "2.7.0+build-5")).map constraintCheck = some true := by decide
example : NewVersion (lit "2.7.0rc1") = none := by decide
example : NewVersion (lit "3.0.0.dev0") = none := by decide
example : NewVersion (lit "2.7.0-rc..1") = none := by decide
example : NewVersion (lit "2.7.0-01") = none := by decide
example : NewVersion (lit "") = none := by decide
example : NewVersion (lit "2.") = none := by decide
example : (NewVersion (lit "1.2.3-a.b+c.d")).map (fun v => (v.pre, v.metadata)) =
    some (lit "a.b", lit "c.d") := by decide
example : (NewVersion (lit "99999999999999999999")) = none := by decide

example : Marshal (some [(lit "job_submission_id", lit "123")]) =
    lit "\x7b\"job_submission_id\":\"123\"\x7d" := by decide
example : Marshal (some [(lit "b", lit "<x>\n"), (lit "a", lit "é\"")]) =
    lit "\x7b\"a\":\"é\\\"\",\"b\":\"\\u003cx\\u003e\\n\"\x7d" := by decide
example : Marshal (some []) = lit "\x7b\x7d" := by decide

example : SprintfF (.finite false 1 0) = lit "1.000000" := by decide
example : SprintfF (.finite false 1 (-1)) = lit "0.500000" := by decide
example : SprintfF (.finite false 13421773 (-27)) = lit "0.100000" := by decide
example : SprintfF (.finite false 1 (-21)) = lit "0.000000" := by decide
example : SprintfF (.finite false 3 (-21)) = lit "0.000001" := by decide
example : SprintfF (.finite true 5 (-2)) = lit "-1.250000" := by decide

example : GetK8sJobCommand (fun _ => none) scenarioJob =
    .ok [lit "ray", lit "job", lit "submit", lit "--address", lit "http://127.0.0.1:8265",
      lit "--", lit "python", lit "script.py", lit "--flag", lit "a b"] := by decide

example : EncodeToString (lit "hello") = lit "aGVsbG8=" := by decide
example : EncodeToString (lit "hello!") = lit "aGVsbG8h" := by decide
example : EncodeToString [0xFF, 0xEF] = lit "/+8=" := by decide
example : EncodeToString (lit "h") = lit "aA==" := by decide
example : isStdBase64 (lit "aGVsbG8=") = true := by decide
example : isStdBase64 (lit "aGVsbG8") = false := by decide
example : isStdBase64 (lit "aGVs=G8h") = false := by decide
example : isStdBase64 (lit "a===") = false := by decide

example : externalize [] headEnv = expectedHeadEnv := by decide
example : externalize workerReservedEnv workerEnv = expectedEnv := by decide
example : internalize expectedHeadEnv = .ok headEnv := by rfl
example : (externalize [] workerEnv).values.length = 6 := by decide

example : decodeTolerations configMapWithoutTolerations = .ok [] := by rfl
example : decodeTolerations configMapWithTolerations = .ok [expectedTolerations] := by rfl
example : tolerationsJson [expectedTolerations] =
    lit "[\x7b\"key\":\"blah1\",\"operator\":\"Exists\",\"effect\":\"NoExecute\"\x7d]" := by
  decide
example : encodeTolerations configMapWithTolerations [] = configMapWithoutTolerations := by
  decide
example : parseTolerations (lit " [ \x7b \"effect\" : \"E\", \"key\":\"a\\\"b\\u0041\",\n \"operator\":\"O\", \"value\":\"v\" \x7d ] ") =
    some [{ key := lit "a\"bA", operator := lit "O", value := lit "v", effect := lit "E" }] := by
  rfl
example : parseTolerations (lit "[\x7b\"key\":\"a\",\"operator\":\"Exists\"\x7d]") = none := by
  decide
example : parseTolerations (lit "[\x7b\"key\":\"a\"") = none := by decide
example : parseTolerations (lit "[]") = some [] := by decide

/-! ## Theorems -/

/-- The metadata block appends the optional `--metadata-json` pair. -/
theorem appendMetadata_ok (job : RayJob) (pre cmd : List GoString)
    (h : appendMetadata job pre = .ok cmd) :
    ∃ metadataJson,
      (job.Spec.Metadata.len > 0 → ∃ spec, job.Spec.RayClusterSpec = some spec ∧
        GetMetadataJson job.Spec.Metadata spec.RayVersion = (metadataJson, none)) ∧
      cmd = pre ++ optionalPair (decide (job.Spec.Metadata.len > 0))
        (lit "--metadata-json") metadataJson := by
  unfold appendMetadata at h
  by_cases hm : job.Spec.Metadata.len > 0
  · simp only [hm, if_true] at h
    cases hs : job.Spec.RayClusterSpec with
    | none => simp [hs] at h
    | some spec =>
      simp only [hs] at h
      rcases hg : GetMetadataJson job.Spec.Metadata spec.RayVersion with ⟨mj, _ | err⟩
      · rw [hg] at h
        refine ⟨mj, fun _ => ⟨spec, rfl, hg⟩, ?_⟩
        simp only [JobResult.ok.injEq] at h
        simp [optionalPair, hm, ← h]
      · rw [hg] at h
        simp at h
  · simp only [hm, if_false] at h
    refine ⟨[], fun h' => absurd h' hm, ?_⟩
    simp only [JobResult.ok.injEq] at h
    simp [optionalPair, hm, ← h]

/-- The layout of a successful command: the three fallible steps succeeded
and the command is the base command, the optional pairs, the separator and
the words of the entrypoint. -/
theorem GetK8sJobCommand_layout (YAMLToJSON : GoString → Option GoString) (job : RayJob)
    (cmd : List GoString) (h : GetK8sJobCommand YAMLToJSON job = .ok cmd) :
    ∃ runtimeEnvJson metadataJson commandSlice,
      getRuntimeEnvJson YAMLToJSON job = (runtimeEnvJson, none) ∧
      (job.Spec.Metadata.len > 0 → ∃ spec, job.Spec.RayClusterSpec = some spec ∧
        GetMetadataJson job.Spec.Metadata spec.RayVersion = (metadataJson, none)) ∧
      Split job.Spec.Entrypoint = (commandSlice, none) ∧
      cmd = GetBaseRayJobCommand job.Status.DashboardURL
        ++ optionalPair (decide (runtimeEnvJson.length > 0))
            (lit "--runtime-env-json") runtimeEnvJson
        ++ optionalPair (decide (job.Spec.Metadata.len > 0)) (lit "--metadata-json") metadataJson
        ++ optionalPair (decide (job.Status.JobId.length > 0))
            (lit "--submission-id") job.Status.JobId
        ++ optionalPair job.Spec.EntrypointNumCpus.isPos
            (lit "--entrypoint-num-cpus") (SprintfF job.Spec.EntrypointNumCpus)
        ++ optionalPair job.Spec.EntrypointNumGpus.isPos
            (lit "--entrypoint-num-gpus") (SprintfF job.Spec.EntrypointNumGpus)
        ++ optionalPair (decide (job.Spec.EntrypointResources.length > 0))
            (lit "--entrypoint-resources") job.Spec.EntrypointResources
        ++ [lit "--"] ++ commandSlice := by
  unfold GetK8sJobCommand at h
  rcases hr : getRuntimeEnvJson YAMLToJSON job with ⟨rj, _ | err⟩
  · simp only [hr] at h
    split at h
    · simp at h
    · simp at h
    · rename_i c hc
      obtain ⟨mj, hmj, hcmd⟩ := appendMetadata_ok _ _ _ hc
      rcases hsp : Split job.Spec.Entrypoint with ⟨toks, _ | serr⟩
      · rw [hsp] at h
        simp only [JobResult.ok.injEq] at h
        refine ⟨rj, mj, toks, rfl, hmj, rfl, ?_⟩
        rw [← h, hcmd]
        simp only [optionalPair, decide_eq_true_eq]
        by_cases h1 : rj.length > 0 <;> by_cases h2 : job.Status.JobId.length > 0 <;>
          by_cases h3 : job.Spec.EntrypointNumCpus.isPos = true <;>
          by_cases h4 : job.Spec.EntrypointNumGpus.isPos = true <;>
          by_cases h5 : job.Spec.EntrypointResources.length > 0 <;>
          simp [h1, h2, h3, h4, h5]
      · rw [hsp] at h
        simp at h
  · simp [hr] at h

/-- C1: when `GetK8sJobCommand` succeeds, the command is the concatenation, in
this order, of the base command, the optional pairs `--runtime-env-json`,
`--metadata-json`, `--submission-id`, `--entrypoint-num-cpus`,
`--entrypoint-num-gpus`, `--entrypoint-resources`, the separator `--` and the
words of the entrypoint; nothing else is in it. -/
theorem GetK8sJobCommand_order (YAMLToJSON : GoString → Option GoString) (job : RayJob)
    (cmd : List GoString) (h : GetK8sJobCommand YAMLToJSON job = .ok cmd) :
    ∃ runtimeEnvJson metadataJson commandSlice,
      getRuntimeEnvJson YAMLToJSON job = (runtimeEnvJson, none) ∧
      (job.Spec.Metadata.len > 0 → ∃ spec, job.Spec.RayClusterSpec = some spec ∧
        GetMetadataJson job.Spec.Metadata spec.RayVersion = (metadataJson, none)) ∧
      Split job.Spec.Entrypoint = (commandSlice, none) ∧
      cmd = GetBaseRayJobCommand job.Status.DashboardURL
        ++ optionalPair (decide (runtimeEnvJson.length > 0))
            (lit "--runtime-env-json") runtimeEnvJson
        ++ optionalPair (decide (job.Spec.Metadata.len > 0)) (lit "--metadata-json") metadataJson
        ++ optionalPair (decide (job.Status.JobId.length > 0))
            (lit "--submission-id") job.Status.JobId
        ++ optionalPair job.Spec.EntrypointNumCpus.isPos
            (lit "--entrypoint-num-cpus") (SprintfF job.Spec.EntrypointNumCpus)
        ++ optionalPair job.Spec.EntrypointNumGpus.isPos
            (lit "--entrypoint-num-gpus") (SprintfF job.Spec.EntrypointNumGpus)
        ++ optionalPair (decide (job.Spec.EntrypointResources.length > 0))
            (lit "--entrypoint-resources") job.Spec.EntrypointResources
        ++ [lit "--"] ++ commandSlice :=
  GetK8sJobCommand_layout YAMLToJSON job cmd h

/-- Witness of C1: `fullJob` succeeds with `fullCommand`, which is laid out
as C1 says. -/
theorem GetK8sJobCommand_order_witness :
    GetK8sJobCommand (fun _ => none) fullJob = .ok fullCommand ∧
    ∃ runtimeEnvJson metadataJson commandSlice,
      getRuntimeEnvJson (fun _ => none) fullJob = (runtimeEnvJson, none) ∧
      (fullJob.Spec.Metadata.len > 0 → ∃ spec, fullJob.Spec.RayClusterSpec = some spec ∧
        GetMetadataJson fullJob.Spec.Metadata spec.RayVersion = (metadataJson, none)) ∧
      Split fullJob.Spec.Entrypoint = (commandSlice, none) ∧
      fullCommand = GetBaseRayJobCommand fullJob.Status.DashboardURL
        ++ optionalPair (decide (runtimeEnvJson.length > 0))
            (lit "--runtime-env-json") runtimeEnvJson
        ++ optionalPair (decide (fullJob.Spec.Metadata.len > 0))
            (lit "--metadata-json") metadataJson
        ++ optionalPair (decide (fullJob.Status.JobId.length > 0))
            (lit "--submission-id") fullJob.Status.JobId
        ++ optionalPair fullJob.Spec.EntrypointNumCpus.isPos
            (lit "--entrypoint-num-cpus") (SprintfF fullJob.Spec.EntrypointNumCpus)
        ++ optionalPair fullJob.Spec.EntrypointNumGpus.isPos
            (lit "--entrypoint-num-gpus") (SprintfF fullJob.Spec.EntrypointNumGpus)
        ++ optionalPair (decide (fullJob.Spec.EntrypointResources.length > 0))
            (lit "--entrypoint-resources") fullJob.Spec.EntrypointResources
        ++ [lit "--"] ++ commandSlice :=
  ⟨by decide, GetK8sJobCommand_order (fun _ => none) fullJob fullCommand (by decide)⟩

/-- C2: when `GetK8sJobCommand` succeeds, the entrypoint tokenizes and the
command ends with the separator `--` followed by exactly the words of the
entrypoint, in order. -/
theorem GetK8sJobCommand_ends_with_entrypoint (YAMLToJSON : GoString → Option GoString)
    (job : RayJob) (cmd : List GoString) (h : GetK8sJobCommand YAMLToJSON job = .ok cmd) :
    (Split job.Spec.Entrypoint).2 = none ∧
    (lit "--" :: (Split job.Spec.Entrypoint).1) <:+ cmd := by
  obtain ⟨rj, mj, toks, -, -, hs, hcmd⟩ := GetK8sJobCommand_layout YAMLToJSON job cmd h
  rw [hs, hcmd, List.append_assoc _ [lit "--"] toks]
  exact ⟨rfl, List.suffix_append _ _⟩

/-- Witness of C2: the command-assembly scenario.  The command of
`scenarioJob` ends with `--`, `python`, `script.py`, `--flag`, `a b`. -/
theorem GetK8sJobCommand_ends_with_entrypoint_witness :
    Split (lit "python script.py --flag 'a b'") =
      ([lit "python", lit "script.py", lit "--flag", lit "a b"], none) ∧
    [lit "--", lit "python", lit "script.py", lit "--flag", lit "a b"] <:+
      [lit "ray", lit "job", lit "submit", lit "--address", lit "http://127.0.0.1:8265",
       lit "--", lit "python", lit "script.py", lit "--flag", lit "a b"] :=
  ⟨by decide,
   (GetK8sJobCommand_ends_with_entrypoint (fun _ => none) scenarioJob
      [lit "ray", lit "job", lit "submit", lit "--address", lit "http://127.0.0.1:8265",
       lit "--", lit "python", lit "script.py", lit "--flag", lit "a b"] (by decide)).2⟩

/-- C3: a job with both a non-empty `RuntimeEnv` and a non-empty
`RuntimeEnvYAML` makes `GetK8sJobCommand` return an error and no command,
whatever its other fields are. -/
theorem GetK8sJobCommand_both_runtime_envs (YAMLToJSON : GoString → Option GoString)
    (job : RayJob) (h1 : job.Spec.RuntimeEnv.length > 0)
    (h2 : job.Spec.RuntimeEnvYAML.length > 0) :
    getRuntimeEnvJson YAMLToJSON job = ([], some .bothRuntimeEnv) ∧
    GetK8sJobCommand YAMLToJSON job = .err .bothRuntimeEnv := by
  have hr : getRuntimeEnvJson YAMLToJSON job = ([], some .bothRuntimeEnv) := by
    simp [getRuntimeEnvJson, h1, h2]
  exact ⟨hr, by simp [GetK8sJobCommand, hr]⟩

/-- Witness of C3: `conflictJob` is rejected. -/
theorem GetK8sJobCommand_both_runtime_envs_witness :
    getRuntimeEnvJson (fun y => some y) conflictJob = ([], some .bothRuntimeEnv) ∧
    GetK8sJobCommand (fun y => some y) conflictJob = .err .bothRuntimeEnv :=
  GetK8sJobCommand_both_runtime_envs (fun y => some y) conflictJob (by decide) (by decide)

/-- Swapping the arguments of `compareSegment` negates the result. -/
theorem compareSegment_swap (v o : Nat) : compareSegment o v = - compareSegment v o := by
  unfold compareSegment
  split_ifs <;> omega

/-- On two release versions, swapping the arguments of `Compare` negates the
result. -/
theorem Compare_swap_release (v o : Version) (hv : v.pre = []) (ho : o.pre = []) :
    o.Compare v = - v.Compare o := by
  unfold Version.Compare
  simp only [hv, ho, and_self, if_true]
  rw [compareSegment_swap v.major o.major, compareSegment_swap v.minor o.minor,
    compareSegment_swap v.patch o.patch]
  generalize compareSegment v.major o.major = a
  generalize compareSegment v.minor o.minor = b
  generalize compareSegment v.patch o.patch = c
  split_ifs <;> omega

/-- A version below `2.6.0` does not satisfy the constraint `>= 2.6.0`. -/
theorem constraintCheck_of_lt (v : Version) (h : v.Compare v260 < 0) :
    constraintCheck v = false := by
  unfold constraintCheck constraintGreaterThanEqual
  have h260 : v260.pre = [] := rfl
  by_cases hp : v.pre = []
  · have hs := Compare_swap_release v v260 hp h260
    simp only [hp, ne_eq, not_true_eq_false, false_and, if_false, decide_eq_false_iff_not, not_le]
    omega
  · simp [hp, h260]

/-- The metadata step of a job whose cluster specification is present. -/
theorem appendMetadata_err (job : RayJob) (spec : RayClusterSpec) (pre : List GoString)
    (e : GoError) (hm : job.Spec.Metadata.len > 0) (hs : job.Spec.RayClusterSpec = some spec)
    (hg : GetMetadataJson job.Spec.Metadata spec.RayVersion = ([], some e)) :
    appendMetadata job pre = .err e := by
  simp [appendMetadata, hm, hs, hg]

/-- A job whose metadata step returns an error gets an error: either that one
or the earlier one of the runtime environment. -/
theorem GetK8sJobCommand_metadata_err (YAMLToJSON : GoString → Option GoString) (job : RayJob)
    (spec : RayClusterSpec) (e : GoError) (hm : job.Spec.Metadata.len > 0)
    (hs : job.Spec.RayClusterSpec = some spec)
    (hg : GetMetadataJson job.Spec.Metadata spec.RayVersion = ([], some e)) :
    ∃ e', GetK8sJobCommand YAMLToJSON job = .err e' := by
  unfold GetK8sJobCommand
  rcases hr : getRuntimeEnvJson YAMLToJSON job with ⟨rj, _ | err⟩
  · simp only [hr, appendMetadata_err job spec _ e hm hs hg]
    exact ⟨e, rfl⟩
  · exact ⟨err, by simp [hr]⟩

/-- C4: for a non-empty metadata map and a Ray version that does not parse as
a semantic version, or parses to a version below 2.6.0, `GetMetadataJson`
returns an error and the empty string, and `GetK8sJobCommand` on every job
that carries this metadata and this cluster Ray version returns an error and
no command. -/
theorem GetMetadataJson_unsupported_version (metadata : GoMap) (rayVersion : GoString)
    (hm : metadata.len > 0)
    (hv : NewVersion rayVersion = none ∨
      ∃ v, NewVersion rayVersion = some v ∧ v.Compare v260 < 0) :
    (∃ e, GetMetadataJson metadata rayVersion = ([], some e)) ∧
    ∀ (YAMLToJSON : GoString → Option GoString) (job : RayJob) (spec : RayClusterSpec),
      job.Spec.Metadata = metadata → job.Spec.RayClusterSpec = some spec →
      spec.RayVersion = rayVersion → ∃ e, GetK8sJobCommand YAMLToJSON job = .err e := by
  have hg : ∃ e, GetMetadataJson metadata rayVersion = ([], some e) := by
    rcases hv with hv | ⟨v, hv, hlt⟩
    · exact ⟨.parseRayVersion, by simp [GetMetadataJson, hv]⟩
    · exact ⟨.rayVersionTooLow, by simp [GetMetadataJson, hv, constraintCheck_of_lt v hlt]⟩
  refine ⟨hg, ?_⟩
  intro Y job spec hmd hs hrv
  obtain ⟨e, he⟩ := hg
  subst hmd hrv
  exact GetK8sJobCommand_metadata_err Y job spec e hm hs he

/-- Witness of C4: Ray version `2.5.0` parses, is below 2.6.0, and the
metadata of the scenario is rejected, by `GetMetadataJson` and by
`GetK8sJobCommand` on the job of the scenario. -/
theorem GetMetadataJson_unsupported_version_witness :
    (∃ e, GetMetadataJson scenarioMetadata (lit "2.5.0") = ([], some e)) ∧
    ∃ e, GetK8sJobCommand (fun _ => none) (metadataJob (lit "2.5.0")) = .err e :=
  ⟨(GetMetadataJson_unsupported_version scenarioMetadata (lit "2.5.0") (by decide)
      (Or.inr ⟨{ major := 2, minor := 5, patch := 0, pre := [], metadata := [],
                 original := lit "2.5.0" }, by decide, by decide⟩)).1,
   (GetMetadataJson_unsupported_version scenarioMetadata (lit "2.5.0") (by decide)
      (Or.inr ⟨{ major := 2, minor := 5, patch := 0, pre := [], metadata := [],
                 original := lit "2.5.0" }, by decide, by decide⟩)).2
      (fun _ => none) (metadataJob (lit "2.5.0")) { RayVersion := lit "2.5.0" } rfl rfl rfl⟩

/-- C5, evaluated where the code departs from it: Ray version `2.7.0-rc.1`
parses, is above 2.6.0 in semantic-version order, and `GetMetadataJson`
rejects it as too old, so `GetK8sJobCommand` returns no command; on `2.6.0`
the scenario gives the `--metadata-json` pair. -/
theorem GetMetadataJson_prerelease_rejected :
    (∃ v, NewVersion (lit "2.7.0-rc.1") = some v ∧ v.Compare v260 = 1) ∧
    GetMetadataJson scenarioMetadata (lit "2.7.0-rc.1") = ([], some .rayVersionTooLow) ∧
    GetK8sJobCommand (fun _ => none) (metadataJob (lit "2.7.0-rc.1")) =
      .err .rayVersionTooLow ∧
    GetMetadataJson scenarioMetadata (lit "2.6.0") =
      (lit "\x7b\"job_submission_id\":\"123\"\x7d", none) ∧
    GetK8sJobCommand (fun _ => none) (metadataJob (lit "2.6.0")) =
      .ok [lit "ray", lit "job", lit "submit", lit "--address", lit "http://127.0.0.1:8265",
        lit "--metadata-json", lit "\x7b\"job_submission_id\":\"123\"\x7d",
        lit "--", lit "python", lit "script.py"] := by
  refine ⟨⟨{ major := 2, minor := 7, patch := 0, pre := lit "rc.1", metadata := [],
             original := lit "2.7.0-rc.1" }, by decide, by decide⟩, ?_, ?_, ?_, ?_⟩ <;> decide

/-- A release version at or above `2.6.0` passes: `GetMetadataJson` returns
the JSON object of the map. -/
theorem GetMetadataJson_release (metadata : GoMap) (rayVersion : GoString) (v : Version)
    (hv : NewVersion rayVersion = some v) (hp : v.pre = []) (hge : 0 ≤ v.Compare v260) :
    GetMetadataJson metadata rayVersion = (Marshal metadata, none) := by
  have hs := Compare_swap_release v v260 hp rfl
  have hc : constraintCheck v = true := by
    unfold constraintCheck constraintGreaterThanEqual
    simp only [hp, ne_eq, not_true_eq_false, false_and, if_false, decide_eq_true_eq]
    omega
  simp [GetMetadataJson, hv, hc]

/-- `GetK8sJobCommand` in terms of its result on the job without entrypoint:
an earlier error or panic is kept, otherwise tokenization decides. -/
theorem GetK8sJobCommand_split (YAMLToJSON : GoString → Option GoString) (job : RayJob) :
    GetK8sJobCommand YAMLToJSON job =
      match GetK8sJobCommand YAMLToJSON (withoutEntrypoint job) with
      | .ok pre =>
        match Split job.Spec.Entrypoint with
        | (_, some err) => .err (.shlex err)
        | (commandSlice, none) => .ok (pre ++ commandSlice)
      | r => r := by
  have hr : getRuntimeEnvJson YAMLToJSON (withoutEntrypoint job) =
      getRuntimeEnvJson YAMLToJSON job := rfl
  have ha : ∀ pre, appendMetadata (withoutEntrypoint job) pre = appendMetadata job pre :=
    fun _ => rfl
  have he : (withoutEntrypoint job).Spec.Entrypoint = [] := rfl
  have h1 : (withoutEntrypoint job).Status = job.Status := rfl
  have h2 : (withoutEntrypoint job).Spec.EntrypointNumCpus = job.Spec.EntrypointNumCpus := rfl
  have h3 : (withoutEntrypoint job).Spec.EntrypointNumGpus = job.Spec.EntrypointNumGpus := rfl
  have h4 : (withoutEntrypoint job).Spec.EntrypointResources = job.Spec.EntrypointResources :=
    rfl
  have hsplit : Split [] = ([], none) := rfl
  unfold GetK8sJobCommand
  simp only [hr, ha, he, h1, h2, h3, h4, hsplit]
  rcases getRuntimeEnvJson YAMLToJSON job with ⟨rj, _ | err⟩
  · simp only
    cases appendMetadata job (if rj.length > 0 then
        GetBaseRayJobCommand job.Status.DashboardURL ++ [lit "--runtime-env-json", rj]
      else GetBaseRayJobCommand job.Status.DashboardURL) with
    | ok pre => simp only [List.append_nil]
    | err e => rfl
    | panic => rfl
  · rfl

/-- C6: an entrypoint that fails shell tokenization makes `GetK8sJobCommand`
return no command: the result is the tokenization error whenever the steps
before it succeed, and the earlier failure otherwise.  An entrypoint that
tokenizes never causes a failure: the job succeeds exactly when the job
without entrypoint does, and then its command is that one followed by the
words. -/
theorem GetK8sJobCommand_entrypoint (YAMLToJSON : GoString → Option GoString) (job : RayJob) :
    (∀ e, (Split job.Spec.Entrypoint).2 = some e →
      (∀ cmd, GetK8sJobCommand YAMLToJSON job ≠ .ok cmd) ∧
      (∀ pre, GetK8sJobCommand YAMLToJSON (withoutEntrypoint job) = .ok pre →
        GetK8sJobCommand YAMLToJSON job = .err (.shlex e)) ∧
      ((∀ pre, GetK8sJobCommand YAMLToJSON (withoutEntrypoint job) ≠ .ok pre) →
        GetK8sJobCommand YAMLToJSON job = GetK8sJobCommand YAMLToJSON (withoutEntrypoint job))) ∧
    ((Split job.Spec.Entrypoint).2 = none →
      (∀ pre, GetK8sJobCommand YAMLToJSON (withoutEntrypoint job) = .ok pre →
        GetK8sJobCommand YAMLToJSON job = .ok (pre ++ (Split job.Spec.Entrypoint).1)) ∧
      (∀ r, (∀ pre, r ≠ .ok pre) → GetK8sJobCommand YAMLToJSON (withoutEntrypoint job) = r →
        GetK8sJobCommand YAMLToJSON job = r)) := by
  have key := GetK8sJobCommand_split YAMLToJSON job
  rcases hs : Split job.Spec.Entrypoint with ⟨toks, _ | serr⟩
  · rw [hs] at key
    refine ⟨fun e he => by simp at he, fun _ => ⟨?_, ?_⟩⟩
    · intro pre hpre
      rw [key, hpre]
    · intro r hr h0
      rw [key, h0]
      cases r with
      | ok pre => exact absurd rfl (hr pre)
      | err e => rfl
      | panic => rfl
  · rw [hs] at key
    refine ⟨fun e he => ?_, fun h => by simp at h⟩
    simp only [Option.some.injEq] at he
    subst he
    cases h0 : GetK8sJobCommand YAMLToJSON (withoutEntrypoint job) with
    | ok pre =>
      rw [h0] at key
      exact ⟨fun cmd => by rw [key]; simp, fun _ _ => key, fun hne => absurd rfl (hne pre)⟩
    | err e =>
      rw [h0] at key
      exact ⟨fun cmd => by rw [key]; simp, fun _ h => by simp at h, fun _ => key⟩
    | panic =>
      rw [h0] at key
      exact ⟨fun cmd => by rw [key]; simp, fun _ h => by simp at h, fun _ => key⟩

/-- Witness of C6: the unterminated quote is an error of `GetK8sJobCommand`,
and the entrypoint of the scenario, which tokenizes, is appended to the
command of the job without entrypoint. -/
theorem GetK8sJobCommand_entrypoint_witness :
    GetK8sJobCommand (fun _ => none) openQuoteJob = .err (.shlex .eofInQuote) ∧
    GetK8sJobCommand (fun _ => none) scenarioJob =
      .ok ([lit "ray", lit "job", lit "submit", lit "--address", lit "http://127.0.0.1:8265",
        lit "--"] ++ (Split scenarioJob.Spec.Entrypoint).1) :=
  ⟨((GetK8sJobCommand_entrypoint (fun _ => none) openQuoteJob).1 .eofInQuote
      (by decide)).2.1
      [lit "ray", lit "job", lit "submit", lit "--address", lit "http://127.0.0.1:8265",
        lit "--"] (by decide),
   ((GetK8sJobCommand_entrypoint (fun _ => none) scenarioJob).2 (by decide)).1
      [lit "ray", lit "job", lit "submit", lit "--address", lit "http://127.0.0.1:8265",
        lit "--"] (by decide)⟩

/-- C7 as stated fails: `newlineJob` has exactly one runtime environment, its
decoding succeeds (with the empty document), `GetK8sJobCommand` succeeds, and
the command has no `--runtime-env-json` at all, so none after the address. -/
theorem GetK8sJobCommand_runtime_env_counterexample :
    newlineJob.Spec.RuntimeEnv.length > 0 ∧ newlineJob.Spec.RuntimeEnvYAML = [] ∧
    DecodeString newlineJob.Spec.RuntimeEnv = some [] ∧
    getRuntimeEnvJson (fun _ => none) newlineJob = ([], none) ∧
    GetK8sJobCommand (fun _ => none) newlineJob =
      .ok [lit "ray", lit "job", lit "submit", lit "--address", lit "http://127.0.0.1:8265",
        lit "--", lit "python", lit "script.py", lit "--flag", lit "a b"] ∧
    lit "--runtime-env-json" ∉
      [lit "ray", lit "job", lit "submit", lit "--address", lit "http://127.0.0.1:8265",
        lit "--", lit "python", lit "script.py", lit "--flag", lit "a b"] := by
  refine ⟨by decide, by decide, by decide, by decide, by decide, by decide⟩

/-- C7, amended: when exactly one of `RuntimeEnv` and `RuntimeEnvYAML` is
non-empty, its decoding succeeds and the decoded document is not empty, every
command `GetK8sJobCommand` builds has `--runtime-env-json` and the decoded
document directly after the base command, which ends with the address. -/
theorem GetK8sJobCommand_runtime_env (YAMLToJSON : GoString → Option GoString) (job : RayJob)
    (doc : GoString) (cmd : List GoString)
    (hone : (job.Spec.RuntimeEnv.length > 0 ∧ job.Spec.RuntimeEnvYAML = [] ∧
        DecodeString job.Spec.RuntimeEnv = some doc) ∨
      (job.Spec.RuntimeEnv = [] ∧ job.Spec.RuntimeEnvYAML.length > 0 ∧
        YAMLToJSON job.Spec.RuntimeEnvYAML = some doc))
    (hdoc : doc.length > 0) (h : GetK8sJobCommand YAMLToJSON job = .ok cmd) :
    getRuntimeEnvJson YAMLToJSON job = (doc, none) ∧
    ∃ rest, cmd = GetBaseRayJobCommand job.Status.DashboardURL ++
      [lit "--runtime-env-json", doc] ++ rest := by
  have hr : getRuntimeEnvJson YAMLToJSON job = (doc, none) := by
    rcases hone with ⟨h1, h2, h3⟩ | ⟨h1, h2, h3⟩
    · simp [getRuntimeEnvJson, GetDecodedRuntimeEnv, h1, h2, h3]
    · simp [getRuntimeEnvJson, h1, h2, h3]
  obtain ⟨rj, mj, toks, hrj, -, -, hcmd⟩ := GetK8sJobCommand_layout YAMLToJSON job cmd h
  rw [hr] at hrj
  simp only [Prod.mk.injEq, and_true] at hrj
  subst hrj
  refine ⟨hr, ?_⟩
  rw [hcmd]
  simp only [optionalPair, hdoc, decide_True, if_true, List.append_assoc]
  exact ⟨_, rfl⟩

/-- Witness of C7, amended: the base64 runtime environment of `fullJob`
decodes to the document that follows `--runtime-env-json` after the
address. -/
theorem GetK8sJobCommand_runtime_env_witness :
    getRuntimeEnvJson (fun _ => none) fullJob = (lit "\x7b\"a\":1\x7d", none) ∧
    ∃ rest, fullCommand = GetBaseRayJobCommand fullJob.Status.DashboardURL ++
      [lit "--runtime-env-json", lit "\x7b\"a\":1\x7d"] ++ rest :=
  GetK8sJobCommand_runtime_env (fun _ => none) fullJob (lit "\x7b\"a\":1\x7d") fullCommand
    (Or.inl ⟨by decide, by decide, by decide⟩) (by decide) (by decide)

/-- No flag of `laterPairs` is `--runtime-env-json`. -/
theorem laterPairs_flag (job : RayJob) (metadataJson : GoString) :
    ∀ p ∈ laterPairs job metadataJson, p.1 ≠ lit "--runtime-env-json" := by
  intro p hp
  have hflags : p.1 = lit "--metadata-json" ∨ p.1 = lit "--submission-id" ∨
      p.1 = lit "--entrypoint-num-cpus" ∨ p.1 = lit "--entrypoint-num-gpus" ∨
      p.1 = lit "--entrypoint-resources" := by
    simp only [laterPairs, List.mem_append] at hp
    rcases hp with (((hp | hp) | hp) | hp) | hp <;> split at hp <;>
      simp only [List.mem_singleton, List.not_mem_nil] at hp <;> subst hp <;> simp
  rcases hflags with h | h | h | h | h <;> rw [h] <;> decide

/-- The optional parts after the runtime environment, written as pairs. -/
theorem laterPairs_flatten (job : RayJob) (metadataJson : GoString) :
    (laterPairs job metadataJson).flatMap (fun p => [p.1, p.2]) =
      optionalPair (decide (job.Spec.Metadata.len > 0)) (lit "--metadata-json") metadataJson
        ++ optionalPair (decide (job.Status.JobId.length > 0))
            (lit "--submission-id") job.Status.JobId
        ++ optionalPair job.Spec.EntrypointNumCpus.isPos
            (lit "--entrypoint-num-cpus") (SprintfF job.Spec.EntrypointNumCpus)
        ++ optionalPair job.Spec.EntrypointNumGpus.isPos
            (lit "--entrypoint-num-gpus") (SprintfF job.Spec.EntrypointNumGpus)
        ++ optionalPair (decide (job.Spec.EntrypointResources.length > 0))
            (lit "--entrypoint-resources") job.Spec.EntrypointResources := by
  simp only [laterPairs, optionalPair, List.flatMap_append, decide_eq_true_eq]
  by_cases h1 : job.Spec.Metadata.len > 0 <;> by_cases h2 : job.Status.JobId.length > 0 <;>
    by_cases h3 : job.Spec.EntrypointNumCpus.isPos = true <;>
    by_cases h4 : job.Spec.EntrypointNumGpus.isPos = true <;>
    by_cases h5 : job.Spec.EntrypointResources.length > 0 <;>
    simp [h1, h2, h3, h4, h5]

/-- C8: when `RuntimeEnv` and `RuntimeEnvYAML` are both empty,
`getRuntimeEnvJson` succeeds with the empty string, and every command
`GetK8sJobCommand` builds is the base command, then flag/value pairs none of
whose flags is `--runtime-env-json`, then the separator `--` and the words of
the entrypoint. -/
theorem GetK8sJobCommand_no_runtime_env (YAMLToJSON : GoString → Option GoString)
    (job : RayJob) (h1 : job.Spec.RuntimeEnv = []) (h2 : job.Spec.RuntimeEnvYAML = []) :
    getRuntimeEnvJson YAMLToJSON job = ([], none) ∧
    ∀ cmd, GetK8sJobCommand YAMLToJSON job = .ok cmd →
      ∃ pairs : List (GoString × GoString),
        (∀ p ∈ pairs, p.1 ≠ lit "--runtime-env-json") ∧
        cmd = GetBaseRayJobCommand job.Status.DashboardURL
          ++ pairs.flatMap (fun p => [p.1, p.2])
          ++ lit "--" :: (Split job.Spec.Entrypoint).1 := by
  have hr : getRuntimeEnvJson YAMLToJSON job = ([], none) := by
    simp [getRuntimeEnvJson, h1, h2]
  refine ⟨hr, fun cmd h => ?_⟩
  obtain ⟨rj, mj, toks, hrj, -, hs, hcmd⟩ := GetK8sJobCommand_layout YAMLToJSON job cmd h
  rw [hr] at hrj
  simp only [Prod.mk.injEq, and_true] at hrj
  subst hrj
  refine ⟨laterPairs job mj, laterPairs_flag job mj, ?_⟩
  rw [hcmd, hs, laterPairs_flatten]
  simp [optionalPair]

/-- Witness of C8: the scenario job has no runtime environment, and its
command is the base command, no pair, the separator and the words. -/
theorem GetK8sJobCommand_no_runtime_env_witness :
    getRuntimeEnvJson (fun _ => none) scenarioJob = ([], none) ∧
    ∃ pairs : List (GoString × GoString),
      (∀ p ∈ pairs, p.1 ≠ lit "--runtime-env-json") ∧
      [lit "ray", lit "job", lit "submit", lit "--address", lit "http://127.0.0.1:8265",
        lit "--", lit "python", lit "script.py", lit "--flag", lit "a b"] =
        GetBaseRayJobCommand scenarioJob.Status.DashboardURL
          ++ pairs.flatMap (fun p => [p.1, p.2])
          ++ lit "--" :: (Split scenarioJob.Spec.Entrypoint).1 :=
  ⟨(GetK8sJobCommand_no_runtime_env (fun _ => none) scenarioJob (by decide) (by decide)).1,
   (GetK8sJobCommand_no_runtime_env (fun _ => none) scenarioJob (by decide) (by decide)).2
     _ (by decide)⟩

/-- `HasPrefix s p` holds exactly when `p` is a prefix of `s`. -/
theorem HasPrefix_iff (s p : GoString) : HasPrefix s p = true ↔ p <+: s := by
  induction p generalizing s with
  | nil => simp [HasPrefix]
  | cons b p ih =>
    cases s with
    | nil => simp [HasPrefix]
    | cons a s =>
      simp only [HasPrefix, Bool.and_eq_true, beq_iff_eq, ih, List.cons_prefix_cons]
      exact ⟨fun h => ⟨h.1.symm, h.2⟩, fun h => ⟨h.1.symm, h.2⟩⟩

/-- C9: `GetBaseRayJobCommand` returns the five elements `ray`, `job`,
`submit`, `--address`, `A`, where `A` is the address when it begins with
`http://` and `http://` followed by the address otherwise; `A` begins with
`http://`, and normalising `A` again leaves it unchanged. -/
theorem GetBaseRayJobCommand_spec (address : GoString) :
    ∃ A, A = (if lit "http://" <+: address then address else lit "http://" ++ address) ∧
      GetBaseRayJobCommand address =
        [lit "ray", lit "job", lit "submit", lit "--address", A] ∧
      lit "http://" <+: A ∧
      GetBaseRayJobCommand A = [lit "ray", lit "job", lit "submit", lit "--address", A] := by
  by_cases hp : lit "http://" <+: address
  · have hb : HasPrefix address (lit "http://") = true := (HasPrefix_iff _ _).2 hp
    have hg : GetBaseRayJobCommand address =
        [lit "ray", lit "job", lit "submit", lit "--address", address] := by
      simp [GetBaseRayJobCommand, hb]
    exact ⟨address, by rw [if_pos hp], hg, hp, hg⟩
  · have hb : HasPrefix address (lit "http://") = false := by
      rw [← Bool.not_eq_true, HasPrefix_iff]
      exact hp
    have hp2 : lit "http://" <+: lit "http://" ++ address := List.prefix_append _ _
    have hb2 : HasPrefix (lit "http://" ++ address) (lit "http://") = true :=
      (HasPrefix_iff _ _).2 hp2
    refine ⟨lit "http://" ++ address, by rw [if_neg hp], ?_, hp2, ?_⟩
    · simp [GetBaseRayJobCommand, hb]
    · simp [GetBaseRayJobCommand, hb2]

/-- C10, evaluated where the code departs from it: an address that carries
the scheme `https://` is not left unchanged, `http://` is put in front of
it. -/
theorem GetBaseRayJobCommand_https :
    GetBaseRayJobCommand (lit "https://127.0.0.1:8265") =
      [lit "ray", lit "job", lit "submit", lit "--address",
       lit "http://https://127.0.0.1:8265"] := by
  decide

/-- A successful `GetMetadataJson` returns the JSON object of the map. -/
theorem GetMetadataJson_ok (metadata : GoMap) (rayVersion metadataJson : GoString)
    (h : GetMetadataJson metadata rayVersion = (metadataJson, none)) :
    metadataJson = Marshal metadata := by
  unfold GetMetadataJson at h
  split at h
  · simp at h
  · split at h
    · simp at h
    · simp only [Prod.mk.injEq, and_true] at h
      exact h.symm

/-- The JSON text of a map is never empty. -/
theorem Marshal_ne_nil (metadata : GoMap) : Marshal metadata ≠ [] := by
  cases metadata with
  | none => decide
  | some m => simp [Marshal]

/-- The text `%f` prints is never empty. -/
theorem SprintfF_ne_nil (x : GoFloat32) : SprintfF x ≠ [] := by
  cases x with
  | nan => decide
  | inf neg => cases neg <;> decide
  | finite neg mant exp =>
    have hdot : lit "." = [0x2E] := by decide
    simp [SprintfF, hdot]

/-- Every element of the base command is non-empty. -/
theorem GetBaseRayJobCommand_ne_nil (address : GoString) :
    ∀ x ∈ GetBaseRayJobCommand address, x ≠ [] := by
  intro x hx
  unfold GetBaseRayJobCommand at hx
  simp only [List.mem_cons, List.mem_singleton, List.not_mem_nil, or_false] at hx
  rcases hx with h | h | h | h | h
  · rw [h]; decide
  · rw [h]; decide
  · rw [h]; decide
  · rw [h]; decide
  · rw [h]
    by_cases hp : HasPrefix address (lit "http://") = true
    · simp only [hp, Bool.not_true, Bool.false_eq_true, if_false]
      intro h0
      rw [h0] at hp
      exact absurd hp (by decide)
    · simp only [hp, Bool.not_eq_true] at *
      simp only [hp, Bool.not_false, if_true]
      have : lit "http://" ≠ [] := by decide
      simp [this]

/-- The layout of a successful command in terms of `commandPairs`; the
metadata value is the JSON object of the map. -/
theorem GetK8sJobCommand_pairs (YAMLToJSON : GoString → Option GoString) (job : RayJob)
    (cmd : List GoString) (h : GetK8sJobCommand YAMLToJSON job = .ok cmd) :
    ∃ runtimeEnvJson,
      getRuntimeEnvJson YAMLToJSON job = (runtimeEnvJson, none) ∧
      (Split job.Spec.Entrypoint).2 = none ∧
      cmd = GetBaseRayJobCommand job.Status.DashboardURL
        ++ flattenPairs (commandPairs job runtimeEnvJson (Marshal job.Spec.Metadata))
        ++ lit "--" :: (Split job.Spec.Entrypoint).1 := by
  obtain ⟨rj, mj, toks, hrj, hmj, hs, hcmd⟩ := GetK8sJobCommand_layout YAMLToJSON job cmd h
  refine ⟨rj, hrj, by rw [hs], ?_⟩
  rw [hcmd, hs]
  have hflat : flattenPairs (commandPairs job rj (Marshal job.Spec.Metadata)) =
      optionalPair (decide (rj.length > 0)) (lit "--runtime-env-json") rj
        ++ (laterPairs job (Marshal job.Spec.Metadata)).flatMap (fun p => [p.1, p.2]) := by
    unfold flattenPairs commandPairs optionalPair
    by_cases h1 : rj.length > 0 <;> simp [h1]
  rw [hflat, laterPairs_flatten]
  by_cases hm : job.Spec.Metadata.len > 0
  · obtain ⟨spec, -, hg⟩ := hmj hm
    rw [GetMetadataJson_ok _ _ _ hg]
    simp only [List.append_assoc, List.singleton_append]
  · simp only [optionalPair, hm, decide_False, Bool.false_eq_true, if_false, List.append_nil,
      List.nil_append, List.append_assoc, List.singleton_append]

/-- Which pairs `commandPairs` holds, flag by flag. -/
theorem mem_commandPairs (job : RayJob) (rj mj : GoString) (p : GoString × GoString) :
    p ∈ commandPairs job rj mj ↔
      (rj.length > 0 ∧ p = (lit "--runtime-env-json", rj)) ∨
      (job.Spec.Metadata.len > 0 ∧ p = (lit "--metadata-json", mj)) ∨
      (job.Status.JobId.length > 0 ∧ p = (lit "--submission-id", job.Status.JobId)) ∨
      (job.Spec.EntrypointNumCpus.isPos = true ∧
        p = (lit "--entrypoint-num-cpus", SprintfF job.Spec.EntrypointNumCpus)) ∨
      (job.Spec.EntrypointNumGpus.isPos = true ∧
        p = (lit "--entrypoint-num-gpus", SprintfF job.Spec.EntrypointNumGpus)) ∨
      (job.Spec.EntrypointResources.length > 0 ∧
        p = (lit "--entrypoint-resources", job.Spec.EntrypointResources)) := by
  have hite : ∀ (c : Prop) [Decidable c] (x : GoString × GoString),
      p ∈ (if c then [x] else []) ↔ c ∧ p = x := by
    intro c _ x
    by_cases hc : c <;> simp [hc]
  unfold commandPairs laterPairs
  simp only [List.mem_append, hite, or_assoc]

/-- Every element that `commandPairs` puts on the command line is
non-empty. -/
theorem flattenPairs_ne_nil (job : RayJob) (rj : GoString) :
    ∀ x ∈ flattenPairs (commandPairs job rj (Marshal job.Spec.Metadata)), x ≠ [] := by
  intro x hx
  unfold flattenPairs at hx
  simp only [List.mem_flatMap, List.mem_cons, List.mem_singleton, List.not_mem_nil,
    or_false] at hx
  obtain ⟨p, hp, hx⟩ := hx
  rw [mem_commandPairs] at hp
  have hM := Marshal_ne_nil job.Spec.Metadata
  have hC := SprintfF_ne_nil job.Spec.EntrypointNumCpus
  have hG := SprintfF_ne_nil job.Spec.EntrypointNumGpus
  have f1 : lit "--runtime-env-json" ≠ [] := by decide
  have f2 : lit "--metadata-json" ≠ [] := by decide
  have f3 : lit "--submission-id" ≠ [] := by decide
  have f4 : lit "--entrypoint-num-cpus" ≠ [] := by decide
  have f5 : lit "--entrypoint-num-gpus" ≠ [] := by decide
  have f6 : lit "--entrypoint-resources" ≠ [] := by decide
  rcases hp with ⟨h, rfl⟩ | ⟨h, rfl⟩ | ⟨h, rfl⟩ | ⟨h, rfl⟩ | ⟨h, rfl⟩ | ⟨h, rfl⟩ <;>
    rcases hx with rfl | rfl <;> first
      | assumption
      | exact List.ne_nil_of_length_pos h

/-- A pair of the list puts its flag and, right after it, its value on the
command line. -/
theorem flattenPairs_contains (pairs : List (GoString × GoString)) (p : GoString × GoString)
    (hp : p ∈ pairs) : [p.1, p.2] <:+: flattenPairs pairs := by
  obtain ⟨l1, l2, rfl⟩ := List.append_of_mem hp
  refine ⟨flattenPairs l1, flattenPairs l2, ?_⟩
  simp [flattenPairs, List.flatMap_append]

/-- C11: when `GetK8sJobCommand` succeeds, the part of the command before the
separator `--` contains `--submission-id` immediately followed by the job id
if and only if the job id is not empty. -/
theorem GetK8sJobCommand_submission_id (YAMLToJSON : GoString → Option GoString)
    (job : RayJob) (cmd : List GoString) (h : GetK8sJobCommand YAMLToJSON job = .ok cmd) :
    ∃ pre, cmd = pre ++ lit "--" :: (Split job.Spec.Entrypoint).1 ∧
      ([lit "--submission-id", job.Status.JobId] <:+: pre ↔ job.Status.JobId ≠ []) := by
  obtain ⟨rj, -, -, hcmd⟩ := GetK8sJobCommand_pairs YAMLToJSON job cmd h
  refine ⟨GetBaseRayJobCommand job.Status.DashboardURL
    ++ flattenPairs (commandPairs job rj (Marshal job.Spec.Metadata)), hcmd, ?_, ?_⟩
  · intro hin hnil
    rw [hnil] at hin
    have hmem : ([] : GoString) ∈ GetBaseRayJobCommand job.Status.DashboardURL
        ++ flattenPairs (commandPairs job rj (Marshal job.Spec.Metadata)) :=
      hin.subset (by simp)
    rcases List.mem_append.1 hmem with hb | hf
    · exact GetBaseRayJobCommand_ne_nil _ _ hb rfl
    · exact flattenPairs_ne_nil job rj _ hf rfl
  · intro hne
    have hlen : job.Status.JobId.length > 0 := List.length_pos.2 hne
    have hmem : (lit "--submission-id", job.Status.JobId) ∈
        commandPairs job rj (Marshal job.Spec.Metadata) :=
      (mem_commandPairs job rj _ _).2 (Or.inr (Or.inr (Or.inl ⟨hlen, rfl⟩)))
    exact (flattenPairs_contains _ _ hmem).trans (List.suffix_append _ _).isInfix

/-- Witness of C11: `fullJob` has the job id `job-1`, and its command has
`--submission-id`, `job-1` before the separator. -/
theorem GetK8sJobCommand_submission_id_witness :
    ∃ pre, fullCommand = pre ++ lit "--" :: (Split fullJob.Spec.Entrypoint).1 ∧
      ([lit "--submission-id", fullJob.Status.JobId] <:+: pre ↔ fullJob.Status.JobId ≠ []) :=
  GetK8sJobCommand_submission_id (fun _ => none) fullJob fullCommand (by decide)

/-- C13: when `GetK8sJobCommand` succeeds, the command is the base command,
flag/value pairs, the separator `--` and the words of the entrypoint, and
among the pairs `--entrypoint-resources` occurs exactly when the
entrypoint-resources string is not empty, with that string unchanged as its
value; it is then the last pair, so flag and value stand directly before the
separator.  With an empty string no pair has this flag. -/
theorem GetK8sJobCommand_entrypoint_resources (YAMLToJSON : GoString → Option GoString)
    (job : RayJob) (cmd : List GoString) (h : GetK8sJobCommand YAMLToJSON job = .ok cmd) :
    ∃ pairs,
      cmd = GetBaseRayJobCommand job.Status.DashboardURL ++ flattenPairs pairs
        ++ lit "--" :: (Split job.Spec.Entrypoint).1 ∧
      (∀ v, (lit "--entrypoint-resources", v) ∈ pairs ↔
        (job.Spec.EntrypointResources ≠ [] ∧ v = job.Spec.EntrypointResources)) ∧
      (job.Spec.EntrypointResources ≠ [] →
        (∃ init, pairs = init ++ [(lit "--entrypoint-resources", job.Spec.EntrypointResources)]) ∧
        ([lit "--entrypoint-resources", job.Spec.EntrypointResources]
          ++ lit "--" :: (Split job.Spec.Entrypoint).1) <:+ cmd) := by
  obtain ⟨rj, -, -, hcmd⟩ := GetK8sJobCommand_pairs YAMLToJSON job cmd h
  refine ⟨commandPairs job rj (Marshal job.Spec.Metadata), hcmd, ?_, ?_⟩
  · intro v
    have n1 : lit "--entrypoint-resources" ≠ lit "--runtime-env-json" := by decide
    have n2 : lit "--entrypoint-resources" ≠ lit "--metadata-json" := by decide
    have n3 : lit "--entrypoint-resources" ≠ lit "--submission-id" := by decide
    have n4 : lit "--entrypoint-resources" ≠ lit "--entrypoint-num-cpus" := by decide
    have n5 : lit "--entrypoint-resources" ≠ lit "--entrypoint-num-gpus" := by decide
    rw [mem_commandPairs]
    simp only [Prod.mk.injEq, n1, n2, n3, n4, n5, false_and, and_false, false_or, true_and,
      gt_iff_lt, List.length_pos]
  · intro hne
    have hlen : job.Spec.EntrypointResources.length > 0 := List.length_pos.2 hne
    have hinit : ∃ init, commandPairs job rj (Marshal job.Spec.Metadata) =
        init ++ [(lit "--entrypoint-resources", job.Spec.EntrypointResources)] := by
      unfold commandPairs laterPairs
      simp only [hlen, if_true, ← List.append_assoc]
      exact ⟨_, rfl⟩
    refine ⟨hinit, ?_⟩
    obtain ⟨init, hi⟩ := hinit
    rw [hcmd, hi]
    refine ⟨GetBaseRayJobCommand job.Status.DashboardURL ++ flattenPairs init, ?_⟩
    simp [flattenPairs, List.flatMap_append]

/-- Witness of C13: the entrypoint-resources string of `fullJob` stands, after
its flag, directly before the separator of `fullCommand`. -/
theorem GetK8sJobCommand_entrypoint_resources_witness :
    ([lit "--entrypoint-resources", lit "\x7b\"r\": 1\x7d"]
      ++ lit "--" :: (Split fullJob.Spec.Entrypoint).1) <:+ fullCommand := by
  obtain ⟨_, -, -, hlast⟩ :=
    GetK8sJobCommand_entrypoint_resources (fun _ => none) fullJob fullCommand (by decide)
  exact (hlast (by decide)).2

/-- C14: with an empty `RuntimeEnv` and a non-empty `RuntimeEnvYAML` that
`yaml.YAMLToJSON` rejects, `getRuntimeEnvJson` returns that error with the
empty string, and `GetK8sJobCommand` returns the error and no command. -/
theorem GetK8sJobCommand_yaml_error (YAMLToJSON : GoString → Option GoString) (job : RayJob)
    (h1 : job.Spec.RuntimeEnv = []) (h2 : job.Spec.RuntimeEnvYAML.length > 0)
    (h3 : YAMLToJSON job.Spec.RuntimeEnvYAML = none) :
    getRuntimeEnvJson YAMLToJSON job = ([], some .yamlToJSON) ∧
    GetK8sJobCommand YAMLToJSON job = .err .yamlToJSON := by
  have hr : getRuntimeEnvJson YAMLToJSON job = ([], some .yamlToJSON) := by
    simp [getRuntimeEnvJson, h1, h2, h3]
  exact ⟨hr, by simp [GetK8sJobCommand, hr]⟩

/-- Witness of C14: `badYamlJob` under a converter that rejects its
document. -/
theorem GetK8sJobCommand_yaml_error_witness :
    getRuntimeEnvJson (fun _ => none) badYamlJob = ([], some .yamlToJSON) ∧
    GetK8sJobCommand (fun _ => none) badYamlJob = .err .yamlToJSON :=
  GetK8sJobCommand_yaml_error (fun _ => none) badYamlJob (by decide) (by decide) rfl

/-- The character of a decimal digit is `0` plus the digit. -/
theorem digitChar_toNat : ∀ k, k < 10 → (Nat.digitChar k).toNat = 0x30 + k := by
  decide

/-- The digits `Nat.toDigitsCore` puts in front of `ds` write `n`. -/
theorem toDigitsCore_spec (fuel : Nat) : ∀ (n : Nat) (ds : List Char), n < fuel →
    parseDecimal ((Nat.toDigitsCore 10 fuel n ds).map Char.toNat) =
      (ds.map Char.toNat).foldl (fun acc c => acc * 10 + (c - 0x30)) n ∧
    (((Nat.toDigitsCore 10 fuel n ds).map Char.toNat).all isDigit =
      (ds.map Char.toNat).all isDigit) ∧
    Nat.toDigitsCore 10 fuel n ds ≠ [] := by
  induction fuel with
  | zero => intro n ds h; omega
  | succ fuel ih =>
    intro n ds h
    have hd : (Nat.digitChar (n % 10)).toNat = 0x30 + n % 10 :=
      digitChar_toNat _ (Nat.mod_lt _ (by decide))
    have hdig : isDigit (Nat.digitChar (n % 10)).toNat = true := by
      rw [hd]
      have : n % 10 < 10 := Nat.mod_lt _ (by decide)
      simp only [isDigit, Bool.and_eq_true, decide_eq_true_eq]
      omega
    unfold Nat.toDigitsCore
    by_cases h0 : n / 10 = 0
    · simp only [h0, if_true]
      refine ⟨?_, ?_, by simp⟩
      · have hn : (Nat.digitChar (n % 10)).toNat - 0x30 = n := by omega
        simp only [parseDecimal, List.map_cons, List.foldl_cons, Nat.zero_mul, Nat.zero_add, hn]
      · simp [hdig]
    · simp only [h0, if_false]
      have hlt : n / 10 < fuel := by omega
      obtain ⟨h1, h2, h3⟩ := ih (n / 10) (Nat.digitChar (n % 10) :: ds) hlt
      refine ⟨?_, ?_, h3⟩
      · rw [h1]
        have hn : n / 10 * 10 + ((Nat.digitChar (n % 10)).toNat - 0x30) = n := by omega
        simp only [List.map_cons, List.foldl_cons, hn]
      · rw [h2]
        simp [hdig]

/-- The text `decimal n` is a non-empty string of digits that writes `n`. -/
theorem decimal_spec (n : Nat) :
    parseDecimal (decimal n) = n ∧ (decimal n).all isDigit = true ∧ decimal n ≠ [] := by
  obtain ⟨h1, h2, h3⟩ := toDigitsCore_spec (n + 1) n [] (Nat.lt_succ_self n)
  unfold decimal Nat.toDigits
  refine ⟨by simpa using h1, by simpa using h2, by simpa using h3⟩

/-- The text `decimal n` of a number below `10^6` has at most six digits. -/
theorem decimal_length (n : Nat) (h : n < 10 ^ 6) : (decimal n).length ≤ 6 := by
  unfold decimal Nat.toDigits
  rw [List.length_map]
  exact Nat.toDigitsCore_length 10 (by decide) (n + 1) n 6 h (by decide)

/-- `roundMicro mant exp` is within one half of `mant * 2^exp * 10^6`. -/
theorem roundMicro_near (mant : Nat) (exp : Int) :
    |((roundMicro mant exp : Nat) : ℚ) - (mant : ℚ) * (2 : ℚ) ^ exp * 10 ^ 6| ≤ 1 / 2 := by
  cases exp with
  | ofNat e =>
    simp only [roundMicro, Int.ofNat_eq_coe, zpow_natCast]
    push_cast
    norm_num
  | negSucc e =>
    have hD : (0 : ℚ) < (2 : ℚ) ^ (e + 1) := by positivity
    have hdm := Nat.div_add_mod (mant * 10 ^ 6) (2 ^ (e + 1))
    have hr : mant * 10 ^ 6 % 2 ^ (e + 1) < 2 ^ (e + 1) := Nat.mod_lt _ (by positivity)
    have hN : (mant : ℚ) * 10 ^ 6 =
        (2 : ℚ) ^ (e + 1) * ((mant * 10 ^ 6 / 2 ^ (e + 1) : Nat) : ℚ)
          + ((mant * 10 ^ 6 % 2 ^ (e + 1) : Nat) : ℚ) := by
      have := congrArg (fun k : Nat => (k : ℚ)) hdm
      simp only [Nat.cast_add, Nat.cast_mul, Nat.cast_pow, Nat.cast_ofNat] at this
      linarith
    have hrq : ((mant * 10 ^ 6 % 2 ^ (e + 1) : Nat) : ℚ) < (2 : ℚ) ^ (e + 1) := by
      have := (Nat.cast_lt (α := ℚ)).2 hr
      simpa using this
    have hr0 : (0 : ℚ) ≤ ((mant * 10 ^ 6 % 2 ^ (e + 1) : Nat) : ℚ) := Nat.cast_nonneg _
    have hexp : (mant : ℚ) * (2 : ℚ) ^ (Int.negSucc e) * 10 ^ 6 =
        (mant : ℚ) * 10 ^ 6 / (2 : ℚ) ^ (e + 1) := by
      rw [zpow_negSucc]
      field_simp
    rw [hexp, hN]
    generalize hq : ((mant * 10 ^ 6 / 2 ^ (e + 1) : Nat) : ℚ) = q
    generalize hrr : ((mant * 10 ^ 6 % 2 ^ (e + 1) : Nat) : ℚ) = r at hrq hr0
    have hsplit : ((2 : ℚ) ^ (e + 1) * q + r) / (2 : ℚ) ^ (e + 1) = q + r / (2 : ℚ) ^ (e + 1) := by
      field_simp
      ring
    rw [hsplit]
    unfold roundMicro
    simp only
    by_cases hup : 2 ^ (e + 1) < 2 * (mant * 10 ^ 6 % 2 ^ (e + 1)) ∨
        (2 * (mant * 10 ^ 6 % 2 ^ (e + 1)) = 2 ^ (e + 1) ∧
          mant * 10 ^ 6 / 2 ^ (e + 1) % 2 = 1)
    · rw [if_pos hup]
      have h2r : (2 : ℚ) ^ (e + 1) ≤ 2 * r := by
        rcases hup with h | ⟨h, -⟩
        · have := (Nat.cast_lt (α := ℚ)).2 h
          simp only [Nat.cast_mul, Nat.cast_pow, Nat.cast_ofNat, hrr] at this
          exact le_of_lt this
        · have := congrArg (fun k : Nat => (k : ℚ)) h
          simp only [Nat.cast_mul, Nat.cast_pow, Nat.cast_ofNat, hrr] at this
          exact le_of_eq this.symm
      rw [Nat.cast_add, Nat.cast_one, hq, abs_le]
      have hfrac : 1 / 2 ≤ r / (2 : ℚ) ^ (e + 1) := by
        rw [div_le_div_iff₀ (by norm_num) hD]
        linarith
      have hfrac1 : r / (2 : ℚ) ^ (e + 1) < 1 := by
        rw [div_lt_one hD]
        exact hrq
      constructor <;> linarith
    · rw [if_neg hup]
      have h2r : 2 * r ≤ (2 : ℚ) ^ (e + 1) := by
        have h : 2 * (mant * 10 ^ 6 % 2 ^ (e + 1)) ≤ 2 ^ (e + 1) := by
          by_contra hc
          exact hup (Or.inl (Nat.lt_of_not_le hc))
        have := (Nat.cast_le (α := ℚ)).2 h
        simpa only [Nat.cast_mul, Nat.cast_pow, Nat.cast_ofNat, hrr] using this
      rw [hq, abs_le]
      have hfrac : r / (2 : ℚ) ^ (e + 1) ≤ 1 / 2 := by
        rw [div_le_div_iff₀ hD (by norm_num)]
        linarith
      have hfrac0 : 0 ≤ r / (2 : ℚ) ^ (e + 1) := div_nonneg hr0 hD.le
      constructor <;> linarith

/-- Zeros in front of a string of digits do not change the number it
writes. -/
theorem parseDecimal_zeros (k : Nat) (s : GoString) :
    parseDecimal (List.replicate k 0x30 ++ s) = parseDecimal s := by
  induction k with
  | zero => simp
  | succ k ih =>
    unfold parseDecimal at ih ⊢
    simpa [List.replicate_succ] using ih

/-- `%f` writes a finite count that is not negative in decimal with six digits
after the point, rounded to the nearest. -/
theorem SprintfF_writes (mant : Nat) (exp : Int) :
    writesSixDecimals (SprintfF (.finite false mant exp)) ((mant : ℚ) * (2 : ℚ) ^ exp) := by
  obtain ⟨hw1, hw2, hw3⟩ := decimal_spec (roundMicro mant exp / 10 ^ 6)
  obtain ⟨hf1, hf2, -⟩ := decimal_spec (roundMicro mant exp % 10 ^ 6)
  have hlen := decimal_length (roundMicro mant exp % 10 ^ 6) (Nat.mod_lt _ (by norm_num))
  refine ⟨decimal (roundMicro mant exp / 10 ^ 6),
    List.replicate (6 - (decimal (roundMicro mant exp % 10 ^ 6)).length) 0x30
      ++ decimal (roundMicro mant exp % 10 ^ 6), ?_, hw3, hw2, ?_, ?_, ?_⟩
  · simp [SprintfF, List.append_assoc]
  · rw [List.length_append, List.length_replicate]
    omega
  · rw [List.all_append, hf2, Bool.and_true]
    simp [isDigit]
  · rw [parseDecimal_zeros, hw1, hf1]
    have hnear := roundMicro_near mant exp
    have hdm := Nat.div_add_mod (roundMicro mant exp) (10 ^ 6)
    have hq : ((roundMicro mant exp / 10 ^ 6 : Nat) : ℚ)
        + ((roundMicro mant exp % 10 ^ 6 : Nat) : ℚ) / 10 ^ 6
        = ((roundMicro mant exp : Nat) : ℚ) / 10 ^ 6 := by
      have := congrArg (fun k : Nat => (k : ℚ)) hdm
      simp only [Nat.cast_add, Nat.cast_mul, Nat.cast_pow, Nat.cast_ofNat] at this
      field_simp
      linarith
    rw [hq]
    have hrw : ((roundMicro mant exp : Nat) : ℚ) / 10 ^ 6 - (mant : ℚ) * (2 : ℚ) ^ exp =
        (((roundMicro mant exp : Nat) : ℚ) - (mant : ℚ) * (2 : ℚ) ^ exp * 10 ^ 6) / 10 ^ 6 := by
      field_simp
      ring
    rw [hrw, abs_div, abs_of_pos (by norm_num : (0 : ℚ) < 10 ^ 6), div_le_div_iff₀ (by norm_num)
      (by norm_num)]
    generalize |((roundMicro mant exp : Nat) : ℚ) - (mant : ℚ) * (2 : ℚ) ^ exp * 10 ^ 6| = a
      at hnear ⊢
    norm_num
    linarith

/-- Go's test `x > 0` holds exactly for the strictly positive counts. -/
theorem isPos_iff_positive (x : GoFloat32) : x.isPos = true ↔ x.positive := by
  cases x with
  | nan => simp [GoFloat32.isPos, GoFloat32.positive, GoFloat32.value]
  | inf neg => cases neg <;> simp [GoFloat32.isPos, GoFloat32.positive, GoFloat32.value]
  | finite neg mant exp =>
    have h2 : (0 : ℚ) < (2 : ℚ) ^ exp := by positivity
    cases neg with
    | true =>
      simp only [GoFloat32.isPos, GoFloat32.positive, GoFloat32.value, Bool.not_true,
        Bool.false_and, Bool.false_eq_true, false_iff, if_true, reduceCtorEq, false_or,
        Option.some.injEq, exists_eq_left', not_lt]
      have : (0 : ℚ) ≤ (mant : ℚ) * (2 : ℚ) ^ exp := by positivity
      linarith
    | false =>
      simp only [GoFloat32.isPos, GoFloat32.positive, GoFloat32.value, Bool.not_false,
        Bool.true_and, decide_eq_true_eq, Bool.false_eq_true, if_false, reduceCtorEq, false_or,
        Option.some.injEq, exists_eq_left', one_mul]
      constructor
      · intro hm
        have : (0 : ℚ) < (mant : ℚ) := by exact_mod_cast hm
        positivity
      · intro hq
        by_contra hm
        have : mant = 0 := by omega
        rw [this] at hq
        simp at hq

/-- `%f` writes every count that is a positive number in decimal with six
digits after the point. -/
theorem SprintfF_writes_positive (x : GoFloat32) (q : ℚ) (hv : x.value = some q)
    (hq : 0 < q) : writesSixDecimals (SprintfF x) q := by
  cases x with
  | nan => simp [GoFloat32.value] at hv
  | inf neg => simp [GoFloat32.value] at hv
  | finite neg mant exp =>
    simp only [GoFloat32.value, Option.some.injEq] at hv
    cases neg with
    | true =>
      have h2 : (0 : ℚ) ≤ (mant : ℚ) * (2 : ℚ) ^ exp := by positivity
      simp only [if_true] at hv
      linarith
    | false =>
      simp only [Bool.false_eq_true, if_false, one_mul] at hv
      rw [← hv]
      exact SprintfF_writes mant exp

/-- C12: when `GetK8sJobCommand` succeeds, the command is the base command,
flag/value pairs, the separator `--` and the words of the entrypoint, and
among the pairs `--entrypoint-num-cpus` (and likewise
`--entrypoint-num-gpus`) occurs exactly when the count is strictly positive,
with the text `%f` prints for the count as its value; a zero or negative
count adds no pair with that flag.  For a count that is a positive number the
value is the count in decimal with six digits after the point, rounded to the
nearest; the count 1 gives `1.000000`. -/
theorem GetK8sJobCommand_entrypoint_num (YAMLToJSON : GoString → Option GoString)
    (job : RayJob) (cmd : List GoString) (h : GetK8sJobCommand YAMLToJSON job = .ok cmd) :
    ∃ pairs,
      cmd = GetBaseRayJobCommand job.Status.DashboardURL ++ flattenPairs pairs
        ++ lit "--" :: (Split job.Spec.Entrypoint).1 ∧
      (∀ v, (lit "--entrypoint-num-cpus", v) ∈ pairs ↔
        (job.Spec.EntrypointNumCpus.positive ∧ v = SprintfF job.Spec.EntrypointNumCpus)) ∧
      (∀ v, (lit "--entrypoint-num-gpus", v) ∈ pairs ↔
        (job.Spec.EntrypointNumGpus.positive ∧ v = SprintfF job.Spec.EntrypointNumGpus)) ∧
      (∀ q, job.Spec.EntrypointNumCpus.value = some q → 0 < q →
        writesSixDecimals (SprintfF job.Spec.EntrypointNumCpus) q) ∧
      (∀ q, job.Spec.EntrypointNumGpus.value = some q → 0 < q →
        writesSixDecimals (SprintfF job.Spec.EntrypointNumGpus) q) ∧
      SprintfF (.finite false 1 0) = lit "1.000000" := by
  obtain ⟨rj, -, -, hcmd⟩ := GetK8sJobCommand_pairs YAMLToJSON job cmd h
  refine ⟨commandPairs job rj (Marshal job.Spec.Metadata), hcmd, ?_, ?_,
    fun q hv hq => SprintfF_writes_positive _ q hv hq,
    fun q hv hq => SprintfF_writes_positive _ q hv hq, by decide⟩
  · intro v
    have n1 : lit "--entrypoint-num-cpus" ≠ lit "--runtime-env-json" := by decide
    have n2 : lit "--entrypoint-num-cpus" ≠ lit "--metadata-json" := by decide
    have n3 : lit "--entrypoint-num-cpus" ≠ lit "--submission-id" := by decide
    have n4 : lit "--entrypoint-num-cpus" ≠ lit "--entrypoint-num-gpus" := by decide
    have n5 : lit "--entrypoint-num-cpus" ≠ lit "--entrypoint-resources" := by decide
    rw [mem_commandPairs, ← isPos_iff_positive]
    simp only [Prod.mk.injEq, n1, n2, n3, n4, n5, false_and, and_false, false_or, or_false,
      true_and]
  · intro v
    have n1 : lit "--entrypoint-num-gpus" ≠ lit "--runtime-env-json" := by decide
    have n2 : lit "--entrypoint-num-gpus" ≠ lit "--metadata-json" := by decide
    have n3 : lit "--entrypoint-num-gpus" ≠ lit "--submission-id" := by decide
    have n4 : lit "--entrypoint-num-gpus" ≠ lit "--entrypoint-num-cpus" := by decide
    have n5 : lit "--entrypoint-num-gpus" ≠ lit "--entrypoint-resources" := by decide
    rw [mem_commandPairs, ← isPos_iff_positive]
    simp only [Prod.mk.injEq, n1, n2, n3, n4, n5, false_and, and_false, false_or, or_false,
      true_and]

/-- Witness of C12: `fullJob` has one CPU and half a GPU, so its command has
the pairs `--entrypoint-num-cpus 1.000000` and
`--entrypoint-num-gpus 0.500000`; the scenario job has zero of both and gets
neither flag. -/
theorem GetK8sJobCommand_entrypoint_num_witness :
    (∃ pairs,
      fullCommand = GetBaseRayJobCommand fullJob.Status.DashboardURL ++ flattenPairs pairs
        ++ lit "--" :: (Split fullJob.Spec.Entrypoint).1 ∧
      (lit "--entrypoint-num-cpus", lit "1.000000") ∈ pairs ∧
      (lit "--entrypoint-num-gpus", lit "0.500000") ∈ pairs) ∧
    (∃ pairs,
      [lit "ray", lit "job", lit "submit", lit "--address", lit "http://127.0.0.1:8265",
        lit "--", lit "python", lit "script.py", lit "--flag", lit "a b"] =
        GetBaseRayJobCommand scenarioJob.Status.DashboardURL ++ flattenPairs pairs
          ++ lit "--" :: (Split scenarioJob.Spec.Entrypoint).1 ∧
      (∀ v, (lit "--entrypoint-num-cpus", v) ∉ pairs) ∧
      (∀ v, (lit "--entrypoint-num-gpus", v) ∉ pairs)) := by
  constructor
  · obtain ⟨pairs, hcmd, hc, hg, -⟩ :=
      GetK8sJobCommand_entrypoint_num (fun _ => none) fullJob fullCommand (by decide)
    exact ⟨pairs, hcmd, (hc _).2 ⟨(isPos_iff_positive _).1 (by decide), by decide⟩,
      (hg _).2 ⟨(isPos_iff_positive _).1 (by decide), by decide⟩⟩
  · obtain ⟨pairs, hcmd, hc, hg, -⟩ :=
      GetK8sJobCommand_entrypoint_num (fun _ => none) scenarioJob _
        (show GetK8sJobCommand (fun _ => none) scenarioJob =
          .ok [lit "ray", lit "job", lit "submit", lit "--address",
            lit "http://127.0.0.1:8265", lit "--", lit "python", lit "script.py",
            lit "--flag", lit "a b"] by decide)
    refine ⟨pairs, hcmd, fun v hv => ?_, fun v hv => ?_⟩
    · exact absurd ((isPos_iff_positive _).2 ((hc v).1 hv).1) (by decide)
    · exact absurd ((isPos_iff_positive _).2 ((hg v).1 hv).1) (by decide)

/-- No string is below itself. -/
theorem strLt_irrefl (a : GoString) : strLt a a = false := by
  induction a with
  | nil => rfl
  | cons x a ih => simp [strLt, ih]

/-- The byte-wise order is transitive. -/
theorem strLt_trans : ∀ (a b c : GoString), strLt a b = true → strLt b c = true →
    strLt a c = true := by
  intro a
  induction a with
  | nil =>
    intro b c hab hbc
    cases b with
    | nil => simp [strLt] at hab
    | cons y b =>
      cases c with
      | nil => simp [strLt] at hbc
      | cons z c => rfl
  | cons x a ih =>
    intro b c hab hbc
    cases b with
    | nil => simp [strLt] at hab
    | cons y b =>
      cases c with
      | nil => simp [strLt] at hbc
      | cons z c =>
        simp only [strLt, Bool.or_eq_true, decide_eq_true_eq, Bool.and_eq_true,
          beq_iff_eq] at hab hbc ⊢
        rcases hab with h1 | ⟨h1, h1'⟩ <;> rcases hbc with h2 | ⟨h2, h2'⟩
        · exact Or.inl (by omega)
        · exact Or.inl (by omega)
        · exact Or.inl (by omega)
        · exact Or.inr ⟨by omega, ih b c h1' h2'⟩

/-- Of two different strings one is below the other. -/
theorem strLt_total : ∀ (a b : GoString), a ≠ b → strLt a b = true ∨ strLt b a = true := by
  intro a
  induction a with
  | nil =>
    intro b hne
    cases b with
    | nil => exact absurd rfl hne
    | cons y b => exact Or.inl rfl
  | cons x a ih =>
    intro b hne
    cases b with
    | nil => exact Or.inr rfl
    | cons y b =>
      simp only [strLt, Bool.or_eq_true, decide_eq_true_eq, Bool.and_eq_true, beq_iff_eq]
      rcases Nat.lt_trichotomy x y with h | h | h
      · exact Or.inl (Or.inl h)
      · subst h
        have hab : a ≠ b := fun hab => hne (by rw [hab])
        rcases ih b hab with h' | h'
        · exact Or.inl (Or.inr ⟨rfl, h'⟩)
        · exact Or.inr (Or.inr ⟨rfl, h'⟩)
      · exact Or.inr (Or.inl h)

/-- Inserting an entry keeps all entries. -/
theorem insertByKey_perm (kv : GoString × GoString) (xs : List (GoString × GoString)) :
    (insertByKey kv xs).Perm (kv :: xs) := by
  induction xs with
  | nil => exact List.Perm.refl _
  | cons x xs ih =>
    unfold insertByKey
    split
    · exact (List.Perm.cons x ih).trans (List.Perm.swap kv x xs)
    · exact List.Perm.refl _

/-- Sorting keeps all entries. -/
theorem sortByKey_perm (m : List (GoString × GoString)) : (sortByKey m).Perm m := by
  induction m with
  | nil => exact List.Perm.refl _
  | cons kv m ih =>
    unfold sortByKey
    rw [List.foldr_cons]
    exact (insertByKey_perm kv _).trans (List.Perm.cons kv ih)

/-- Inserting an entry with a new key into a list in ascending key order gives
a list in ascending key order. -/
theorem insertByKey_sorted (kv : GoString × GoString) (xs : List (GoString × GoString))
    (hs : xs.Pairwise keyLt) (hnew : ∀ x ∈ xs, x.1 ≠ kv.1) :
    (insertByKey kv xs).Pairwise keyLt := by
  induction xs with
  | nil => simp [insertByKey]
  | cons x xs ih =>
    rw [List.pairwise_cons] at hs
    unfold insertByKey
    split
    · rename_i hlt
      rw [List.pairwise_cons]
      refine ⟨?_, ih hs.2 (fun y hy => hnew y (List.mem_cons_of_mem _ hy))⟩
      intro y hy
      rcases List.mem_cons.1 ((insertByKey_perm kv xs).subset hy) with h | h
      · rw [h]; exact hlt
      · exact hs.1 y h
    · rename_i hlt
      have hkx : keyLt kv x := by
        rcases strLt_total kv.1 x.1 (fun h => hnew x (List.mem_cons_self _ _) h.symm) with h | h
        · exact h
        · exact absurd h hlt
      rw [List.pairwise_cons]
      refine ⟨?_, List.pairwise_cons.2 hs⟩
      intro y hy
      rcases List.mem_cons.1 hy with h | h
      · rw [h]; exact hkx
      · exact strLt_trans _ _ _ hkx (hs.1 y h)

/-- The entries of a map, whose keys are distinct, are sorted into ascending
key order. -/
theorem sortByKey_sorted (m : List (GoString × GoString)) (hk : (m.map Prod.fst).Nodup) :
    (sortByKey m).Pairwise keyLt := by
  induction m with
  | nil => simp [sortByKey]
  | cons kv m ih =>
    rw [List.map_cons, List.nodup_cons] at hk
    unfold sortByKey
    rw [List.foldr_cons]
    refine insertByKey_sorted kv _ (ih hk.2) ?_
    intro x hx hxk
    exact hk.1 (List.mem_map.2 ⟨x, (sortByKey_perm m).subset hx, hxk⟩)

/-- Two lists of the same entries with distinct keys are sorted into the same
list. -/
theorem sortByKey_eq_of_perm (m1 m2 : List (GoString × GoString)) (hp : m1.Perm m2)
    (hk : (m1.map Prod.fst).Nodup) : sortByKey m1 = sortByKey m2 := by
  have hk2 : (m2.map Prod.fst).Nodup := (hp.map Prod.fst).nodup_iff.1 hk
  haveI : IsAntisymm (GoString × GoString) keyLt :=
    ⟨fun a b hab hba => by
      have := strLt_trans _ _ _ hab hba
      rw [strLt_irrefl] at this
      exact absurd this (by decide)⟩
  exact List.eq_of_perm_of_sorted
    ((sortByKey_perm m1).trans (hp.trans (sortByKey_perm m2).symm))
    (sortByKey_sorted m1 hk) (sortByKey_sorted m2 hk2)

/-- The result of `GetK8sJobCommand` depends on the job only through the
fields the function reads: two jobs that agree on them, on the size and the
JSON text of the metadata, and on the Ray version of the cluster
specification (or its absence), get the same result. -/
theorem GetK8sJobCommand_congr (YAMLToJSON : GoString → Option GoString) (j1 j2 : RayJob)
    (hst : j1.Status = j2.Status) (he : j1.Spec.Entrypoint = j2.Spec.Entrypoint)
    (hr : j1.Spec.RuntimeEnv = j2.Spec.RuntimeEnv)
    (hy : j1.Spec.RuntimeEnvYAML = j2.Spec.RuntimeEnvYAML)
    (hc : j1.Spec.EntrypointNumCpus = j2.Spec.EntrypointNumCpus)
    (hg : j1.Spec.EntrypointNumGpus = j2.Spec.EntrypointNumGpus)
    (hres : j1.Spec.EntrypointResources = j2.Spec.EntrypointResources)
    (hlen : j1.Spec.Metadata.len = j2.Spec.Metadata.len)
    (hm : Marshal j1.Spec.Metadata = Marshal j2.Spec.Metadata)
    (hv : j1.Spec.RayClusterSpec.map (fun s => s.RayVersion) =
      j2.Spec.RayClusterSpec.map (fun s => s.RayVersion)) :
    GetK8sJobCommand YAMLToJSON j1 = GetK8sJobCommand YAMLToJSON j2 := by
  have hrt : getRuntimeEnvJson YAMLToJSON j1 = getRuntimeEnvJson YAMLToJSON j2 := by
    unfold getRuntimeEnvJson
    rw [hr, hy]
  have hmeta : ∀ v, GetMetadataJson j1.Spec.Metadata v = GetMetadataJson j2.Spec.Metadata v := by
    intro v
    unfold GetMetadataJson
    rw [hm]
  have happ : ∀ pre, appendMetadata j1 pre = appendMetadata j2 pre := by
    intro pre
    unfold appendMetadata
    simp only [hlen]
    cases h1 : j1.Spec.RayClusterSpec with
    | none =>
      cases h2 : j2.Spec.RayClusterSpec with
      | none => rfl
      | some s2 => rw [h1, h2] at hv; simp at hv
    | some s1 =>
      cases h2 : j2.Spec.RayClusterSpec with
      | none => rw [h1, h2] at hv; simp at hv
      | some s2 =>
        rw [h1, h2] at hv
        simp only [Option.map_some', Option.some.injEq] at hv
        simp only [hv, hmeta]
  unfold GetK8sJobCommand
  simp only [hst, he, hc, hg, hres, hrt, happ]

/-- A command built for a job with metadata has, right after the base command
and the optional runtime environment, the flag `--metadata-json` and the JSON
text of the metadata, and then the later optional pairs, the separator and the
words of the entrypoint. -/
theorem GetK8sJobCommand_metadata_value (YAMLToJSON : GoString → Option GoString)
    (job : RayJob) (cmd : List GoString) (hm : job.Spec.Metadata.len > 0)
    (h : GetK8sJobCommand YAMLToJSON job = .ok cmd) :
    ∃ runtimeEnvJson,
      getRuntimeEnvJson YAMLToJSON job = (runtimeEnvJson, none) ∧
      cmd = GetBaseRayJobCommand job.Status.DashboardURL
        ++ optionalPair (decide (runtimeEnvJson.length > 0))
            (lit "--runtime-env-json") runtimeEnvJson
        ++ [lit "--metadata-json", Marshal job.Spec.Metadata]
        ++ (optionalPair (decide (job.Status.JobId.length > 0))
              (lit "--submission-id") job.Status.JobId
          ++ optionalPair job.Spec.EntrypointNumCpus.isPos
              (lit "--entrypoint-num-cpus") (SprintfF job.Spec.EntrypointNumCpus)
          ++ optionalPair job.Spec.EntrypointNumGpus.isPos
              (lit "--entrypoint-num-gpus") (SprintfF job.Spec.EntrypointNumGpus)
          ++ optionalPair (decide (job.Spec.EntrypointResources.length > 0))
              (lit "--entrypoint-resources") job.Spec.EntrypointResources
          ++ lit "--" :: (Split job.Spec.Entrypoint).1) := by
  obtain ⟨rj, mj, toks, hrj, hmj, hs, hcmd⟩ := GetK8sJobCommand_layout YAMLToJSON job cmd h
  obtain ⟨spec, -, hg⟩ := hmj hm
  have hmjson := GetMetadataJson_ok _ _ _ hg
  refine ⟨rj, hrj, ?_⟩
  rw [hcmd, hs, hmjson]
  simp only [optionalPair, hm, decide_True, if_true, List.append_assoc, List.singleton_append,
    List.cons_append, List.nil_append]

/-- C15: `GetK8sJobCommand` is deterministic.  Two jobs with equal values in
the fields it reads get the same result; and two lists of the same metadata
entries with distinct keys, in whatever order they were built, give the same
JSON text, the same result of `GetMetadataJson` and the same result of
`GetK8sJobCommand`, the entries of the JSON object being in ascending order of
their keys.  When the entries are not empty, a command built for the job stands
as: the base command, the optional runtime environment, the flag
`--metadata-json`, its value, the later optional pairs, the separator and the
words of the entrypoint; the value is `{`, the entries in ascending order of
their keys, `}`, and the command built for the other list of entries is the
same command with the same value. -/
theorem GetK8sJobCommand_deterministic (YAMLToJSON : GoString → Option GoString) :
    (∀ j1 j2 : RayJob, j1.Status = j2.Status → j1.Spec.Entrypoint = j2.Spec.Entrypoint →
      j1.Spec.RuntimeEnv = j2.Spec.RuntimeEnv →
      j1.Spec.RuntimeEnvYAML = j2.Spec.RuntimeEnvYAML →
      j1.Spec.EntrypointNumCpus = j2.Spec.EntrypointNumCpus →
      j1.Spec.EntrypointNumGpus = j2.Spec.EntrypointNumGpus →
      j1.Spec.EntrypointResources = j2.Spec.EntrypointResources →
      j1.Spec.Metadata = j2.Spec.Metadata →
      j1.Spec.RayClusterSpec.map (fun s => s.RayVersion) =
        j2.Spec.RayClusterSpec.map (fun s => s.RayVersion) →
      GetK8sJobCommand YAMLToJSON j1 = GetK8sJobCommand YAMLToJSON j2) ∧
    (∀ (job : RayJob) (m1 m2 : List (GoString × GoString)), m1.Perm m2 →
      (m1.map Prod.fst).Nodup →
      Marshal (some m1) = Marshal (some m2) ∧
      (∀ rayVersion, GetMetadataJson (some m1) rayVersion =
        GetMetadataJson (some m2) rayVersion) ∧
      GetK8sJobCommand YAMLToJSON (withMetadata job (some m1)) =
        GetK8sJobCommand YAMLToJSON (withMetadata job (some m2)) ∧
      Marshal (some m1) = [0x7B] ++ encodeEntries (sortByKey m1) ++ [0x7D] ∧
      (sortByKey m1).Perm m1 ∧ (sortByKey m1).Pairwise keyLt ∧
      (m1 ≠ [] → ∀ cmd,
        GetK8sJobCommand YAMLToJSON (withMetadata job (some m1)) = .ok cmd →
        ∃ runtimeEnvJson front back value,
          getRuntimeEnvJson YAMLToJSON job = (runtimeEnvJson, none) ∧
          front = GetBaseRayJobCommand job.Status.DashboardURL
            ++ optionalPair (decide (runtimeEnvJson.length > 0))
                (lit "--runtime-env-json") runtimeEnvJson ∧
          back = optionalPair (decide (job.Status.JobId.length > 0))
                (lit "--submission-id") job.Status.JobId
            ++ optionalPair job.Spec.EntrypointNumCpus.isPos
                (lit "--entrypoint-num-cpus") (SprintfF job.Spec.EntrypointNumCpus)
            ++ optionalPair job.Spec.EntrypointNumGpus.isPos
                (lit "--entrypoint-num-gpus") (SprintfF job.Spec.EntrypointNumGpus)
            ++ optionalPair (decide (job.Spec.EntrypointResources.length > 0))
                (lit "--entrypoint-resources") job.Spec.EntrypointResources
            ++ lit "--" :: (Split job.Spec.Entrypoint).1 ∧
          value = [0x7B] ++ encodeEntries (sortByKey m1) ++ [0x7D] ∧
          value = [0x7B] ++ encodeEntries (sortByKey m2) ++ [0x7D] ∧
          cmd = front ++ [lit "--metadata-json", value] ++ back ∧
          GetK8sJobCommand YAMLToJSON (withMetadata job (some m2)) =
            .ok (front ++ [lit "--metadata-json", value] ++ back))) := by
  constructor
  · intro j1 j2 hst he hr hy hc hg hres hm hv
    exact GetK8sJobCommand_congr YAMLToJSON j1 j2 hst he hr hy hc hg hres (by rw [hm])
      (by rw [hm]) hv
  · intro job m1 m2 hp hk
    have hM : Marshal (some m1) = Marshal (some m2) := by
      simp only [Marshal, sortByKey_eq_of_perm m1 m2 hp hk]
    have hsame : GetK8sJobCommand YAMLToJSON (withMetadata job (some m1)) =
        GetK8sJobCommand YAMLToJSON (withMetadata job (some m2)) :=
      GetK8sJobCommand_congr YAMLToJSON _ _ rfl rfl rfl rfl rfl rfl rfl
        (by simp [withMetadata, GoMap.len, hp.length_eq]) hM rfl
    refine ⟨hM, ?_, hsame, rfl, sortByKey_perm m1, sortByKey_sorted m1 hk, ?_⟩
    · intro v
      unfold GetMetadataJson
      rw [hM]
    · intro hne cmd hcmd
      have hlen : (withMetadata job (some m1)).Spec.Metadata.len > 0 :=
        List.length_pos.2 hne
      obtain ⟨rj, hrj, hc⟩ :=
        GetK8sJobCommand_metadata_value YAMLToJSON _ cmd hlen hcmd
      refine ⟨rj, _, _, _, hrj, rfl, rfl, rfl, ?_, hc, ?_⟩
      · rw [sortByKey_eq_of_perm m1 m2 hp hk]
      · rw [← hsame, hcmd, hc]
        rfl

/-- Witness of C15: the entries `b: 2`, `a: 1` and the entries `a: 1`, `b: 2`
give the same command, in which the flag `--metadata-json` is followed by the
text with the key `a` before the key `b`. -/
theorem GetK8sJobCommand_deterministic_witness :
    Marshal (some [(lit "b", lit "2"), (lit "a", lit "1")]) =
      lit "\x7b\"a\":\"1\",\"b\":\"2\"\x7d" ∧
    GetK8sJobCommand (fun _ => none)
        (withMetadata fullJob (some [(lit "b", lit "2"), (lit "a", lit "1")])) =
      GetK8sJobCommand (fun _ => none)
        (withMetadata fullJob (some [(lit "a", lit "1"), (lit "b", lit "2")])) ∧
    ∃ front back,
      GetK8sJobCommand (fun _ => none)
          (withMetadata fullJob (some [(lit "a", lit "1"), (lit "b", lit "2")])) =
        .ok (front ++ [lit "--metadata-json", lit "\x7b\"a\":\"1\",\"b\":\"2\"\x7d"] ++ back) ∧
      front = [lit "ray", lit "job", lit "submit", lit "--address", lit "http://head-svc:8265",
        lit "--runtime-env-json", lit "\x7b\"a\":1\x7d"] ∧
      back = [lit "--submission-id", lit "job-1", lit "--entrypoint-num-cpus", lit "1.000000",
        lit "--entrypoint-num-gpus", lit "0.500000",
        lit "--entrypoint-resources", lit "\x7b\"r\": 1\x7d",
        lit "--", lit "python", lit "-c", lit "print('hi')"] := by
  have hspec := (GetK8sJobCommand_deterministic (fun _ => none)).2 fullJob
    [(lit "b", lit "2"), (lit "a", lit "1")] [(lit "a", lit "1"), (lit "b", lit "2")]
    (List.Perm.swap _ _ _) (by decide)
  obtain ⟨-, -, hsame, -, -, -, hcmd⟩ := hspec
  obtain ⟨rj, front, back, value, hrj, hfront, hback, hvalue, -, -, hother⟩ :=
    hcmd (by decide) _ (by decide :
      GetK8sJobCommand (fun _ => none)
        (withMetadata fullJob (some [(lit "b", lit "2"), (lit "a", lit "1")])) =
      .ok [lit "ray", lit "job", lit "submit", lit "--address", lit "http://head-svc:8265",
        lit "--runtime-env-json", lit "\x7b\"a\":1\x7d",
        lit "--metadata-json", lit "\x7b\"a\":\"1\",\"b\":\"2\"\x7d",
        lit "--submission-id", lit "job-1", lit "--entrypoint-num-cpus", lit "1.000000",
        lit "--entrypoint-num-gpus", lit "0.500000",
        lit "--entrypoint-resources", lit "\x7b\"r\": 1\x7d",
        lit "--", lit "python", lit "-c", lit "print('hi')"])
  have hrj2 : rj = lit "\x7b\"a\":1\x7d" := by
    have h2 : getRuntimeEnvJson (fun _ => none) fullJob = (lit "\x7b\"a\":1\x7d", none) := by
      decide
    rw [h2] at hrj
    exact (Prod.mk.inj hrj).1.symm
  refine ⟨by decide, hsame, front, back, ?_, ?_, ?_⟩
  · rw [hother, hvalue]
    rfl
  · rw [hfront, hrj2]
    decide
  · rw [hback]
    decide

/-- The decode map undoes the alphabet. -/
theorem decodeMap_encodeChar : ∀ v, v < 64 → decodeMap (encodeChar v) = some v := by
  decide

/-- Four alphabet bytes at the start of a quantum give three bytes, and the
decoder goes on with the rest. -/
theorem decodeFrom_quad (c1 c2 c3 c4 v1 v2 v3 v4 : Nat) (src : GoString)
    (h1 : decodeMap c1 = some v1) (h2 : decodeMap c2 = some v2)
    (h3 : decodeMap c3 = some v3) (h4 : decodeMap c4 = some v4) :
    decodeFrom [] (c1 :: c2 :: c3 :: c4 :: src) =
      (decodeFrom [] src).map (fun tail => quantumBytes [v1, v2, v3, v4] 4 ++ tail) := by
  simp [decodeFrom, h1, h2, h3, h4]

/-- Two alphabet bytes and `==` end the input with one byte. -/
theorem decodeFrom_pad2 (c1 c2 v1 v2 : Nat) (h1 : decodeMap c1 = some v1)
    (h2 : decodeMap c2 = some v2) :
    decodeFrom [] [c1, c2, 0x3D, 0x3D] = some (quantumBytes [v1, v2] 2) := by
  have hpad : decodeMap 0x3D = none := by decide
  simp [decodeFrom, h1, h2, hpad, skipNewlines]

/-- Three alphabet bytes and `=` end the input with two bytes. -/
theorem decodeFrom_pad1 (c1 c2 c3 v1 v2 v3 : Nat) (h1 : decodeMap c1 = some v1)
    (h2 : decodeMap c2 = some v2) (h3 : decodeMap c3 = some v3) :
    decodeFrom [] [c1, c2, c3, 0x3D] = some (quantumBytes [v1, v2, v3] 3) := by
  have hpad : decodeMap 0x3D = none := by decide
  simp [decodeFrom, h1, h2, h3, hpad, skipNewlines]

/-- The three bytes of a full quantum. -/
theorem quantumBytes_four (a b c : Nat) (ha : a < 256) (hb : b < 256) (hc : c < 256) :
    quantumBytes [a / 4, a % 4 * 16 + b / 16, b % 16 * 4 + c / 64, c % 64] 4 = [a, b, c] := by
  simp only [quantumBytes, List.getD_cons_zero, List.getD_cons_succ, Nat.add_one_sub_one,
    List.take_succ_cons, List.take_zero, List.cons.injEq, and_true]
  refine ⟨?_, ?_, ?_⟩ <;> omega

/-- The two bytes of a quantum with one `=`. -/
theorem quantumBytes_three (a b : Nat) (ha : a < 256) (hb : b < 256) :
    quantumBytes [a / 4, a % 4 * 16 + b / 16, b % 16 * 4] 3 = [a, b] := by
  simp only [quantumBytes, List.getD_cons_zero, List.getD_cons_succ, List.getD_nil,
    List.take_succ_cons, List.take_zero, List.cons.injEq, and_true]
  refine ⟨?_, ?_⟩ <;> omega

/-- The byte of a quantum with two `=`. -/
theorem quantumBytes_two (a : Nat) (ha : a < 256) :
    quantumBytes [a / 4, a % 4 * 16] 2 = [a] := by
  simp only [quantumBytes, List.getD_cons_zero, List.getD_cons_succ, List.getD_nil,
    List.take_succ_cons, List.take_zero, List.cons.injEq, and_true]
  omega

/-- Decoding undoes encoding, for every string of bytes. -/
theorem DecodeString_EncodeToString (n : Nat) : ∀ s : List Nat, s.length ≤ n →
    (∀ b ∈ s, b < 256) → DecodeString (EncodeToString s) = some s := by
  induction n with
  | zero =>
    intro s hlen _
    have : s = [] := List.length_eq_zero.1 (by omega)
    subst this
    rfl
  | succ n ih =>
    intro s hlen hb
    match s, hlen, hb with
    | [], _, _ => rfl
    | [a], _, hb =>
      have ha : a < 256 := hb a (by simp)
      have e1 := decodeMap_encodeChar (a / 4) (by omega)
      have e2 := decodeMap_encodeChar (a % 4 * 16) (by omega)
      rw [DecodeString, EncodeToString, decodeFrom_pad2 _ _ _ _ e1 e2, quantumBytes_two a ha]
    | [a, b], _, hb =>
      have ha : a < 256 := hb a (by simp)
      have hb' : b < 256 := hb b (by simp)
      have e1 := decodeMap_encodeChar (a / 4) (by omega)
      have e2 := decodeMap_encodeChar (a % 4 * 16 + b / 16) (by omega)
      have e3 := decodeMap_encodeChar (b % 16 * 4) (by omega)
      rw [DecodeString, EncodeToString, decodeFrom_pad1 _ _ _ _ _ _ e1 e2 e3,
        quantumBytes_three a b ha hb']
    | a :: b :: c :: rest, hlen, hb =>
      have ha : a < 256 := hb a (by simp)
      have hb' : b < 256 := hb b (by simp)
      have hc : c < 256 := hb c (by simp)
      have e1 := decodeMap_encodeChar (a / 4) (by omega)
      have e2 := decodeMap_encodeChar (a % 4 * 16 + b / 16) (by omega)
      have e3 := decodeMap_encodeChar (b % 16 * 4 + c / 64) (by omega)
      have e4 := decodeMap_encodeChar (c % 64) (by omega)
      have hrest := ih rest (by simp only [List.length_cons] at hlen; omega)
        (fun x hx => hb x (by simp [hx]))
      unfold DecodeString at hrest ⊢
      rw [EncodeToString]
      simp only [List.cons_append, List.nil_append]
      rw [decodeFrom_quad _ _ _ _ _ _ _ _ _ e1 e2 e3 e4, hrest, quantumBytes_four a b c ha hb' hc]
      rfl

/-- A line feed or carriage return is not in the alphabet. -/
theorem decodeMap_of_isNewline (c : Nat) (h : isNewline c = true) : decodeMap c = none := by
  simp only [isNewline, Bool.or_eq_true, beq_iff_eq] at h
  rcases h with h | h <;> subst h <;> decide

/-- A string without line feeds and carriage returns has none to skip. -/
theorem skipNewlines_stripNewlines (s : GoString) :
    skipNewlines (stripNewlines s) = stripNewlines s := by
  induction s with
  | nil => rfl
  | cons c s ih =>
    by_cases hn : isNewline c = true
    · simp only [stripNewlines, List.filter_cons, hn, Bool.not_true, Bool.false_eq_true,
        if_false] at ih ⊢
      exact ih
    · have hc : ¬ (c = 0x0A ∨ c = 0x0D) := by
        simpa [isNewline] using hn
      simp only [stripNewlines, List.filter_cons, hn, Bool.not_eq_true, Bool.not_false,
        if_true, skipNewlines, hc, if_false]

/-- What `skipNewlines` leaves: nothing, when the string has only line feeds
and carriage returns, and otherwise its first other byte and what follows. -/
theorem skipNewlines_cases (s : GoString) :
    (skipNewlines s = [] ∧ stripNewlines s = []) ∨
    (∃ c t, skipNewlines s = c :: t ∧ isNewline c = false ∧
      stripNewlines s = c :: stripNewlines t) := by
  induction s with
  | nil => exact Or.inl ⟨rfl, rfl⟩
  | cons c s ih =>
    by_cases hn : isNewline c = true
    · have hc : c = 0x0A ∨ c = 0x0D := by simpa [isNewline] using hn
      simp only [skipNewlines, hc, if_true, stripNewlines, List.filter_cons, hn, Bool.not_true,
        Bool.false_eq_true, if_false]
      exact ih
    · have hc : ¬ (c = 0x0A ∨ c = 0x0D) := by simpa [isNewline] using hn
      refine Or.inr ⟨c, s, ?_, by simpa using hn, ?_⟩
      · simp only [skipNewlines, hc, if_false]
      · simp [stripNewlines, List.filter_cons, hn]

/-- The decoder skips line feeds and carriage returns wherever they stand. -/
theorem decodeFrom_stripNewlines (s : GoString) : ∀ dbuf : List Nat,
    decodeFrom dbuf s = decodeFrom dbuf (stripNewlines s) := by
  induction s with
  | nil => intro dbuf; rfl
  | cons c s ih =>
    intro dbuf
    by_cases hn : isNewline c = true
    · have hc : c = 0x0A ∨ c = 0x0D := by simpa [isNewline] using hn
      have hs : stripNewlines (c :: s) = stripNewlines s := by
        simp [stripNewlines, List.filter_cons, hn]
      rw [hs, ← ih dbuf]
      simp only [decodeFrom, decodeMap_of_isNewline c hn, hc, if_true]
    · have hc : ¬ (c = 0x0A ∨ c = 0x0D) := by simpa [isNewline] using hn
      have hs : stripNewlines (c :: s) = c :: stripNewlines s := by
        simp [stripNewlines, List.filter_cons, hn]
      rw [hs]
      cases hd : decodeMap c with
      | some out =>
        simp only [decodeFrom, hd]
        by_cases h3 : dbuf.length = 3
        · simp only [h3, if_true, ih []]
        · simp only [h3, if_false, ih (dbuf ++ [out])]
      | none =>
        simp only [decodeFrom, hd, hc, if_false]
        by_cases hp : c = 0x3D
        · simp only [hp, ne_eq, not_true_eq_false, if_false]
          by_cases hl : dbuf.length < 2
          · simp only [hl, if_true]
          · simp only [hl, if_false]
            by_cases h2 : dbuf.length = 2
            · simp only [h2, if_true]
              rcases skipNewlines_cases s with ⟨h1, h1'⟩ | ⟨c2, t, h1, -, h1'⟩
              · rw [h1, h1', skipNewlines]
              · rw [h1, h1', ← h1', skipNewlines_stripNewlines, h1']
                simp only
                by_cases hp2 : c2 = 0x3D
                · simp only [hp2, ne_eq, not_true_eq_false, if_false,
                    skipNewlines_stripNewlines]
                  rcases skipNewlines_cases t with ⟨h4, h4'⟩ | ⟨c3, u, h4, -, h4'⟩
                  · simp [h4, h4']
                  · simp [h4, h4']
                · simp only [ne_eq, hp2, not_false_eq_true, if_true]
            · simp only [h2, if_false, skipNewlines_stripNewlines]
              rcases skipNewlines_cases s with ⟨h1, h1'⟩ | ⟨c2, t, h1, -, h1'⟩
              · simp [h1, h1']
              · simp [h1, h1']
        · simp only [ne_eq, hp, not_false_eq_true, if_true]

/-- A byte that is no line feed or carriage return is an alphabet byte, the
pad `=`, or a byte the decoder rejects. -/
theorem byte_classes (c : Nat) (hn : isNewline c = false) :
    (∃ v, decodeMap c = some v ∧ c ≠ 0x3D) ∨ (c = 0x3D ∧ decodeMap c = none) ∨
    (decodeMap c = none ∧ c ≠ 0x3D ∧ ¬ (c = 0x0A ∨ c = 0x0D)) := by
  have hc : ¬ (c = 0x0A ∨ c = 0x0D) := by simpa [isNewline] using hn
  by_cases hp : c = 0x3D
  · exact Or.inr (Or.inl ⟨hp, by rw [hp]; decide⟩)
  · cases hd : decodeMap c with
    | none => exact Or.inr (Or.inr ⟨rfl, hp, hc⟩)
    | some v => exact Or.inl ⟨v, rfl, hp⟩

/-- A string without line feeds and carriage returns is its own stripped
form, and has none to skip. -/
theorem skipNewlines_of_clean (s : GoString) (hs : ∀ c ∈ s, isNewline c = false) :
    skipNewlines s = s := by
  have h : stripNewlines s = s := by
    unfold stripNewlines
    rw [List.filter_eq_self]
    intro c hc
    simp [hs c hc]
  rw [← h, skipNewlines_stripNewlines]

/-- On a string without line feeds and carriage returns the decoder succeeds
exactly when the string is valid standard base64. -/
theorem decodeFrom_isSome_clean (n : Nat) : ∀ s : GoString, s.length ≤ n →
    (∀ c ∈ s, isNewline c = false) → (decodeFrom [] s).isSome = isStdBase64 s := by
  induction n with
  | zero =>
    intro s hlen _
    have : s = [] := List.length_eq_zero.1 (by omega)
    subst this
    rfl
  | succ n ih =>
    intro s hlen hs
    have hpad : decodeMap 0x3D = none := by decide
    match s, hlen, hs with
    | [], _, _ => rfl
    | [a], _, hs =>
      rcases byte_classes a (hs a (by simp)) with ⟨va, ha, ha'⟩ | ⟨ha, ha'⟩ | ⟨ha, ha', ha''⟩ <;>
        simp [decodeFrom, isStdBase64, ha, ha', *]
    | [a, b], _, hs =>
      rcases byte_classes a (hs a (by simp)) with ⟨va, ha, ha'⟩ | ⟨ha, ha'⟩ | ⟨ha, ha', ha''⟩ <;>
      rcases byte_classes b (hs b (by simp)) with ⟨vb, hb, hb'⟩ | ⟨hb, hb'⟩ | ⟨hb, hb', hb''⟩ <;>
        simp [decodeFrom, isStdBase64, *]
    | [a, b, c], _, hs =>
      rcases byte_classes a (hs a (by simp)) with ⟨va, ha, ha'⟩ | ⟨ha, ha'⟩ | ⟨ha, ha', ha''⟩ <;>
      rcases byte_classes b (hs b (by simp)) with ⟨vb, hb, hb'⟩ | ⟨hb, hb'⟩ | ⟨hb, hb', hb''⟩ <;>
      rcases byte_classes c (hs c (by simp)) with ⟨vc, hc, hc'⟩ | ⟨hc, hc'⟩ | ⟨hc, hc', hc''⟩ <;>
        simp [decodeFrom, isStdBase64, skipNewlines, *]
    | a :: b :: c :: d :: rest, hlen, hs =>
      have hrest : ∀ x ∈ rest, isNewline x = false := fun x hx => hs x (by simp [hx])
      have hskip := skipNewlines_of_clean rest hrest
      have hih := ih rest (by simp only [List.length_cons] at hlen; omega) hrest
      have hd' : ¬ (d = 0x0A ∨ d = 0x0D) := by
        simpa [isNewline] using hs d (by simp)
      rcases byte_classes a (hs a (by simp)) with ⟨va, ha, ha'⟩ | ⟨ha, ha'⟩ | ⟨ha, ha', ha''⟩ <;>
      rcases byte_classes b (hs b (by simp)) with ⟨vb, hb, hb'⟩ | ⟨hb, hb'⟩ | ⟨hb, hb', hb''⟩ <;>
      rcases byte_classes c (hs c (by simp)) with ⟨vc, hc, hc'⟩ | ⟨hc, hc'⟩ | ⟨hc, hc', hc''⟩ <;>
      rcases byte_classes d (hs d (by simp)) with ⟨vd, hd, hd2⟩ | ⟨hd, hd2⟩ | ⟨hd, hd2, hd3⟩ <;>
        by_cases hr : rest = [] <;>
        simp [decodeFrom, isStdBase64, isAlphabet, skipNewlines, hskip, hih, hd', hr, hpad, *]

/-- The decoder succeeds exactly on the inputs that, without their line feeds
and carriage returns, are valid standard base64. -/
theorem DecodeString_isSome (input : GoString) :
    (DecodeString input).isSome = isStdBase64 (stripNewlines input) := by
  unfold DecodeString
  rw [decodeFrom_stripNewlines input []]
  refine decodeFrom_isSome_clean _ _ (Nat.le_refl _) ?_
  intro c hc
  have := (List.mem_filter.1 hc).2
  simpa using this

/-- C16 as stated fails: `aGVs`, a line feed, `bG8h` is not valid standard
base64, the line feed being outside the alphabet, and `GetDecodedRuntimeEnv`
decodes it all the same. -/
theorem GetDecodedRuntimeEnv_newline_counterexample :
    isStdBase64 (lit "aGVs\nbG8h") = false ∧
    GetDecodedRuntimeEnv (lit "aGVs\nbG8h") = (lit "hello!", none) := by
  decide

/-- C16, amended: `GetDecodedRuntimeEnv` undoes standard base64 encoding, for
every string of bytes; and on every input that, with its line feeds and
carriage returns removed, is not valid standard base64 it returns an error
and the empty string.  On every other input it succeeds. -/
theorem GetDecodedRuntimeEnv_base64 :
    (∀ s : List Nat, (∀ b ∈ s, b < 256) →
      GetDecodedRuntimeEnv (EncodeToString s) = (s, none)) ∧
    (∀ input : GoString, isStdBase64 (stripNewlines input) = false →
      GetDecodedRuntimeEnv input = ([], some .decodeRuntimeEnv)) ∧
    (∀ input : GoString, isStdBase64 (stripNewlines input) = true →
      ∃ out, GetDecodedRuntimeEnv input = (out, none)) := by
  refine ⟨?_, ?_, ?_⟩
  · intro s hs
    unfold GetDecodedRuntimeEnv
    rw [DecodeString_EncodeToString s.length s (Nat.le_refl _) hs]
  · intro input hv
    have h := DecodeString_isSome input
    rw [hv] at h
    unfold GetDecodedRuntimeEnv
    cases hd : DecodeString input with
    | none => rfl
    | some out => rw [hd] at h; simp at h
  · intro input hv
    have h := DecodeString_isSome input
    rw [hv] at h
    unfold GetDecodedRuntimeEnv
    cases hd : DecodeString input with
    | none => rw [hd] at h; simp at h
    | some out => exact ⟨out, rfl⟩

/-- Witness of C16, amended: the five bytes of `hello` are encoded as
`aGVsbG8=` and decoded again; `aGVsbG8`, which lacks its padding, is
rejected with the empty string. -/
theorem GetDecodedRuntimeEnv_base64_witness :
    GetDecodedRuntimeEnv (EncodeToString (lit "hello")) = (lit "hello", none) ∧
    GetDecodedRuntimeEnv (lit "aGVsbG8") = ([], some .decodeRuntimeEnv) :=
  ⟨GetDecodedRuntimeEnv_base64.1 (lit "hello") (by decide),
   GetDecodedRuntimeEnv_base64.2.1 (lit "aGVsbG8") (by decide)⟩

/-- C17: for every system-key set and every mapping, the filtered mapping
holds exactly the entries whose key is not a system key, unchanged and in
their order; no system key is in it; filtering it again changes nothing.  The
nine labels of the head template of the test reduce to `test: value`, its four
annotations (and the seven of the worker template) to `custom: value`. -/
theorem filterSystemKeys_spec (systemKeys : List GoString) (m : KeyValues) :
    (∀ kv, kv ∈ filterSystemKeys systemKeys m ↔ (kv ∈ m ∧ kv.1 ∉ systemKeys)) ∧
    (filterSystemKeys systemKeys m).Sublist m ∧
    (∀ k ∈ systemKeys, k ∉ (filterSystemKeys systemKeys m).map Prod.fst) ∧
    filterSystemKeys systemKeys (filterSystemKeys systemKeys m) =
      filterSystemKeys systemKeys m ∧
    filterSystemKeys systemKeys [] = [] ∧
    convertLabels headLabels = expectedLabels ∧
    convertAnnotations headAnnotations = expectedAnnotations ∧
    convertAnnotations workerAnnotations = expectedAnnotations := by
  refine ⟨?_, ?_, ?_, ?_, rfl, by decide, by decide, by decide⟩
  · intro kv
    simp [filterSystemKeys, List.mem_filter]
  · exact List.filter_sublist _
  · intro k hk hmem
    obtain ⟨kv, hkv, rfl⟩ := List.mem_map.1 hmem
    have := (List.mem_filter.1 hkv).2
    simp only [decide_eq_true_eq] at this
    exact this hk
  · unfold filterSystemKeys
    rw [List.filter_filter]
    simp

/-- Witness of C17: on the labels of the head template the entry
`test: value` is kept and the system key `ray.io/cluster` is not among the
keys of the result. -/
theorem filterSystemKeys_spec_witness :
    (lit "test", lit "value") ∈ filterSystemKeys systemLabelKeys headLabels ∧
    RayClusterLabelKey ∉ (filterSystemKeys systemLabelKeys headLabels).map Prod.fst :=
  ⟨((filterSystemKeys_spec systemLabelKeys headLabels).1 (lit "test", lit "value")).2
      ⟨by decide, by decide⟩,
   (filterSystemKeys_spec systemLabelKeys headLabels).2.2.1 RayClusterLabelKey (by decide)⟩

/-- C20: the conversion of a job is `InvalidSpec` when both an embedded
cluster specification and a cluster selector are populated and when neither
is; with exactly one populated it succeeds, the populated one is present in
the result and the other is absent. -/
theorem FromCrdToApiJob_exclusive (job : RayJob) :
    (job.Spec.RayClusterSpec ≠ none ∧ job.Spec.ClusterSelector.len > 0 →
      FromCrdToApiJob job = .error .InvalidSpec) ∧
    (job.Spec.RayClusterSpec = none ∧ job.Spec.ClusterSelector.len = 0 →
      FromCrdToApiJob job = .error .InvalidSpec) ∧
    (job.Spec.RayClusterSpec ≠ none ∧ job.Spec.ClusterSelector.len = 0 →
      ∃ api, FromCrdToApiJob job = .ok api ∧ api.ClusterSpec ≠ none ∧
        api.ClusterSelector = none) ∧
    (job.Spec.RayClusterSpec = none ∧ job.Spec.ClusterSelector.len > 0 →
      ∃ api, FromCrdToApiJob job = .ok api ∧ api.ClusterSpec = none ∧
        api.ClusterSelector = job.Spec.ClusterSelector ∧ api.ClusterSelector ≠ none) := by
  unfold FromCrdToApiJob
  cases hs : job.Spec.RayClusterSpec with
  | none =>
    refine ⟨fun h => absurd rfl h.1, fun h => by simp [h.2], fun h => absurd rfl h.1,
      fun h => ?_⟩
    refine ⟨{ ClusterSpec := none, ClusterSelector := job.Spec.ClusterSelector },
      by simp only [h.2, if_true], rfl, rfl, ?_⟩
    intro hnone
    have := h.2
    rw [show job.Spec.ClusterSelector = none from hnone] at this
    simp [GoMap.len] at this
  | some spec =>
    refine ⟨fun h => by simp [h.2], fun h => by simp at h, fun h => ?_, fun h => by simp at h⟩
    exact ⟨{ ClusterSpec := some { source := spec }, ClusterSelector := none },
      by simp [h.2], by simp, rfl⟩

/-- Witness of C20: the two jobs of `TestPopulateJob`.  The job with an
embedded cluster specification converts to a job with a cluster specification
and no selector, the job with a selector to one with the selector and no
cluster specification; the first job with the selector of the second added is
`InvalidSpec`. -/
theorem FromCrdToApiJob_exclusive_witness :
    (∃ api, FromCrdToApiJob JobNewClusterTest = .ok api ∧ api.ClusterSpec ≠ none ∧
      api.ClusterSelector = none) ∧
    (∃ api, FromCrdToApiJob JobExistingClusterTest = .ok api ∧ api.ClusterSpec = none ∧
      api.ClusterSelector = JobExistingClusterTest.Spec.ClusterSelector ∧
      api.ClusterSelector ≠ none) ∧
    FromCrdToApiJob { JobNewClusterTest with Spec := { JobNewClusterTest.Spec with
      ClusterSelector := JobExistingClusterTest.Spec.ClusterSelector } } =
      .error .InvalidSpec ∧
    FromCrdToApiJob scenarioJob = .error .InvalidSpec :=
  ⟨(FromCrdToApiJob_exclusive JobNewClusterTest).2.2.1 ⟨by decide, by decide⟩,
   (FromCrdToApiJob_exclusive JobExistingClusterTest).2.2.2 ⟨by decide, by decide⟩,
   (FromCrdToApiJob_exclusive _).1 ⟨by decide, by decide⟩,
   (FromCrdToApiJob_exclusive scenarioJob).2.1 ⟨by decide, by decide⟩⟩

/-- Assigning a key that the mapping does not have adds the entry at the
end. -/
theorem mapSet_new {V : Type} (m : List (GoString × V)) (k : GoString) (v : V)
    (h : k ∉ m.map Prod.fst) : mapSet m k v = m ++ [(k, v)] := by
  unfold mapSet
  rw [if_neg h]

/-- A variable gives exactly one entry, under its name: a literal one or a
reference. -/
theorem entry_cases (v : EnvVar) :
    (∃ x, literalEntry v = some (v.name, x) ∧ referenceEntry v = none) ∨
    (∃ r, literalEntry v = none ∧ referenceEntry v = some (v.name, r)) := by
  obtain ⟨name, value⟩ := v
  cases value <;> simp [literalEntry, referenceEntry]

/-- The names of the literal entries of a list of variables are names of the
list. -/
theorem literal_keys_subset (vars : List EnvVar) :
    ∀ k ∈ (vars.filterMap literalEntry).map Prod.fst, k ∈ vars.map EnvVar.name := by
  intro k hk
  obtain ⟨e, he, rfl⟩ := List.mem_map.1 hk
  obtain ⟨v, hv, hve⟩ := List.mem_filterMap.1 he
  rcases entry_cases v with ⟨x, h1, -⟩ | ⟨r, h1, -⟩
  · rw [h1] at hve
    simp only [Option.some.injEq] at hve
    rw [← hve]
    exact List.mem_map.2 ⟨v, hv, rfl⟩
  · rw [h1] at hve
    simp at hve

/-- The names of the reference entries of a list of variables are names of
the list. -/
theorem reference_keys_subset (vars : List EnvVar) :
    ∀ k ∈ (vars.filterMap referenceEntry).map Prod.fst, k ∈ vars.map EnvVar.name := by
  intro k hk
  obtain ⟨e, he, rfl⟩ := List.mem_map.1 hk
  obtain ⟨v, hv, hve⟩ := List.mem_filterMap.1 he
  rcases entry_cases v with ⟨x, -, h1⟩ | ⟨r, -, h1⟩
  · rw [h1] at hve
    simp at hve
  · rw [h1] at hve
    simp only [Option.some.injEq] at hve
    rw [← hve]
    exact List.mem_map.2 ⟨v, hv, rfl⟩

/-- The conversion of variables with distinct names, none reserved and none
entered before, adds their entries in order. -/
theorem externalize_foldl (reserved : List GoString) (vars : List EnvVar) :
    ∀ env : EnvironmentVariables, (vars.map EnvVar.name).Nodup →
      (∀ v ∈ vars, v.name ∉ reserved ∧ v.name ∉ env.values.map Prod.fst ∧
        v.name ∉ env.valuesFrom.map Prod.fst) →
      vars.foldl (externalizeStep reserved) env =
        { values := env.values ++ vars.filterMap literalEntry,
          valuesFrom := env.valuesFrom ++ vars.filterMap referenceEntry } := by
  induction vars with
  | nil => intro env _ _; simp
  | cons v vars ih =>
    intro env hn hv
    rw [List.map_cons, List.nodup_cons] at hn
    obtain ⟨h1, h2, h3⟩ := hv v (List.mem_cons_self _ _)
    have hrest : ∀ w ∈ vars, w.name ≠ v.name := by
      intro w hw hwv
      exact hn.1 (List.mem_map.2 ⟨w, hw, hwv⟩)
    rw [List.foldl_cons]
    rcases entry_cases v with ⟨x, hl, hr⟩ | ⟨r, hl, hr⟩
    · have hstep : externalizeStep reserved env v =
          { env with values := env.values ++ [(v.name, x)] } := by
        simp only [externalizeStep, h1, if_false, hl, mapSet_new _ _ _ h2]
      rw [hstep, ih _ hn.2]
      · simp [List.filterMap_cons, hl, hr]
      · intro w hw
        obtain ⟨g1, g2, g3⟩ := hv w (List.mem_cons_of_mem _ hw)
        refine ⟨g1, ?_, g3⟩
        simp only [List.map_append, List.map_cons, List.map_nil, List.mem_append,
          List.mem_singleton, not_or]
        exact ⟨g2, hrest w hw⟩
    · have hstep : externalizeStep reserved env v =
          { env with valuesFrom := env.valuesFrom ++ [(v.name, r)] } := by
        simp only [externalizeStep, h1, if_false, hl, hr, mapSet_new _ _ _ h3]
      rw [hstep, ih _ hn.2]
      · simp [List.filterMap_cons, hl, hr]
      · intro w hw
        obtain ⟨g1, g2, g3⟩ := hv w (List.mem_cons_of_mem _ hw)
        refine ⟨g1, g2, ?_⟩
        simp only [List.map_append, List.map_cons, List.map_nil, List.mem_append,
          List.mem_singleton, not_or]
        exact ⟨g3, hrest w hw⟩

/-- The conversion sees only the variables whose name is not reserved. -/
theorem externalize_kept (reserved : List GoString) (vars : List EnvVar) :
    ∀ env : EnvironmentVariables,
      vars.foldl (externalizeStep reserved) env =
        (keptVars reserved vars).foldl (externalizeStep reserved) env := by
  induction vars with
  | nil => intro env; rfl
  | cons v vars ih =>
    intro env
    by_cases hv : v.name ∈ reserved
    · have hk : keptVars reserved (v :: vars) = keptVars reserved vars := by
        simp [keptVars, List.filter_cons, hv]
      rw [hk, List.foldl_cons, ← ih]
      simp [externalizeStep, hv]
    · have hk : keptVars reserved (v :: vars) = v :: keptVars reserved vars := by
        simp [keptVars, List.filter_cons, hv]
      rw [hk, List.foldl_cons, List.foldl_cons, ih]

/-- The keys of the two mappings are the names of the variables, each
once. -/
theorem entry_keys_perm (vars : List EnvVar) :
    ((vars.filterMap literalEntry).map Prod.fst ++
      (vars.filterMap referenceEntry).map Prod.fst).Perm (vars.map EnvVar.name) := by
  induction vars with
  | nil => exact List.Perm.refl _
  | cons v vars ih =>
    rcases entry_cases v with ⟨x, hl, hr⟩ | ⟨r, hl, hr⟩
    · simp only [List.filterMap_cons, hl, hr, List.map_cons, List.cons_append]
      exact List.Perm.cons _ ih
    · simp only [List.filterMap_cons, hl, hr, List.map_cons]
      exact List.perm_middle.trans (List.Perm.cons _ ih)

/-- The literal entries stand for the variables with a literal value. -/
theorem literal_entries_back (vars : List EnvVar) :
    (vars.filterMap literalEntry).map
        (fun e => ({ name := e.1, value := .literal e.2 } : EnvVar)) =
      vars.filter EnvVar.isLiteral := by
  induction vars with
  | nil => rfl
  | cons v vars ih =>
    obtain ⟨name, value⟩ := v
    cases value <;>
      simp [List.filterMap_cons, List.filter_cons, literalEntry, EnvVar.isLiteral, ih]

/-- The reference entries stand for the variables with a reference. -/
theorem reference_entries_back (vars : List EnvVar) :
    internalizeReferences (vars.filterMap referenceEntry) =
      .ok (vars.filter (fun v => !v.isLiteral)) := by
  induction vars with
  | nil => rfl
  | cons v vars ih =>
    obtain ⟨name, value⟩ := v
    cases value <;>
      simp [List.filterMap_cons, List.filter_cons, referenceEntry, literalEntry,
        EnvVar.isLiteral, internalizeReferences, internalizeReference, ih]

/-- C18 as stated fails.  The six variables of the worker container of the
test have the external form `expectedEnv` of the test, with two names:
`RAY_IP`, a name of the container, is not covered.  And a name that two
variables share, a literal and a reference, is in both mappings. -/
theorem externalize_counterexample :
    externalize workerReservedEnv workerEnv = expectedEnv ∧
    lit "RAY_IP" ∈ workerEnv.map EnvVar.name ∧
    lit "RAY_IP" ∉ expectedEnv.values.map Prod.fst ++ expectedEnv.valuesFrom.map Prod.fst ∧
    lit "TOKEN" ∈ (externalize [] sameNameEnv).values.map Prod.fst ∧
    lit "TOKEN" ∈ (externalize [] sameNameEnv).valuesFrom.map Prod.fst := by
  decide

/-- C18, amended: when the variables that the converter keeps (those whose
name is not reserved) have distinct names, the external form covers every
kept name exactly once: `values` holds the literal variables with their
values, `valuesFrom` the references with source `SECRET`, `CONFIGMAP`,
`RESOURCEFIELD` or `FIELD` and the name and key of the reference (the name
empty for `FIELD`); converting back gives the kept variables, the literals
first. -/
theorem externalize_spec (reserved : List GoString) (vars : List EnvVar)
    (hn : ((keptVars reserved vars).map EnvVar.name).Nodup) :
    (externalize reserved vars).values = (keptVars reserved vars).filterMap literalEntry ∧
    (externalize reserved vars).valuesFrom =
      (keptVars reserved vars).filterMap referenceEntry ∧
    ((externalize reserved vars).values.map Prod.fst ++
      (externalize reserved vars).valuesFrom.map Prod.fst).Perm
        ((keptVars reserved vars).map EnvVar.name) ∧
    ∃ back, internalize (externalize reserved vars) = .ok back ∧
      back.Perm (keptVars reserved vars) := by
  have hext : externalize reserved vars =
      { values := (keptVars reserved vars).filterMap literalEntry,
        valuesFrom := (keptVars reserved vars).filterMap referenceEntry } := by
    unfold externalize
    rw [externalize_kept, externalize_foldl reserved _ _ hn]
    · simp
    · intro v hv
      have := (List.mem_filter.1 hv).2
      simp only [decide_eq_true_eq] at this
      exact ⟨this, by simp, by simp⟩
  rw [hext]
  refine ⟨rfl, rfl, entry_keys_perm _, ?_⟩
  refine ⟨(keptVars reserved vars).filter EnvVar.isLiteral
    ++ (keptVars reserved vars).filter (fun v => !v.isLiteral), ?_, List.filter_append_perm _ _⟩
  unfold internalize
  simp only [reference_entries_back, literal_entries_back]

/-- Witness of C18, amended: the five variables of the head container of the
test, none reserved, give the one entry of `values` and the four of
`valuesFrom` of `expectedHeadEnv`; the two kept variables of the worker
container give `expectedEnv`. -/
theorem externalize_spec_witness :
    (externalize [] headEnv).values = [(lit "AWS_KEY", lit "123")] ∧
    (externalize [] headEnv).valuesFrom = expectedHeadEnv.valuesFrom ∧
    (∃ back, internalize (externalize [] headEnv) = .ok back ∧ back.Perm headEnv) ∧
    (externalize workerReservedEnv workerEnv).values =
      [(lit "AWS_KEY", lit "123"), (lit "AWS_SECRET", lit "1234")] := by
  obtain ⟨h1, h2, -, h4⟩ := externalize_spec [] headEnv (by decide)
  obtain ⟨g1, -, -, -⟩ := externalize_spec workerReservedEnv workerEnv (by decide)
  exact ⟨h1.trans (by decide), h2.trans (by decide), h4, g1.trans (by decide)⟩

/-- The value of the digit that `hexDigit` writes. -/
theorem hexValue_hexDigit : ∀ n, n < 16 → hexValue (hexDigit n) = some n := by
  decide

/-- A byte that is no white space is not skipped. -/
theorem skipWs_cons (c : Nat) (s : GoString)
    (h : ¬ (c = 0x20 ∨ c = 0x09 ∨ c = 0x0A ∨ c = 0x0D)) : skipWs (c :: s) = c :: s := by
  simp only [skipWs, h, if_false]

/-- Reading a JSON string gives back the string that was written, after what
was read before. -/
theorem readString_jsonStringBody (s : GoString) : ∀ (value rest : GoString),
    readString .plain value (jsonStringBody s ++ 0x22 :: rest) = some (value ++ s, rest) := by
  induction s with
  | nil => intro value rest; simp [jsonStringBody, readString]
  | cons b s ih =>
    intro value rest
    by_cases h1 : b = 0x22 ∨ b = 0x5C
    · have hu : b ≠ 0x75 := by omega
      have hun : unescape b = some b := by
        rcases h1 with h | h <;> subst h <;> decide
      simp only [jsonStringBody, h1, if_true, List.cons_append, List.nil_append,
        readString, hu, if_false, hun, ih]
      simp
    · by_cases h2 : b < 0x20
      · have e1 := hexValue_hexDigit (b / 16) (by omega)
        have e2 := hexValue_hexDigit (b % 16) (by omega)
        have e0 : hexValue 0x30 = some 0 := by decide
        have hb : ((0 * 16 + 0) * 16 + b / 16) * 16 + b % 16 = b := by omega
        have hr : runeToString b = [b] := by
          have h3 : ¬ (0x10FFFF < b ∨ 0xD800 ≤ b ∧ b ≤ 0xDFFF) := by omega
          have h4 : b < 0x80 := by omega
          simp only [runeToString, h3, if_false, utf8Encode, h4, if_true]
        simp only [jsonStringBody, h1, if_false, h2, if_true, List.cons_append, List.nil_append,
          readString, e0, e1, e2, List.length_nil, List.length_cons, List.foldl_cons,
          List.foldl_nil, hb, hr, ih]
        simp
      · have h3 : b ≠ 0x22 := fun h => h1 (Or.inl h)
        have h4 : b ≠ 0x5C := fun h => h1 (Or.inr h)
        simp only [jsonStringBody, h1, if_false, h2, List.cons_append, List.nil_append,
          readString, h3, h4]
        have e := ih (value ++ [b]) rest
        simp only [List.append_assoc, List.singleton_append] at e
        exact e

/-- Reading a JSON string gives back the string that was written. -/
theorem parseStringBody_jsonStringBody (s rest : GoString) :
    parseStringBody (jsonStringBody s ++ 0x22 :: rest) = some (s, rest) := by
  unfold parseStringBody
  rw [readString_jsonStringBody]
  simp

/-- A written member followed by more text, byte by byte. -/
theorem memberJson_append (name value rest : GoString) :
    memberJson name value ++ rest =
      0x22 :: (jsonStringBody name ++ 0x22 :: 0x3A :: 0x22 ::
        (jsonStringBody value ++ 0x22 :: rest)) := by
  simp [memberJson, jsonString, List.append_assoc]

/-- Reading a member that a comma follows. -/
theorem parseMembers_comma (fuel : Nat) (name value rest : GoString)
    (acc : List (GoString × GoString)) :
    parseMembers (fuel + 1) (memberJson name value ++ 0x2C :: rest) acc =
      parseMembers fuel rest (acc ++ [(name, value)]) := by
  rw [memberJson_append, parseMembers]
  simp only [skipWs_cons 0x22 _ (by decide), parseStringBody_jsonStringBody,
    skipWs_cons 0x3A _ (by decide), skipWs_cons 0x2C _ (by decide)]

/-- Reading a member that closes the object. -/
theorem parseMembers_close (fuel : Nat) (name value rest : GoString)
    (acc : List (GoString × GoString)) :
    parseMembers (fuel + 1) (memberJson name value ++ 0x7D :: rest) acc =
      some (acc ++ [(name, value)], rest) := by
  rw [memberJson_append, parseMembers]
  simp only [skipWs_cons 0x22 _ (by decide), parseStringBody_jsonStringBody,
    skipWs_cons 0x3A _ (by decide), skipWs_cons 0x7D _ (by decide)]

/-- Reading the members that were written gives them back, in order. -/
theorem parseMembers_membersJson (ms : List (GoString × GoString)) :
    ∀ (fuel : Nat) (acc : List (GoString × GoString)) (rest : GoString), ms ≠ [] →
      ms.length ≤ fuel → parseMembers fuel (membersJson ms ++ rest) acc = some (acc ++ ms, rest) := by
  induction ms with
  | nil => intro fuel acc rest h; exact absurd rfl h
  | cons m ms ih =>
    intro fuel acc rest _ hlen
    obtain ⟨fuel, rfl⟩ : ∃ f, fuel = f + 1 := ⟨fuel - 1, by simp at hlen; omega⟩
    cases ms with
    | nil =>
      simp only [membersJson, List.append_assoc, List.singleton_append]
      rw [parseMembers_close]
    | cons m2 ms =>
      simp only [membersJson, List.append_assoc, List.cons_append]
      rw [parseMembers_comma, ih fuel _ rest (by simp) (by simpa using hlen)]
      simp

/-- Written members take at least as many bytes as there are members. -/
theorem membersJson_length (ms : List (GoString × GoString)) :
    ms.length ≤ (membersJson ms).length := by
  induction ms with
  | nil => simp
  | cons m ms ih =>
    cases ms with
    | nil => simp [membersJson, memberJson, jsonString]
    | cons m2 ms =>
      simp only [membersJson, List.length_append, List.length_cons] at ih ⊢
      omega

/-- Written members start with the quote of the first name. -/
theorem membersJson_cons (m : GoString × GoString) (ms : List (GoString × GoString))
    (rest : GoString) : ∃ tail, membersJson (m :: ms) ++ rest = 0x22 :: tail := by
  cases ms <;> simp [membersJson, memberJson, jsonString]

/-- Reading a written object with at least one member gives its members. -/
theorem parseObject_membersJson (ms : List (GoString × GoString)) (rest : GoString)
    (h : ms ≠ []) : parseObject (membersJson ms ++ rest) = some (ms, rest) := by
  cases ms with
  | nil => exact absurd rfl h
  | cons m ms =>
    obtain ⟨tail, ht⟩ := membersJson_cons m ms rest
    have hp := parseMembers_membersJson (m :: ms)
      ((membersJson (m :: ms) ++ rest).length + 1) [] rest h (by
        have := membersJson_length (m :: ms)
        simp only [List.length_append]
        omega)
    unfold parseObject
    rw [ht] at hp ⊢
    rw [skipWs_cons 0x22 _ (by decide)]
    simpa using hp

/-- The members written for a toleration give the toleration back. -/
theorem tolerationOfMembers_tolerationMembers (t : PodToleration) :
    tolerationOfMembers (tolerationMembers t) = some t := by
  obtain ⟨k, o, v, e⟩ := t
  by_cases h : v = []
  · subst h
    rfl
  · simp only [tolerationMembers, h, if_false]
    rfl

/-- A toleration has members. -/
theorem tolerationMembers_ne_nil (t : PodToleration) : tolerationMembers t ≠ [] := by
  simp [tolerationMembers]

/-- Nothing is skipped at the end of the text. -/
theorem skipWs_nil : skipWs [] = [] := rfl

/-- Reading a toleration that a comma follows. -/
theorem parseElements_comma (fuel : Nat) (t : PodToleration) (rest : GoString)
    (acc : List PodToleration) :
    parseElements (fuel + 1) (tolerationJson t ++ 0x2C :: rest) acc =
      parseElements fuel rest (acc ++ [t]) := by
  rw [parseElements]
  simp only [tolerationJson, List.cons_append, skipWs_cons 0x7B _ (by decide),
    parseObject_membersJson _ _ (tolerationMembers_ne_nil t),
    tolerationOfMembers_tolerationMembers, skipWs_cons 0x2C _ (by decide)]

/-- Reading a toleration that closes the array and ends the text. -/
theorem parseElements_close (fuel : Nat) (t : PodToleration) (acc : List PodToleration) :
    parseElements (fuel + 1) (tolerationJson t ++ [0x5D]) acc = some (acc ++ [t]) := by
  rw [parseElements]
  simp only [tolerationJson, List.cons_append, skipWs_cons 0x7B _ (by decide),
    parseObject_membersJson _ _ (tolerationMembers_ne_nil t),
    tolerationOfMembers_tolerationMembers, skipWs_cons 0x5D _ (by decide), skipWs_nil, if_true]

/-- Reading the tolerations that were written gives them back, in order. -/
theorem parseElements_elementsJson (ts : List PodToleration) :
    ∀ (fuel : Nat) (acc : List PodToleration), ts ≠ [] → ts.length ≤ fuel →
      parseElements fuel (elementsJson ts) acc = some (acc ++ ts) := by
  induction ts with
  | nil => intro fuel acc h; exact absurd rfl h
  | cons t ts ih =>
    intro fuel acc _ hlen
    obtain ⟨fuel, rfl⟩ : ∃ f, fuel = f + 1 := ⟨fuel - 1, by simp at hlen; omega⟩
    cases ts with
    | nil =>
      simp only [elementsJson]
      rw [parseElements_close]
    | cons t2 ts =>
      simp only [elementsJson]
      rw [parseElements_comma, ih fuel _ (by simp) (by simpa using hlen)]
      simp

/-- Written tolerations take at least as many bytes as there are
tolerations. -/
theorem elementsJson_length (ts : List PodToleration) :
    ts.length ≤ (elementsJson ts).length := by
  induction ts with
  | nil => simp
  | cons t ts ih =>
    cases ts with
    | nil => simp [elementsJson, tolerationJson]
    | cons t2 ts =>
      simp only [elementsJson, List.length_append, List.length_cons] at ih ⊢
      omega

/-- Reading the JSON array that was written for a list of tolerations gives
the list back. -/
theorem parseTolerations_tolerationsJson (ts : List PodToleration) :
    parseTolerations (tolerationsJson ts) = some ts := by
  cases ts with
  | nil => rfl
  | cons t ts =>
    have hp := parseElements_elementsJson (t :: ts)
      ((tolerationsJson (t :: ts)).length + 1) [] (by simp) (by
        have := elementsJson_length (t :: ts)
        simp only [tolerationsJson, List.length_cons] at this ⊢
        omega)
    have ht : ∃ tail, elementsJson (t :: ts) = 0x7B :: tail := by
      cases ts <;> simp [elementsJson, tolerationJson]
    obtain ⟨tail, ht⟩ := ht
    unfold parseTolerations
    simp only [tolerationsJson] at hp ⊢
    rw [ht] at hp ⊢
    simp only [skipWs_cons 0x5B _ (by decide), skipWs_cons 0x7B _ (by decide)]
    simpa using hp

/-- A mapping from which a key was filtered has no value for the key. -/
theorem lookupKey_filter_self (config : KeyValues) (k : GoString) :
    lookupKey (config.filter (fun e => decide (e.1 ≠ k))) k = none := by
  induction config with
  | nil => rfl
  | cons e config ih =>
    by_cases h : e.1 = k
    · simpa [List.filter_cons, h] using ih
    · simp only [lookupKey, Option.map_eq_none'] at ih ⊢
      simp [List.filter_cons, h, List.find?_cons, ih]

/-- Filtering a key out of a mapping keeps the values of the other keys. -/
theorem lookupKey_filter_other (config : KeyValues) (k k2 : GoString) (hk : k2 ≠ k) :
    lookupKey (config.filter (fun e => decide (e.1 ≠ k))) k2 = lookupKey config k2 := by
  induction config with
  | nil => rfl
  | cons e config ih =>
    simp only [lookupKey] at ih ⊢
    by_cases h : e.1 = k
    · have h2 : e.1 ≠ k2 := fun h3 => hk (h3.symm.trans h)
      rw [List.filter_cons_of_neg (by simp [h]), List.find?_cons_of_neg _ (by simp [h2])]
      exact ih
    · by_cases h2 : e.1 = k2
      · rw [List.filter_cons_of_pos (by simp [h]), List.find?_cons_of_pos _ (by simp [h2]),
          List.find?_cons_of_pos _ (by simp [h2])]
      · rw [List.filter_cons_of_pos (by simp [h]), List.find?_cons_of_neg _ (by simp [h2]),
          List.find?_cons_of_neg _ (by simp [h2])]
        exact ih

/-- The value of the reserved key in the encoding of a list of tolerations. -/
theorem lookupKey_encodeTolerations (config : KeyValues) (ts : List PodToleration) :
    lookupKey (encodeTolerations config ts) tolerationsKey =
      if ts = [] then none else some (tolerationsJson ts) := by
  by_cases h : ts = []
  · simp only [encodeTolerations, h, if_true]
    exact lookupKey_filter_self config tolerationsKey
  · simp only [encodeTolerations, h, if_false]
    simp [lookupKey, List.find?_cons]

/-- The decoding of a configuration object whose reserved key holds the JSON
array written for a list of tolerations. -/
theorem decodeTolerations_of_lookup (config : KeyValues) (ts : List PodToleration)
    (h : lookupKey config tolerationsKey = some (tolerationsJson ts)) :
    decodeTolerations config = .ok ts := by
  simp only [decodeTolerations, h, parseTolerations_tolerationsJson]

/-- C19: decoding the tolerations of a compute-template configuration object
gives the empty list when the key "tolerations" is absent, and the tolerations
in order, with key, operator, value and effect, when the key holds their JSON
array; decoding the encoding of any list of tolerations gives that list;
encoding the empty list leaves no "tolerations" key, encoding another list
stores its JSON array under the key, and the other keys keep their values. -/
theorem decodeTolerations_spec (config : KeyValues) (ts : List PodToleration) :
    (lookupKey config tolerationsKey = none → decodeTolerations config = .ok []) ∧
    (lookupKey config tolerationsKey = some (tolerationsJson ts) →
      decodeTolerations config = .ok ts) ∧
    decodeTolerations (encodeTolerations config ts) = .ok ts ∧
    lookupKey (encodeTolerations config []) tolerationsKey = none ∧
    (ts ≠ [] →
      lookupKey (encodeTolerations config ts) tolerationsKey = some (tolerationsJson ts)) ∧
    (∀ k, k ≠ tolerationsKey →
      lookupKey (encodeTolerations config ts) k = lookupKey config k) := by
  refine ⟨?_, decodeTolerations_of_lookup config ts, ?_, ?_, ?_, ?_⟩
  · intro h
    simp only [decodeTolerations, h]
  · by_cases h : ts = []
    · subst h
      simp only [decodeTolerations, lookupKey_encodeTolerations, if_true]
    · exact decodeTolerations_of_lookup _ ts (by
        rw [lookupKey_encodeTolerations]; simp only [h, if_false])
  · rw [lookupKey_encodeTolerations]; simp only [if_true]
  · intro h
    rw [lookupKey_encodeTolerations]; simp only [h, if_false]
  · intro k hk
    by_cases h : ts = []
    · simp only [encodeTolerations, h, if_true]
      exact lookupKey_filter_other config tolerationsKey k hk
    · simp only [encodeTolerations, h, if_false]
      have h2 : tolerationsKey ≠ k := fun h3 => hk h3.symm
      have := lookupKey_filter_other config tolerationsKey k hk
      simp only [lookupKey] at this ⊢
      rw [List.find?_cons_of_neg _ (by simp [h2])]
      exact this

/-- Witness of C19: the configuration object of the test without the key has
no tolerations, and the one with a JSON array of one toleration has exactly
that toleration; encoding that toleration in the first object stores the text
of the second under the key and keeps the value of `cpu`. -/
theorem decodeTolerations_spec_witness :
    decodeTolerations configMapWithoutTolerations = .ok [] ∧
    decodeTolerations configMapWithTolerations = .ok [expectedTolerations] ∧
    lookupKey (encodeTolerations configMapWithoutTolerations [expectedTolerations])
      tolerationsKey = lookupKey configMapWithTolerations tolerationsKey ∧
    lookupKey (encodeTolerations configMapWithoutTolerations [expectedTolerations])
      (lit "cpu") = some (lit "4") :=
  ⟨(decodeTolerations_spec configMapWithoutTolerations []).1 (by decide),
   (decodeTolerations_spec configMapWithTolerations [expectedTolerations]).2.1 (by decide),
   ((decodeTolerations_spec configMapWithoutTolerations [expectedTolerations]).2.2.2.2.1
      (by decide)).trans (by decide),
   ((decodeTolerations_spec configMapWithoutTolerations [expectedTolerations]).2.2.2.2.2
      (lit "cpu") (by decide)).trans (by decide)⟩

/-- C21: for every job `GetDefaultSubmitterTemplate` returns a template with
one container, named `ray-job-submitter`, with limits cpu 1 / memory 1Gi,
requests cpu 500m / memory 200Mi and restart policy `Never`, whatever the job;
the image of the container is not empty: it is the image of the first
container of the head group when the job has a cluster specification whose
head group has a container with a non-empty image, and
`rayproject/ray:latest` when the job has no cluster specification, when the
head group has no container, and when the image of its first container is
empty. -/
theorem GetDefaultSubmitterTemplate_image (job : RayJob) :
    ∃ image : GoString,
      GetDefaultSubmitterTemplate job =
        { Spec := {
            Containers := [
              { Name := lit "ray-job-submitter"
                Image := image
                Resources := {
                  Limits := [(lit "cpu", MustParse (lit "1")), (lit "memory", MustParse (lit "1Gi"))]
                  Requests := [(lit "cpu", MustParse (lit "500m")),
                    (lit "memory", MustParse (lit "200Mi"))] } }]
            RestartPolicy := lit "Never" } } ∧
      image ≠ [] ∧
      (∀ spec container rest, job.Spec.RayClusterSpec = some spec →
        spec.HeadGroupSpec.Template.Spec.Containers = container :: rest →
        container.Image ≠ [] → image = container.Image) ∧
      (job.Spec.RayClusterSpec = none → image = lit "rayproject/ray:latest") ∧
      (∀ spec, job.Spec.RayClusterSpec = some spec →
        spec.HeadGroupSpec.Template.Spec.Containers = [] → image = lit "rayproject/ray:latest") ∧
      (∀ spec container rest, job.Spec.RayClusterSpec = some spec →
        spec.HeadGroupSpec.Template.Spec.Containers = container :: rest →
        container.Image = [] → image = lit "rayproject/ray:latest") := by
  have hdef : lit "rayproject/ray:latest" ≠ [] := by decide
  cases hs : job.Spec.RayClusterSpec with
  | none =>
    refine ⟨lit "rayproject/ray:latest", ?_, hdef, ?_, fun _ => rfl, ?_, ?_⟩
    · simp [GetDefaultSubmitterTemplate, hs, ResourceCPU, ResourceMemory, RestartPolicyNever]
    · intro spec container rest h; cases h
    · intro spec h; cases h
    · intro spec container rest h; cases h
  | some spec0 =>
    cases hc : spec0.HeadGroupSpec.Template.Spec.Containers with
    | nil =>
      refine ⟨lit "rayproject/ray:latest", ?_, hdef, ?_, ?_, fun _ _ _ => rfl,
        fun _ _ _ _ _ _ => rfl⟩
      · simp [GetDefaultSubmitterTemplate, hs, hc, ResourceCPU, ResourceMemory,
          RestartPolicyNever]
      · intro spec container rest h h2
        cases h
        rw [hc] at h2
        cases h2
      · intro h; cases h
    | cons c cs =>
      by_cases hi : c.Image = []
      · refine ⟨lit "rayproject/ray:latest", ?_, hdef, ?_, ?_, fun _ _ _ => rfl,
          fun _ _ _ _ _ _ => rfl⟩
        · simp [GetDefaultSubmitterTemplate, hs, hc, hi, ResourceCPU, ResourceMemory,
            RestartPolicyNever]
        · intro spec container rest h h2 h3
          cases h
          rw [hc] at h2
          cases h2
          exact absurd hi h3
        · intro h; cases h
      · refine ⟨c.Image, ?_, hi, ?_, ?_, ?_, ?_⟩
        · have hlen : c.Image.length ≠ 0 := fun h => hi (List.length_eq_zero.1 h)
          simp [GetDefaultSubmitterTemplate, hs, hc, hlen, ResourceCPU, ResourceMemory,
            RestartPolicyNever]
        · intro spec container rest h h2 _
          cases h
          rw [hc] at h2
          cases h2
          rfl
        · intro h; cases h
        · intro spec h h2
          cases h
          rw [hc] at h2
          cases h2
        · intro spec container rest h h2 h3
          cases h
          rw [hc] at h2
          cases h2
          exact absurd h3 hi

/-- Witness of C21: the job of the test with an embedded cluster gets the
image of its head container; a job without cluster specification, one whose
head group has no container and one whose head container has no image get
`rayproject/ray:latest`. -/
theorem GetDefaultSubmitterTemplate_image_witness :
    (GetDefaultSubmitterTemplate JobNewClusterTest).Spec.Containers.map Container.Image =
      [lit "blublinsky1/ray310:2.5.0"] ∧
    (GetDefaultSubmitterTemplate existingClusterJob).Spec.Containers.map Container.Image =
      [lit "rayproject/ray:latest"] ∧
    (GetDefaultSubmitterTemplate noContainerJob).Spec.Containers.map Container.Image =
      [lit "rayproject/ray:latest"] ∧
    (GetDefaultSubmitterTemplate noImageJob).Spec.Containers.map Container.Image =
      [lit "rayproject/ray:latest"] := by
  obtain ⟨i1, e1, -, h1, -, -, -⟩ := GetDefaultSubmitterTemplate_image JobNewClusterTest
  obtain ⟨i2, e2, -, -, h2, -, -⟩ := GetDefaultSubmitterTemplate_image existingClusterJob
  obtain ⟨i3, e3, -, -, -, h3, -⟩ := GetDefaultSubmitterTemplate_image noContainerJob
  obtain ⟨i4, e4, -, -, -, -, h4⟩ := GetDefaultSubmitterTemplate_image noImageJob
  rw [e1, e2, e3, e4]
  exact ⟨by rw [h1 ClusterSpecTest _ _ rfl rfl (by decide)]; rfl,
    by rw [h2 rfl]; rfl, by rw [h3 _ rfl rfl]; rfl, by rw [h4 _ _ _ rfl rfl rfl]; rfl⟩

/-- The metadata block panics exactly when there is metadata and no cluster
specification. -/
theorem appendMetadata_panic (job : RayJob) (pre : List GoString) :
    appendMetadata job pre = .panic ↔
      job.Spec.Metadata.len > 0 ∧ job.Spec.RayClusterSpec = none := by
  unfold appendMetadata
  by_cases hm : job.Spec.Metadata.len > 0
  · simp only [hm, if_true, true_and]
    cases hs : job.Spec.RayClusterSpec with
    | none => simp
    | some spec =>
      rcases hg : GetMetadataJson job.Spec.Metadata spec.RayVersion with ⟨mj, _ | err⟩ <;>
        simp [hg]
  · simp only [hm, if_false, false_and]
    simp

/-- With empty metadata the metadata block leaves the command as it is. -/
theorem appendMetadata_empty (job : RayJob) (pre : List GoString)
    (h : job.Spec.Metadata.len = 0) : appendMetadata job pre = .ok pre := by
  unfold appendMetadata
  simp [h]

/-- The call panics exactly when the runtime environment is fine, there is
metadata and there is no cluster specification. -/
theorem GetK8sJobCommand_panic_iff (YAMLToJSON : GoString → Option GoString) (job : RayJob) :
    GetK8sJobCommand YAMLToJSON job = .panic ↔
      (getRuntimeEnvJson YAMLToJSON job).2 = none ∧ job.Spec.Metadata.len > 0 ∧
        job.Spec.RayClusterSpec = none := by
  unfold GetK8sJobCommand
  rcases hr : getRuntimeEnvJson YAMLToJSON job with ⟨rj, _ | err⟩
  · simp only [true_and]
    have key := appendMetadata_panic job
      (if rj.length > 0 then
        GetBaseRayJobCommand job.Status.DashboardURL ++ [lit "--runtime-env-json", rj]
      else GetBaseRayJobCommand job.Status.DashboardURL)
    rcases ha : appendMetadata job
      (if rj.length > 0 then
        GetBaseRayJobCommand job.Status.DashboardURL ++ [lit "--runtime-env-json", rj]
      else GetBaseRayJobCommand job.Status.DashboardURL) with c | e | _
    · rw [ha] at key
      simp only [false_iff, reduceCtorEq] at key
      rcases hsp : Split job.Spec.Entrypoint with ⟨toks, _ | serr⟩ <;> simp [key]
    · rw [ha] at key
      simp only [false_iff, reduceCtorEq] at key
      simp [key]
    · rw [ha] at key
      simp only [true_iff] at key
      simp [key]
  · simp

/-- C24 fails on the code.  `GetK8sJobCommand` panics, on reading the Ray
version through the nil pointer `RayClusterSpec` (job.go, line 104), exactly
when the runtime environment is fine, the metadata map is not empty and the
job has no embedded cluster specification; the job in existing-cluster mode
with the metadata `job_submission_id: 123` is such a job, for every YAML
converter.  In every other case the call returns a command or an error. -/
theorem GetK8sJobCommand_nil_cluster_spec (YAMLToJSON : GoString → Option GoString) :
    (∀ job : RayJob, GetK8sJobCommand YAMLToJSON job = .panic ↔
      ((getRuntimeEnvJson YAMLToJSON job).2 = none ∧ job.Spec.Metadata.len > 0 ∧
        job.Spec.RayClusterSpec = none)) ∧
    (∀ job : RayJob, (∃ cmd, GetK8sJobCommand YAMLToJSON job = .ok cmd) ∨
      (∃ e, GetK8sJobCommand YAMLToJSON job = .err e) ∨
      GetK8sJobCommand YAMLToJSON job = .panic) ∧
    existingClusterJob.Spec.RayClusterSpec = none ∧
    existingClusterJob.Spec.ClusterSelector.len > 0 ∧
    existingClusterJob.Spec.Metadata.len > 0 ∧
    GetK8sJobCommand YAMLToJSON existingClusterJob = .panic := by
  refine ⟨GetK8sJobCommand_panic_iff YAMLToJSON, fun job => ?_, rfl, by decide, by decide, ?_⟩
  · cases GetK8sJobCommand YAMLToJSON job with
    | ok cmd => exact Or.inl ⟨cmd, rfl⟩
    | err e => exact Or.inr (Or.inl ⟨e, rfl⟩)
    | panic => exact Or.inr (Or.inr rfl)
  · exact (GetK8sJobCommand_panic_iff YAMLToJSON existingClusterJob).2
      ⟨by simp [getRuntimeEnvJson, existingClusterJob], by decide, rfl⟩

/-- C25: for a job with an empty metadata map the result of
`GetK8sJobCommand` is the same whatever the cluster specification is (absent,
or with any Ray version), the call does not panic, and a command it returns
is the base command, then flag/value pairs none of whose flags is
`--metadata-json`, then the separator `--` and the words of the entrypoint. -/
theorem GetK8sJobCommand_empty_metadata (YAMLToJSON : GoString → Option GoString)
    (job : RayJob) (h : job.Spec.Metadata.len = 0) :
    (∀ spec : Option RayClusterSpec,
      GetK8sJobCommand YAMLToJSON (withClusterSpec job spec) =
        GetK8sJobCommand YAMLToJSON job) ∧
    GetK8sJobCommand YAMLToJSON job ≠ .panic ∧
    ∀ cmd, GetK8sJobCommand YAMLToJSON job = .ok cmd →
      ∃ pairs : List (GoString × GoString),
        (∀ p ∈ pairs, p.1 ≠ lit "--metadata-json") ∧
        cmd = GetBaseRayJobCommand job.Status.DashboardURL
          ++ pairs.flatMap (fun p => [p.1, p.2])
          ++ lit "--" :: (Split job.Spec.Entrypoint).1 := by
  refine ⟨fun spec => ?_, fun hp => ?_, fun cmd hcmd => ?_⟩
  · have h2 : (withClusterSpec job spec).Spec.Metadata.len = 0 := h
    have hrt : getRuntimeEnvJson YAMLToJSON (withClusterSpec job spec) =
        getRuntimeEnvJson YAMLToJSON job := rfl
    unfold GetK8sJobCommand
    simp only [hrt, appendMetadata_empty _ _ h, appendMetadata_empty _ _ h2]
    rfl
  · have := ((GetK8sJobCommand_panic_iff YAMLToJSON job).1 hp).2.1
    omega
  · obtain ⟨rj, hrj, hs, hc⟩ := GetK8sJobCommand_pairs YAMLToJSON job cmd hcmd
    refine ⟨commandPairs job rj (Marshal job.Spec.Metadata), fun p hp => ?_, hc⟩
    have hne : ¬ job.Spec.Metadata.len > 0 := by omega
    rcases (mem_commandPairs job rj _ p).1 hp with h1 | h1 | h1 | h1 | h1 | h1
    · rw [h1.2]; exact (by decide : lit "--runtime-env-json" ≠ lit "--metadata-json")
    · exact absurd h1.1 hne
    · rw [h1.2]; exact (by decide : lit "--submission-id" ≠ lit "--metadata-json")
    · rw [h1.2]; exact (by decide : lit "--entrypoint-num-cpus" ≠ lit "--metadata-json")
    · rw [h1.2]; exact (by decide : lit "--entrypoint-num-gpus" ≠ lit "--metadata-json")
    · rw [h1.2]; exact (by decide : lit "--entrypoint-resources" ≠ lit "--metadata-json")

/-- Witness of C25: the scenario job has no metadata; without a cluster
specification, with a Ray version that does not parse and with Ray 2.5.0 it
gets the same command, in which no flag is `--metadata-json`. -/
theorem GetK8sJobCommand_empty_metadata_witness :
    GetK8sJobCommand (fun _ => none)
        (withClusterSpec scenarioJob (some { RayVersion := lit "not a version" })) =
      GetK8sJobCommand (fun _ => none) scenarioJob ∧
    GetK8sJobCommand (fun _ => none)
        (withClusterSpec scenarioJob (some { RayVersion := lit "2.5.0" })) =
      GetK8sJobCommand (fun _ => none) (withClusterSpec scenarioJob none) ∧
    GetK8sJobCommand (fun _ => none) scenarioJob ≠ .panic ∧
    ∃ pairs : List (GoString × GoString),
      (∀ p ∈ pairs, p.1 ≠ lit "--metadata-json") ∧
      [lit "ray", lit "job", lit "submit", lit "--address", lit "http://127.0.0.1:8265",
        lit "--", lit "python", lit "script.py", lit "--flag", lit "a b"] =
        GetBaseRayJobCommand scenarioJob.Status.DashboardURL
          ++ pairs.flatMap (fun p => [p.1, p.2])
          ++ lit "--" :: (Split scenarioJob.Spec.Entrypoint).1 :=
  ⟨(GetK8sJobCommand_empty_metadata (fun _ => none) scenarioJob (by decide)).1 _,
   ((GetK8sJobCommand_empty_metadata (fun _ => none) scenarioJob (by decide)).1 _).trans
     ((GetK8sJobCommand_empty_metadata (fun _ => none) scenarioJob (by decide)).1 none).symm,
   (GetK8sJobCommand_empty_metadata (fun _ => none) scenarioJob (by decide)).2.1,
   (GetK8sJobCommand_empty_metadata (fun _ => none) scenarioJob (by decide)).2.2 _ (by decide)⟩

/-- Assigning entries with distinct keys, none of them in the mapping yet,
adds them in order. -/
theorem foldl_mapSet_nodup (entries : List (GoString × GoString)) :
    ∀ acc : List (GoString × GoString), ((acc ++ entries).map Prod.fst).Nodup →
      entries.foldl (fun m kv => mapSet m kv.1 kv.2) acc = acc ++ entries := by
  induction entries with
  | nil => intro acc _; simp
  | cons e entries ih =>
    intro acc hn
    have hnew : e.1 ∉ acc.map Prod.fst := by
      intro hmem
      rw [List.map_append, List.map_cons] at hn
      exact (List.nodup_append.1 hn).2.2 hmem (List.mem_cons_self _ _)
    rw [List.foldl_cons, mapSet_new _ _ _ hnew, ih (acc ++ [e]) (by simpa using hn)]
    simp

/-- The route of a cluster, when the head service name is generated. -/
theorem BuildRouteForHeadService_ok (utils : RouteHelpers) (cluster : RayCluster)
    (serviceName : GoString)
    (h : utils.GenerateHeadServiceName (lit "RayCluster") cluster.Spec cluster.ObjectMeta.Name =
      .ok serviceName) :
    BuildRouteForHeadService utils cluster = .ok {
      ObjectMeta := {
        Name := utils.GenerateRouteName cluster.ObjectMeta.Name
        Namespace := cluster.ObjectMeta.Namespace
        Labels := some [
          (RayClusterLabelKey, cluster.ObjectMeta.Name),
          (RayIDLabelKey, utils.GenerateIdentifier cluster.ObjectMeta.Name .HeadNode),
          (KubernetesApplicationNameLabelKey, ApplicationName),
          (KubernetesCreatedByLabelKey, ComponentName)]
        Annotations := some ((rangeEntries cluster.ObjectMeta.Annotations).foldl
          (fun m kv => mapSet m kv.1 kv.2) []) }
      Spec := {
        To := { Kind := lit "Service", Name := serviceName, Weight := some 100 }
        Port := some { TargetPort :=
          (mapGet (utils.getServicePorts cluster) (lit "dashboard")).getD DefaultDashboardPort }
        WildcardPolicy := lit "None" } } := by
  unfold BuildRouteForHeadService
  simp only [h]
  cases mapGet (utils.getServicePorts cluster) (lit "dashboard") <;> rfl

/-- The route of a cluster fails with the error of the head service name. -/
theorem BuildRouteForHeadService_err (utils : RouteHelpers) (cluster : RayCluster)
    (err : GoString)
    (h : utils.GenerateHeadServiceName (lit "RayCluster") cluster.Spec cluster.ObjectMeta.Name =
      .error err) :
    BuildRouteForHeadService utils cluster = .err err := by
  unfold BuildRouteForHeadService
  simp only [h]

/-- C22: when `BuildRouteForHeadService` succeeds, the namespace of the route
is that of the cluster, its labels are the four entries `ray.io/cluster` (the
cluster name), `ray.io/identifier`, `app.kubernetes.io/name` (`kuberay`) and
`app.kubernetes.io/created-by` (`kuberay-operator`), and its annotations are a
mapping, never nil: the empty one when the cluster has none, and the entries of
the cluster otherwise.  It succeeds when the head service name is generated;
when that fails it returns the error and no route.  It does not panic. -/
theorem BuildRouteForHeadService_spec (utils : RouteHelpers) (cluster : RayCluster) :
    (∀ route, BuildRouteForHeadService utils cluster = .ok route →
      route.ObjectMeta.Namespace = cluster.ObjectMeta.Namespace ∧
      route.ObjectMeta.Labels = some [
        (lit "ray.io/cluster", cluster.ObjectMeta.Name),
        (lit "ray.io/identifier", utils.GenerateIdentifier cluster.ObjectMeta.Name .HeadNode),
        (lit "app.kubernetes.io/name", lit "kuberay"),
        (lit "app.kubernetes.io/created-by", lit "kuberay-operator")] ∧
      ∃ entries, route.ObjectMeta.Annotations = some entries ∧
        (cluster.ObjectMeta.Annotations = none → entries = []) ∧
        (∀ m, cluster.ObjectMeta.Annotations = some m → (m.map Prod.fst).Nodup →
          entries = m)) ∧
    (∀ serviceName,
      utils.GenerateHeadServiceName (lit "RayCluster") cluster.Spec cluster.ObjectMeta.Name =
        .ok serviceName →
      ∃ route, BuildRouteForHeadService utils cluster = .ok route) ∧
    (∀ err,
      utils.GenerateHeadServiceName (lit "RayCluster") cluster.Spec cluster.ObjectMeta.Name =
        .error err →
      BuildRouteForHeadService utils cluster = .err err) ∧
    BuildRouteForHeadService utils cluster ≠ .panic := by
  refine ⟨fun route hroute => ?_, fun serviceName h => ⟨_, BuildRouteForHeadService_ok _ _ _ h⟩,
    BuildRouteForHeadService_err utils cluster, ?_⟩
  · cases hg : utils.GenerateHeadServiceName (lit "RayCluster") cluster.Spec
        cluster.ObjectMeta.Name with
    | error err =>
      rw [BuildRouteForHeadService_err _ _ _ hg] at hroute
      cases hroute
    | ok serviceName =>
      rw [BuildRouteForHeadService_ok _ _ _ hg] at hroute
      cases hroute
      refine ⟨rfl, rfl, _, rfl, fun hnone => ?_, fun m hm hn => ?_⟩
      · rw [hnone]; rfl
      · rw [hm]
        exact (foldl_mapSet_nodup m [] (by simpa using hn)).trans (List.nil_append m)
  · cases hg : utils.GenerateHeadServiceName (lit "RayCluster") cluster.Spec
        cluster.ObjectMeta.Name with
    | error err => rw [BuildRouteForHeadService_err _ _ _ hg]; exact fun h => by cases h
    | ok serviceName => rw [BuildRouteForHeadService_ok _ _ _ hg]; exact fun h => by cases h

/-- Witness of C22: the cluster of the test gets a route in its namespace
`default` with its one annotation; with helper functions that generate no head
service name it gets the error and no route. -/
theorem BuildRouteForHeadService_spec_witness :
    (∃ route, BuildRouteForHeadService sampleHelpers RayClusterTest = .ok route ∧
      route.ObjectMeta.Namespace = lit "default" ∧
      route.ObjectMeta.Annotations =
        some [(lit "kubernetes.io/ingress.class", lit "nginx")]) ∧
    BuildRouteForHeadService failingHelpers RayClusterTest =
      .err (lit "no head service name") := by
  obtain ⟨route, hr⟩ :=
    (BuildRouteForHeadService_spec sampleHelpers RayClusterTest).2.1 _ rfl
  obtain ⟨h1, -, entries, h3, -, h5⟩ :=
    (BuildRouteForHeadService_spec sampleHelpers RayClusterTest).1 route hr
  refine ⟨⟨route, hr, h1, ?_⟩,
    (BuildRouteForHeadService_spec failingHelpers RayClusterTest).2.2.1 _ rfl⟩
  rw [h3, h5 _ rfl (by decide)]

/-- The labels of the route of a service: the entry of the service is added
to the labels of the route of the cluster and the identifier is replaced. -/
theorem mapSet_route_labels (name identifier serviceName serviceIdentifier : GoString) :
    mapSet (mapSet [(RayClusterLabelKey, name), (RayIDLabelKey, identifier),
        (KubernetesApplicationNameLabelKey, ApplicationName),
        (KubernetesCreatedByLabelKey, ComponentName)] RayServiceLabelKey serviceName)
      RayIDLabelKey serviceIdentifier =
    [(RayClusterLabelKey, name), (RayIDLabelKey, serviceIdentifier),
      (KubernetesApplicationNameLabelKey, ApplicationName),
      (KubernetesCreatedByLabelKey, ComponentName), (RayServiceLabelKey, serviceName)] := by
  have h1 : RayServiceLabelKey ∉ [RayClusterLabelKey, RayIDLabelKey,
      KubernetesApplicationNameLabelKey, KubernetesCreatedByLabelKey] := by decide
  have e1 : RayClusterLabelKey ≠ RayIDLabelKey := by decide
  have e2 : KubernetesApplicationNameLabelKey ≠ RayIDLabelKey := by decide
  have e3 : KubernetesCreatedByLabelKey ≠ RayIDLabelKey := by decide
  have e4 : RayServiceLabelKey ≠ RayIDLabelKey := by decide
  have s1 : mapSet [(RayClusterLabelKey, name), (RayIDLabelKey, identifier),
      (KubernetesApplicationNameLabelKey, ApplicationName),
      (KubernetesCreatedByLabelKey, ComponentName)] RayServiceLabelKey serviceName =
      [(RayClusterLabelKey, name), (RayIDLabelKey, identifier),
        (KubernetesApplicationNameLabelKey, ApplicationName),
        (KubernetesCreatedByLabelKey, ComponentName)] ++ [(RayServiceLabelKey, serviceName)] :=
    mapSet_new _ _ _ (by simpa using h1)
  rw [s1]
  unfold mapSet
  rw [if_pos (by simp)]
  simp [e1, e2, e3, e4]

/-- Reading a key other than `ray.io/service` and `ray.io/identifier` from
the labels of the two routes gives the same. -/
theorem mapGet_route_labels (name identifier serviceName serviceIdentifier k : GoString)
    (h1 : k ≠ RayServiceLabelKey) (h2 : k ≠ RayIDLabelKey) :
    mapGet [(RayClusterLabelKey, name), (RayIDLabelKey, serviceIdentifier),
      (KubernetesApplicationNameLabelKey, ApplicationName),
      (KubernetesCreatedByLabelKey, ComponentName), (RayServiceLabelKey, serviceName)] k =
    mapGet [(RayClusterLabelKey, name), (RayIDLabelKey, identifier),
      (KubernetesApplicationNameLabelKey, ApplicationName),
      (KubernetesCreatedByLabelKey, ComponentName)] k := by
  have g1 : RayServiceLabelKey ≠ k := fun h => h1 h.symm
  have g2 : RayIDLabelKey ≠ k := fun h => h2 h.symm
  unfold mapGet
  by_cases c1 : RayClusterLabelKey = k
  · simp [List.find?_cons, c1]
  · by_cases c3 : KubernetesApplicationNameLabelKey = k
    · simp [List.find?_cons, c1, c3, g2]
    · by_cases c4 : KubernetesCreatedByLabelKey = k
      · simp [List.find?_cons, c1, c3, c4, g2]
      · simp [List.find?_cons, c1, c3, c4, g1, g2]

/-- The route of a service, when both head service names are generated. -/
theorem BuildRouteForRayService_ok (utils : RouteHelpers) (service : RayService)
    (cluster : RayCluster) (clusterServiceName serviceName : GoString)
    (h1 : utils.GenerateHeadServiceName (lit "RayCluster") cluster.Spec cluster.ObjectMeta.Name =
      .ok clusterServiceName)
    (h2 : utils.GenerateHeadServiceName (lit "RayService") cluster.Spec cluster.ObjectMeta.Name =
      .ok serviceName) :
    BuildRouteForRayService utils service cluster = .ok {
      ObjectMeta := {
        Name := serviceName
        Namespace := service.ObjectMeta.Namespace
        Labels := some [
          (RayClusterLabelKey, cluster.ObjectMeta.Name),
          (RayIDLabelKey,
            utils.CheckLabel (utils.GenerateIdentifier service.ObjectMeta.Name .HeadNode)),
          (KubernetesApplicationNameLabelKey, ApplicationName),
          (KubernetesCreatedByLabelKey, ComponentName),
          (RayServiceLabelKey, service.ObjectMeta.Name)]
        Annotations := some ((rangeEntries cluster.ObjectMeta.Annotations).foldl
          (fun m kv => mapSet m kv.1 kv.2) []) }
      Spec := {
        To := { Kind := lit "Service", Name := clusterServiceName, Weight := some 100 }
        Port := some { TargetPort :=
          (mapGet (utils.getServicePorts cluster) (lit "dashboard")).getD DefaultDashboardPort }
        WildcardPolicy := lit "None" } } := by
  unfold BuildRouteForRayService
  rw [BuildRouteForHeadService_ok _ _ _ h1]
  simp only [h2, mapSet_route_labels]

/-- C23: when `BuildRouteForRayService` succeeds, `BuildRouteForHeadService`
succeeds on the cluster, and the route of the service has the specification
(target service of kind `Service`, weight 100, target port, wildcard policy
`None`) and the annotations of the route of the cluster; its name is the head
service name generated for the service, its namespace is that of the
service, the label `ray.io/service` is the name of the service, the label
`ray.io/identifier` is the identifier of the service, and every other label
is read as from the route of the cluster.  It fails with the error of
`BuildRouteForHeadService` whenever that fails, and it does not panic. -/
theorem BuildRouteForRayService_frame (utils : RouteHelpers) (service : RayService)
    (cluster : RayCluster) :
    (∀ route, BuildRouteForRayService utils service cluster = .ok route →
      ∃ head serviceName headLabels labels,
        BuildRouteForHeadService utils cluster = .ok head ∧
        utils.GenerateHeadServiceName (lit "RayService") cluster.Spec
          cluster.ObjectMeta.Name = .ok serviceName ∧
        route.Spec = head.Spec ∧
        route.Spec.To.Kind = lit "Service" ∧
        route.Spec.To.Weight = some 100 ∧
        route.Spec.WildcardPolicy = lit "None" ∧
        route.ObjectMeta.Annotations = head.ObjectMeta.Annotations ∧
        route.ObjectMeta.Name = serviceName ∧
        route.ObjectMeta.Namespace = service.ObjectMeta.Namespace ∧
        head.ObjectMeta.Labels = some headLabels ∧
        route.ObjectMeta.Labels = some labels ∧
        mapGet labels (lit "ray.io/service") = some service.ObjectMeta.Name ∧
        mapGet labels (lit "ray.io/identifier") =
          some (utils.CheckLabel (utils.GenerateIdentifier service.ObjectMeta.Name .HeadNode)) ∧
        (∀ k, k ≠ lit "ray.io/service" → k ≠ lit "ray.io/identifier" →
          mapGet labels k = mapGet headLabels k) ∧
        labels.map Prod.fst = headLabels.map Prod.fst ++ [lit "ray.io/service"]) ∧
    (∀ err, BuildRouteForHeadService utils cluster = .err err →
      BuildRouteForRayService utils service cluster = .err err) ∧
    BuildRouteForRayService utils service cluster ≠ .panic := by
  cases hg : utils.GenerateHeadServiceName (lit "RayCluster") cluster.Spec
      cluster.ObjectMeta.Name with
  | error err =>
    have hhead := BuildRouteForHeadService_err _ _ _ hg
    have hsvc : BuildRouteForRayService utils service cluster = .err err := by
      unfold BuildRouteForRayService
      rw [hhead]
    rw [hhead, hsvc]
    exact ⟨fun route h => (by cases h), fun e h => h, fun h => (by cases h)⟩
  | ok clusterServiceName =>
    have hhead := BuildRouteForHeadService_ok _ _ _ hg
    cases hs : utils.GenerateHeadServiceName (lit "RayService") cluster.Spec
        cluster.ObjectMeta.Name with
    | error err =>
      have hsvc : BuildRouteForRayService utils service cluster = .err err := by
        unfold BuildRouteForRayService
        rw [hhead]
        simp only [hs]
      rw [hhead, hsvc]
      exact ⟨fun route h => (by cases h), fun e h => (by cases h), fun h => (by cases h)⟩
    | ok serviceName =>
      have hsvc := BuildRouteForRayService_ok utils service cluster _ _ hg hs
      rw [hhead, hsvc]
      refine ⟨fun route h => ?_, fun e h => (by cases h), fun h => (by cases h)⟩
      cases h
      exact ⟨_, serviceName, _, _, rfl, rfl, rfl, rfl, rfl, rfl, rfl, rfl, rfl, rfl, rfl,
        rfl, rfl, fun k h1 h2 => mapGet_route_labels _ _ _ _ k h1 h2, rfl⟩

/-- Witness of C23: the route of the service of another namespace on the
cluster of the test has the specification and the annotation of the route of
the cluster, the namespace and the name of the service; with helper functions
that generate no head service name both builders return that error. -/
theorem BuildRouteForRayService_frame_witness :
    (∃ route head, BuildRouteForRayService sampleHelpers RayServiceTest RayClusterTest =
        .ok route ∧
      BuildRouteForHeadService sampleHelpers RayClusterTest = .ok head ∧
      route.Spec = head.Spec ∧
      route.ObjectMeta.Annotations = head.ObjectMeta.Annotations ∧
      route.ObjectMeta.Namespace = lit "serving") ∧
    BuildRouteForRayService failingHelpers RayServiceTest RayClusterTest =
      .err (lit "no head service name") := by
  have hok : ∃ route, BuildRouteForRayService sampleHelpers RayServiceTest RayClusterTest =
      .ok route := ⟨_, BuildRouteForRayService_ok _ _ _ _ _ rfl rfl⟩
  obtain ⟨route, hr⟩ := hok
  obtain ⟨head, -, -, -, hh, -, hspec, -, -, -, hann, -, hns, -⟩ :=
    (BuildRouteForRayService_frame sampleHelpers RayServiceTest RayClusterTest).1 route hr
  exact ⟨⟨route, head, hr, hh, hspec, hann, hns⟩,
    (BuildRouteForRayService_frame failingHelpers RayServiceTest RayClusterTest).2.1 _
      (BuildRouteForHeadService_err _ _ _ rfl)⟩

end KubeRay
